import Mathlib

/-!
Tegra CPU frequency cap arbitration and load-driven hotplug.

A shallow embedding of `arch/arm/mach-tegra/cpu-tegra.c` and
`arch/arm/mach-tegra/tegra_mpdecision.c`.

Conventions of the embedding:

* C globals and function statics are fields of an explicit state record
  (`CpuTegra.State`, `Mpdecision.Mpdec`); a C function becomes a Lean
  function from the state to its return value and the next state.
* Calls that leave the two files (clock framework, bus votes, cpufreq
  notifications, CPU hotplug, work queue) append an `Event` to the
  `trace` field of the state; what they return is read from an oracle
  record (`Hw`, `Tick`).  A call of `tegra_update_cpu_speed`, of
  `mpdecision_gmode_notifier` and of `tegra_lp_cpu_handler` also leaves an
  event, so that the argument a caller hands over is visible in the trace.
* `tegra_update_cpu_speed` calls `mpdecision_gmode_notifier` of
  `tegra_mpdecision.c`, which calls `tegra_cpu_set_speed_cap` and with it
  `tegra_update_cpu_speed` again.  The functions on this cycle take the
  nested `tegra_update_cpu_speed` as a parameter, and the cycle is closed by
  `tegra_update_cpu_speed_fuel`; one level of nesting is all that is ever
  entered (`fuel_enough`).
* `unsigned int`, `unsigned long` and `int` are 32 bits wide (ARM), and
  `cputime64_t` / `unsigned long long` are 64 bits wide.  Values are
  natural numbers; arithmetic that the source performs on them is taken
  modulo the width.  The kernel is built with wrapping signed arithmetic,
  so an `int` counter is kept as its 32-bit pattern.
* A `BUG_ON` that fires, and a read outside an array, is `none`.
-/

namespace CpuTegra

/-! ## Constants and types of `cpu-tegra.c` -/

/-- Modelled from the spec: the build constant `CONFIG_NR_CPUS`, which the
sources use but do not define; the spec (and the four-entry per-CPU tables of
the sources) fix it to 4. -/
def CONFIG_NR_CPUS : Nat := 4

/-- Number of values of a 32-bit machine word. -/
def U32 : Nat := 2 ^ 32

/-- The constant `ULONG_MAX` of a 32-bit `unsigned long`. -/
def ULONG_MAX : Nat := 2 ^ 32 - 1

/-- The terminator `CPUFREQ_TABLE_END` (`~1`) of a cpufreq frequency table. -/
def CPUFREQ_TABLE_END : Nat := 2 ^ 32 - 2

/-- The errno `EBUSY`. -/
def EBUSY : Int := 16

/-- The errno `ENODEV`. -/
def ENODEV : Int := 19

/-- The errno `EINVAL`. -/
def EINVAL : Int := 22

/-- Modelled from the spec: the row type `struct tegra_edp_limits` of
`mach/edp.h` (a temperature and one frequency limit per number of online
CPUs), which the sources use but do not declare. -/
structure tegra_edp_limits where
  temperature : Int
  freq_limits : List Nat
deriving DecidableEq, Repr

/-- Calls that leave `cpu-tegra.c` and the G-mode notifier of
`tegra_mpdecision.c`, and the calls of `tegra_update_cpu_speed` and of
`mpdecision_gmode_notifier` themselves, in the order in which they are issued.
`clk_set_parent lp` is `clk_set_parent(cpu_clk, lp ? cpu_lp_clk : cpu_g_clk)`;
`queue_delayed_work` and `cancel_delayed_work_sync` act on `tegra_mpdec_work`,
`queue_suspended_work` queues `tegra_mpdec_suspended_work`. -/
inductive Event where
  | tegra_update_cpu_speed (rate : Nat)
  | clk_set_rate_cpu (hz : Nat)
  | clk_set_rate_emc (hz : Nat)
  | tegra_update_mselect_rate (khz : Nat)
  | mpdecision_gmode_notifier
  | clk_set_parent (lp : Bool)
  | queue_delayed_work (ms : Nat)
  | cancel_delayed_work_sync
  | queue_suspended_work (delay : Nat)
  | cpufreq_notify_transition (cpu old new : Nat) (post : Bool)
  | tegra_auto_hotplug_governor (khz : Nat) (suspend : Bool)
  | tegra_cpu_dvfs_alter (index : Int) (before : Bool)
  | tegra_edp_throttle_cpu_now (factor : Nat)
deriving DecidableEq, Repr

/-- What the services outside the two files answer during one call into
`cpu-tegra.c`: the thermal throttle governor, the clock framework and the bus
votes, with return codes `0` for success and a negative errno otherwise.
`clk_round_rate lp hz` is the answer of `clk_round_rate(cpu_clk, hz)` while
`is_lp_cluster()` is `lp`; `clk_set_parent lp` is the return code of
`clk_set_parent(cpu_clk, lp ? cpu_lp_clk : cpu_g_clk)` and
`clk_parent_rate lp hz` the rate of the CPU clock after that switch has
succeeded at the rate `hz`.  For the G-mode notifier of `tegra_mpdecision.c`
the record also holds what that file finds when it is entered: whether one of
its three clock handles is an error pointer (`clk_err`), whether
`mutex_trylock` obtains `mpdec_tegra_cpu_lock` (`cpu_lock`) and
`mpdec_tegra_lpcpu_lock` (`lpcpu_lock`), and the flag
`per_cpu(tegra_mpdec_cpudata, 0).device_suspended`. -/
structure Hw where
  tegra_throttle_governor_speed : Nat → Nat
  clk_round_rate : Bool → Nat → Nat
  clk_set_rate_cpu : Nat → Int
  clk_set_rate_emc : Nat → Int
  tegra_update_mselect_rate : Nat → Int
  tegra_emc_to_cpu_ratio : Nat → Nat
  clk_set_parent : Bool → Int
  clk_parent_rate : Bool → Nat → Nat
  clk_err : Bool
  cpu_lock : Bool
  lpcpu_lock : Bool
  device_suspended : Bool

/-- The file-level variables of `cpu-tegra.c`, the CPU online mask, the state
of the CPU clock (`cpu_rate` in Hz, `lp_cluster` for `is_lp_cluster()`), and
the trace of calls issued so far.  `freq_table` holds the entries that precede
the `CPUFREQ_TABLE_END` terminator. -/
structure State where
  freq_table : List Nat
  policy_max_speed : Nat → Nat
  target_cpu_speed : Nat → Nat
  is_suspended : Bool
  force_policy_max : Bool
  cpu_user_cap : Nat
  cpu_edp_limits : Option (List tegra_edp_limits)
  system_edp_limits : Option (List Nat)
  system_edp_alarm : Bool
  edp_thermal_index : Int
  edp_cpumask : Nat → Bool
  edp_limit : Nat
  cpu_online : Nat → Bool
  cpu_rate : Nat
  lp_cluster : Bool
  trace : List Event

/-- Append one call to the trace. -/
def emit (s : State) (e : Event) : State :=
  { s with trace := s.trace ++ [e] }

/-- The CPUs that `for_each_online_cpu` visits, in ascending order. -/
def online_cpus (s : State) : List Nat :=
  (List.range CONFIG_NR_CPUS).filter s.cpu_online

/-- Entry `freq_table[i].frequency`; index `freq_table.length` is the
terminator. -/
def freq_at (s : State) (i : Nat) : Nat :=
  s.freq_table.getD i CPUFREQ_TABLE_END

/-- The scan shared by `_cpu_user_cap_set_locked` and `edp_update_limit`:
`for (i = 0; freq_table[i].frequency != CPUFREQ_TABLE_END; i++)
   if (freq_table[i].frequency > limit) break;`
started at index `i` on the remaining entries; the result is the index at
which the loop stops. -/
def freq_scan (limit : Nat) : List Nat → Nat → Nat
  | [], i => i
  | f :: rest, i => if f > limit then i else freq_scan limit rest (i + 1)

/-- The body of `_cpu_user_cap_set_locked` before it calls
`tegra_cpu_set_speed_cap` (built without `CONFIG_TEGRA_CPU_CAP_EXACT_FREQ`). -/
def cpu_user_cap_round (s : State) : State :=
  if s.cpu_user_cap ≠ 0 then
    let i := freq_scan s.cpu_user_cap s.freq_table 0
    let i := if i = 0 then 0 else i - 1
    { s with cpu_user_cap := freq_at s i }
  else s

/-- The function `user_cap_speed`. -/
def user_cap_speed (s : State) (requested_speed : Nat) : Nat :=
  if s.cpu_user_cap ≠ 0 ∧ requested_speed > s.cpu_user_cap then s.cpu_user_cap
  else requested_speed

/-- The function `edp_predict_limit`; `none` when a `BUG_ON` fires or a table
is read outside its bounds. -/
def edp_predict_limit (s : State) (cpus : Nat) : Option Nat :=
  if cpus = 0 then none
  else
    let limit : Option Nat :=
      match s.cpu_edp_limits with
      | none => some 0
      | some tbl =>
        if s.edp_thermal_index ≥ (tbl.length : Int) then none
        else if s.edp_thermal_index < 0 then none
        else
          match tbl.get? s.edp_thermal_index.toNat with
          | none => none
          | some row => row.freq_limits.get? (cpus - 1)
    match limit with
    | none => none
    | some limit =>
      match s.system_edp_limits with
      | some sys =>
        if s.system_edp_alarm then
          match sys.get? (cpus - 1) with
          | none => none
          | some l => some (min limit l)
        else some limit
      | none => some limit

/-- The value `cpumask_weight(&edp_cpumask)`. -/
def edp_cpumask_weight (s : State) : Nat :=
  ((List.range CONFIG_NR_CPUS).filter s.edp_cpumask).length

/-- The function `edp_update_limit` (built without
`CONFIG_TEGRA_EDP_EXACT_FREQ`); `none` when `BUG_ON(i == 0)` fires. -/
def edp_update_limit (s : State) : Option State :=
  match edp_predict_limit s (edp_cpumask_weight s) with
  | none => none
  | some limit =>
    let i := freq_scan limit s.freq_table 0
    if i = 0 then none
    else some { s with edp_limit := freq_at s (i - 1) }

/-- The function `edp_governor_speed`. -/
def edp_governor_speed (s : State) (requested_speed : Nat) : Nat :=
  if s.edp_limit = 0 ∨ requested_speed ≤ s.edp_limit then requested_speed
  else s.edp_limit

/-- The function `tegra_getspeed`. -/
def tegra_getspeed (s : State) (cpu : Nat) : Nat :=
  if cpu ≥ CONFIG_NR_CPUS then 0 else s.cpu_rate / 1000

/-- The macro `IS_ERR_VALUE` on a 32-bit `unsigned long`. -/
def IS_ERR_VALUE (x : Nat) : Bool :=
  decide (x ≥ U32 - 4095)

/-- The function `tegra_cpu_highest_speed`: one pass over the online CPUs
that keeps `policy_max` and `rate`, then `min(rate, policy_max)`. -/
def tegra_cpu_highest_speed (s : State) : Nat :=
  let acc := (online_cpus s).foldl
    (fun (acc : Nat × Nat) i =>
      ((if s.force_policy_max then min acc.1 (s.policy_max_speed i) else acc.1),
       max acc.2 (s.target_cpu_speed i)))
    (ULONG_MAX, 0)
  min acc.2 acc.1

/-- The value of `freqs.new` after `clk_round_rate` in
`tegra_update_cpu_speed`. -/
def rounded_speed (hw : Hw) (s : State) (rate : Nat) : Nat :=
  let r := hw.clk_round_rate s.lp_cluster ((rate * 1000) % U32)
  if IS_ERR_VALUE r then rate else r / 1000

/-- The test that guards the low-power-cluster block of
`tegra_update_cpu_speed`:
`freqs.new < rate_save && rate_save >= 880000` and `is_lp_cluster()`. -/
def lp_override (hw : Hw) (s : State) (rate : Nat) : Bool :=
  decide (rounded_speed hw s rate < rate ∧ rate ≥ 880000) && s.lp_cluster

/-- The value of `freqs.new` when `tegra_update_cpu_speed` reaches the bus
vote. -/
def target_speed (hw : Hw) (s : State) (rate : Nat) : Nat :=
  if lp_override hw s rate then rate else rounded_speed hw s rate

/-- A call `clk_set_rate(cpu_clk, hz)`: the clock takes the rate when the call
succeeds. -/
def clk_set_rate_cpu (hw : Hw) (s : State) (hz : Nat) : Int × State :=
  let s := emit s (.clk_set_rate_cpu hz)
  if hw.clk_set_rate_cpu hz = 0 then (0, { s with cpu_rate := hz })
  else (hw.clk_set_rate_cpu hz, s)

/-- The loop `for_each_online_cpu(freqs.cpu) cpufreq_notify_transition(...)`. -/
def notify_transition (s : State) (old new : Nat) (post : Bool) : State :=
  { s with trace := s.trace ++
      (online_cpus s).map (fun cpu => Event.cpufreq_notify_transition cpu old new post) }

/-- The part of `tegra_update_cpu_speed` from the pre-change notification to
its end. -/
def apply_cpu_rate (hw : Hw) (s : State) (old new : Nat) : Int × State :=
  let s := notify_transition s old new false
  let r := clk_set_rate_cpu hw s ((new * 1000) % U32)
  if r.1 ≠ 0 then (r.1, r.2)
  else
    let s := notify_transition r.2 old new true
    if old > new then
      let s := emit s (.clk_set_rate_emc (hw.tegra_emc_to_cpu_ratio new))
      let s := emit s (.tegra_update_mselect_rate new)
      (0, s)
    else (0, s)

/-- The part of `tegra_update_cpu_speed` from the memory-bus vote to its end. -/
def vote_and_apply (hw : Hw) (s : State) (old new : Nat) : Int × State :=
  if old < new then
    let s := emit s (.tegra_update_mselect_rate new)
    if hw.tegra_update_mselect_rate new ≠ 0 then
      (hw.tegra_update_mselect_rate new, s)
    else
      let s := emit s (.clk_set_rate_emc (hw.tegra_emc_to_cpu_ratio new))
      if hw.clk_set_rate_emc (hw.tegra_emc_to_cpu_ratio new) ≠ 0 then
        (hw.clk_set_rate_emc (hw.tegra_emc_to_cpu_ratio new), s)
      else apply_cpu_rate hw s old new
  else apply_cpu_rate hw s old new

/-- The speed that `tegra_cpu_set_speed_cap` computes from the highest
requested speed: thermal throttle, then EDP limit, then user cap. -/
def capped_speed (hw : Hw) (s : State) : Nat :=
  user_cap_speed s (edp_governor_speed s
    (hw.tegra_throttle_governor_speed (tegra_cpu_highest_speed s)))

/-- The body of `tegra_cpu_set_speed_cap`, with the function that it calls as
`tegra_update_cpu_speed` as the parameter `upd`.  `speed_cap` tells whether
the pointer argument is non-NULL; the middle component of the result is the
value stored through it, if any. -/
def set_speed_cap_with (upd : State → Nat → Int × State) (hw : Hw) (s : State)
    (speed_cap : Bool) : Int × Option Nat × State :=
  if s.is_suspended then (-EBUSY, none, s)
  else
    let new_speed := capped_speed hw s
    let written := if speed_cap then some new_speed else none
    let r := upd s new_speed
    if r.1 = 0 then
      (0, written, emit r.2 (.tegra_auto_hotplug_governor new_speed false))
    else (r.1, written, r.2)

/-- The constant `TEGRA_MPDEC_LPCPU_UPDELAY` of `tegra_mpdecision.c`. -/
def TEGRA_MPDEC_LPCPU_UPDELAY : Nat := 130

/-- The constant `TEGRA_MPDEC_LPCPU_DOWNDELAY` of `tegra_mpdecision.c`. -/
def TEGRA_MPDEC_LPCPU_DOWNDELAY : Nat := 2000

/-- The function `tegra_lp_cpu_handler` of `tegra_mpdecision.c` as it acts on
the state of `cpu-tegra.c`; `state = true` switches to the companion core,
`state = false` back to the main cluster, and the result is `1` on success
and `0` on failure.  After a successful `clk_set_parent` the cluster is the
one asked for, and the handler calls `tegra_cpu_set_speed_cap(NULL)`, whose
return value it drops.  The statistics that the handler then writes to
`tegra_mpdec_lpcpudata` and `tegra_mpdec_cpudata` are variables of
`tegra_mpdecision.c` that `cpu-tegra.c` never reads
(`Mpdecision.tegra_lp_cpu_handler` follows them); the argument `notifier`
only selects a log message. -/
def tegra_lp_cpu_handler (upd : State → Nat → Int × State) (hw : Hw) (s : State)
    (state _notifier : Bool) : Nat × State :=
  if hw.clk_err then (0, s)
  else if !hw.lpcpu_lock then (0, s)
  else
    let s := emit s (.clk_set_parent state)
    if hw.clk_set_parent state = 0 then
      let s := { s with lp_cluster := state, cpu_rate := hw.clk_parent_rate state s.cpu_rate }
      let s := (set_speed_cap_with upd hw s false).2.2
      (1, s)
    else (0, s)

/-- The function `mpdecision_gmode_notifier` of `tegra_mpdecision.c` as it
acts on the state of `cpu-tegra.c`: it leaves at once unless
`is_lp_cluster()`, then needs `mpdec_tegra_cpu_lock`, runs
`tegra_lp_cpu_handler(false, true)` and, when that has succeeded, re-arms the
work of mpdecision (where it also sets `was_paused`, a variable of
`tegra_mpdecision.c`).  The result is `1` when the switch to the main cluster
was made and `0` otherwise. -/
def mpdecision_gmode_notifier (upd : State → Nat → Int × State) (hw : Hw) (s : State) :
    Int × State :=
  let s := emit s .mpdecision_gmode_notifier
  if !s.lp_cluster then (0, s)
  else if !hw.cpu_lock then (0, s)
  else
    let r := tegra_lp_cpu_handler upd hw s false true
    if r.1 ≠ 0 then
      if hw.device_suspended then
        (1, emit r.2 (.queue_suspended_work TEGRA_MPDEC_LPCPU_UPDELAY))
      else
        let s := emit r.2 .cancel_delayed_work_sync
        (1, emit s (.queue_delayed_work TEGRA_MPDEC_LPCPU_DOWNDELAY))
    else (0, r.2)

/-- The low-power-cluster block of `tegra_update_cpu_speed`: set the rate to
the maximum of LP mode and call `mpdecision_gmode_notifier` to switch to G
mode; the return values of both calls are only logged. -/
def leave_lp_mode (upd : State → Nat → Int × State) (hw : Hw) (s : State) : State :=
  let s := (clk_set_rate_cpu hw s (475000 * 1000)).2
  (mpdecision_gmode_notifier upd hw s).2

/-- The body of `tegra_update_cpu_speed`, with the nested
`tegra_update_cpu_speed` that the G-mode notifier reaches through
`tegra_cpu_set_speed_cap` as the parameter `upd`. -/
def update_cpu_speed_body (upd : State → Nat → Int × State) (hw : Hw) (s : State)
    (rate : Nat) : Int × State :=
  let s := emit s (.tegra_update_cpu_speed rate)
  let old := tegra_getspeed s 0
  if old = rounded_speed hw s rate then (0, s)
  else if lp_override hw s rate then
    vote_and_apply hw (leave_lp_mode upd hw s) old rate
  else vote_and_apply hw s old (rounded_speed hw s rate)

/-- The function `tegra_update_cpu_speed` with at most `n` levels of nested
calls of itself through the G-mode notifier; a nested call beyond that level
does nothing. -/
def tegra_update_cpu_speed_fuel : Nat → Hw → State → Nat → Int × State
  | 0, hw, s, rate => update_cpu_speed_body (fun s _ => (0, s)) hw s rate
  | n + 1, hw, s, rate =>
    update_cpu_speed_body (tegra_update_cpu_speed_fuel n hw) hw s rate

/-- The function `tegra_update_cpu_speed`.  The nested call that the G-mode
notifier makes runs on the main cluster, where the low-power-cluster block is
not entered, so that one level of nesting is all there is: more fuel changes
nothing (`fuel_enough`). -/
def tegra_update_cpu_speed (hw : Hw) (s : State) (rate : Nat) : Int × State :=
  tegra_update_cpu_speed_fuel 1 hw s rate

/-- The function `tegra_cpu_set_speed_cap`.  `speed_cap` tells whether the
pointer argument is non-NULL; the middle component of the result is the value
stored through it, if any. -/
def tegra_cpu_set_speed_cap (hw : Hw) (s : State) (speed_cap : Bool) :
    Int × Option Nat × State :=
  set_speed_cap_with (tegra_update_cpu_speed hw) hw s speed_cap

/-- The function `tegra_suspended_target`. -/
def tegra_suspended_target (hw : Hw) (s : State) (target_freq : Nat) : Int × State :=
  if !s.is_suspended then (-EBUSY, s)
  else
    tegra_update_cpu_speed hw s
      (edp_governor_speed s (hw.tegra_throttle_governor_speed target_freq))

/-- The function `_cpu_user_cap_set_locked`. -/
def _cpu_user_cap_set_locked (hw : Hw) (s : State) : State :=
  (tegra_cpu_set_speed_cap hw (cpu_user_cap_round s) false).2.2

/-- The function `tegra_cpu_user_cap_set`. -/
def tegra_cpu_user_cap_set (hw : Hw) (s : State) (speed_khz : Nat) : State :=
  _cpu_user_cap_set_locked hw { s with cpu_user_cap := speed_khz }

/-- The search loop of `tegra_edp_update_thermal_zone` over the rows from
index `i` on: the index it assigns before `break`, if it breaks. -/
def thermal_zone_scan (temperature : Int) : List tegra_edp_limits → Nat → Option Nat
  | a :: b :: rest, i =>
    if temperature ≥ a.temperature ∧ temperature < b.temperature then some (i + 1)
    else thermal_zone_scan temperature (b :: rest) (i + 1)
  | _, _ => none

/-- The index that `tegra_edp_update_thermal_zone` computes for a table with
first row `row0`. -/
def thermal_zone_index (tbl : List tegra_edp_limits) (row0 : tegra_edp_limits)
    (temperature : Int) : Int :=
  if temperature < row0.temperature then 0
  else
    match thermal_zone_scan temperature tbl 0 with
    | some i => (i : Int)
    | none => (tbl.length : Int) - 1

/-- The function `tegra_edp_update_thermal_zone`; `none` when the table is
read outside its bounds or `edp_update_limit` stops at a `BUG_ON`. -/
def tegra_edp_update_thermal_zone (hw : Hw) (s : State) (temperature : Int) :
    Option (Int × State) :=
  match s.cpu_edp_limits with
  | none => some (-EINVAL, s)
  | some [] => none
  | some (row0 :: rest) =>
    let index := thermal_zone_index (row0 :: rest) row0 temperature
    let s := { s with edp_thermal_index := index }
    let s := emit s (.tegra_cpu_dvfs_alter index true)
    if s.target_cpu_speed 0 ≠ 0 then
      match edp_update_limit s with
      | none => none
      | some s =>
        let s := (tegra_cpu_set_speed_cap hw s false).2.2
        some (0, emit s (.tegra_cpu_dvfs_alter index false))
    else some (0, emit s (.tegra_cpu_dvfs_alter index false))

/-- The function `tegra_system_edp_alarm`; `none` when `edp_update_limit`
stops at a `BUG_ON`. -/
def tegra_system_edp_alarm (hw : Hw) (s : State) (alarm : Bool) : Option (Int × State) :=
  let s := { s with system_edp_alarm := alarm }
  if s.target_cpu_speed 0 ≠ 0 then
    match edp_update_limit s with
    | none => none
    | some s =>
      let r := tegra_cpu_set_speed_cap hw s false
      if r.1 = 0 ∨ alarm = false then
        some (r.1, emit r.2.2 (.tegra_edp_throttle_cpu_now 0))
      else some (r.1, r.2.2)
  else
    if alarm = false then some (-ENODEV, emit s (.tegra_edp_throttle_cpu_now 0))
    else some (-ENODEV, s)

/-- Modelled from the spec: the value of
`ARRAY_SIZE(cpu_edp_limits->freq_limits)`, the width of a row of the per-CPU
EDP table, which `mach/edp.h` fixes and the sources do not show; a row holds
one limit per number of online CPUs. -/
def FREQ_LIMITS_SIZE : Nat := CONFIG_NR_CPUS

/-- The product of two `unsigned int` values. -/
def mul32 (a b : Nat) : Nat := (a * b) % U32

/-- The value of the `int` expression `100 + mp_overhead` once it is converted
to `unsigned int` for the product with an `unsigned int`. -/
def overhead_factor (mp_overhead : Int) : Nat :=
  ((100 + mp_overhead) % (U32 : Int)).toNat

/-- The function `tegra_cpu_edp_favor_up`; `none` when `edp_predict_limit`
stops at a `BUG_ON` or reads outside a table. -/
def tegra_cpu_edp_favor_up (s : State) (n : Nat) (mp_overhead : Int) : Option Bool :=
  if n = 0 then some true
  else if n ≥ FREQ_LIMITS_SIZE then some false
  else
    match edp_predict_limit s n, edp_predict_limit s (n + 1) with
    | some current_limit, some next_limit =>
      some (decide (mul32 next_limit (n + 1) ≥
        mul32 (mul32 current_limit n) (overhead_factor mp_overhead) / 100))
    | _, _ => none

/-- The function `tegra_cpu_edp_favor_down`; `none` when `edp_predict_limit`
stops at a `BUG_ON` or reads outside a table. -/
def tegra_cpu_edp_favor_down (s : State) (n : Nat) (mp_overhead : Int) : Option Bool :=
  if n ≤ 1 then some false
  else if n > FREQ_LIMITS_SIZE then some true
  else
    match edp_predict_limit s n, edp_predict_limit s (n - 1) with
    | some current_limit, some next_limit =>
      some (decide (mul32 (mul32 next_limit (n - 1)) (overhead_factor mp_overhead) / 100 >
        mul32 current_limit n))
    | _, _ => none

/-- The hotplug events that `tegra_cpu_edp_notify` distinguishes. -/
inductive hotplug_event where
  | CPU_UP_PREPARE
  | CPU_DEAD
  | other
deriving DecidableEq, Repr

/-- The call `cpu_set(cpu, edp_cpumask)`. -/
def edp_cpu_set (s : State) (cpu : Nat) : State :=
  { s with edp_cpumask := Function.update s.edp_cpumask cpu true }

/-- The call `cpu_clear(cpu, edp_cpumask)`. -/
def edp_cpu_clear (s : State) (cpu : Nat) : State :=
  { s with edp_cpumask := Function.update s.edp_cpumask cpu false }

/-- The function `tegra_cpu_edp_notify`.  The first component of the result is
`ret`, the errno that the function hands to `notifier_from_errno`; the result
is `none` when `edp_update_limit` stops at a `BUG_ON`. -/
def tegra_cpu_edp_notify (hw : Hw) (s : State) (event : hotplug_event) (cpu : Nat) :
    Option (Int × State) :=
  match event with
  | .CPU_UP_PREPARE =>
    match edp_update_limit (edp_cpu_set s cpu) with
    | none => none
    | some s =>
      let cpu_speed := tegra_getspeed s 0
      let new_speed := edp_governor_speed s cpu_speed
      if new_speed < cpu_speed then
        let r := tegra_cpu_set_speed_cap hw s false
        if r.1 ≠ 0 then
          match edp_update_limit (edp_cpu_clear r.2.2 cpu) with
          | none => none
          | some s => some (r.1, s)
        else some (0, r.2.2)
      else some (0, s)
  | .CPU_DEAD =>
    match edp_update_limit (edp_cpu_clear s cpu) with
    | none => none
    | some s => some (0, (tegra_cpu_set_speed_cap hw s false).2.2)
  | .other => some (0, s)

/-! ## Notions used to state the properties of `cpu-tegra.c` -/

/-- The speeds handed to `tegra_update_cpu_speed` in a sequence of calls. -/
def handed_speeds : List Event → List Nat
  | [] => []
  | Event.tegra_update_cpu_speed rate :: rest => rate :: handed_speeds rest
  | _ :: rest => handed_speeds rest

/-- A speed is within every limit that is set in a state: the EDP limit
unless it is 0, and the user cap unless it is 0. -/
def within_limits (s : State) (v : Nat) : Prop :=
  (s.edp_limit ≠ 0 → v ≤ s.edp_limit) ∧ (s.cpu_user_cap ≠ 0 → v ≤ s.cpu_user_cap)

/-- The clamp of the spec on the limit snapshot of a state: EDP limit, then
user cap. -/
def clamp (s : State) (x : Nat) : Nat :=
  user_cap_speed s (edp_governor_speed s x)

/-- The maximum of `target_cpu_speed` over the online cores (0 when no core
is online). -/
def max_target_online (s : State) : Nat :=
  ((online_cpus s).map s.target_cpu_speed).foldr max 0

/-- The minimum of `policy_max_speed` over the online cores (`ULONG_MAX` when
no core is online). -/
def min_policy_max_online (s : State) : Nat :=
  ((online_cpus s).map s.policy_max_speed).foldr min ULONG_MAX

/-- An event is an operation on the CPU clock: a rate change, a switch of
the clock parent, or the request to switch the clock parent to G mode. -/
def is_cpu_clock_op : Event → Bool
  | Event.clk_set_rate_cpu _ => true
  | Event.mpdecision_gmode_notifier => true
  | Event.clk_set_parent _ => true
  | _ => false

/-- An event is a cpufreq transition notification. -/
def is_notification : Event → Bool
  | Event.cpufreq_notify_transition _ _ _ _ => true
  | _ => false

/-- The raise of the memory-bus vote fails for the frequency `new`: either
`tegra_update_mselect_rate` fails, or it succeeds and `clk_set_rate` on the
EMC clock fails. -/
def bus_vote_fails (hw : Hw) (new : Nat) : Prop :=
  hw.tegra_update_mselect_rate new ≠ 0 ∨
    hw.clk_set_rate_emc (hw.tegra_emc_to_cpu_ratio new) ≠ 0

/-- The error that a failed raise of the memory-bus vote returns. -/
def bus_vote_error (hw : Hw) (new : Nat) : Int :=
  if hw.tegra_update_mselect_rate new ≠ 0 then hw.tegra_update_mselect_rate new
  else hw.clk_set_rate_emc (hw.tegra_emc_to_cpu_ratio new)

/-- The state `s'` differs from `s` at most in the CPU clock and in calls
appended to the trace, none of which is a call of `tegra_update_cpu_speed`. -/
def Quiet (s s' : State) : Prop :=
  ∃ evs, handed_speeds evs = [] ∧
    s' = { s with trace := s.trace ++ evs, cpu_rate := s'.cpu_rate, lp_cluster := s'.lp_cluster }

/-- The state `s'` differs from `s` at most in the CPU clock and in calls
appended to the trace, among which `tegra_update_cpu_speed` is called at most
once, with the speed `v`. -/
def Hands (v : Nat) (s s' : State) : Prop :=
  ∃ evs, (handed_speeds evs = [] ∨ handed_speeds evs = [v]) ∧
    s' = { s with trace := s.trace ++ evs, cpu_rate := s'.cpu_rate, lp_cluster := s'.lp_cluster }

/-- The calls that a run from the state `s` to the state `s'` has appended to
the trace. -/
def calls_since (s s' : State) : List Event :=
  s'.trace.drop s.trace.length

/-- The calls of the low-power-cluster block in a call
`tegra_update_cpu_speed(rate)` from the state `s`, if the block is entered:
`clk_set_rate` on the CPU clock, the call of `mpdecision_gmode_notifier`, and
all that the notifier does. -/
def lp_block_calls (hw : Hw) (s : State) (rate : Nat) : List Event :=
  if lp_override hw s rate then
    calls_since (emit s (.tegra_update_cpu_speed rate))
      (leave_lp_mode (tegra_update_cpu_speed_fuel 0 hw) hw
        (emit s (.tegra_update_cpu_speed rate)))
  else []

/-- The state `s` with other values for the user cap, the force-policy-max
flag and the per-core targets. -/
def with_policy (s : State) (cap : Nat) (fpm : Bool) (tgt : Nat → Nat) : State :=
  { s with cpu_user_cap := cap, force_policy_max := fpm, target_cpu_speed := tgt }

/-- The G-mode notifier gets as far as `clk_set_parent`: it obtains
`mpdec_tegra_cpu_lock`, the clock handles of `tegra_lp_cpu_handler` are valid,
and that function obtains `mpdec_tegra_lpcpu_lock`. -/
def notifier_enters (hw : Hw) : Bool :=
  hw.cpu_lock && !hw.clk_err && hw.lpcpu_lock

/-- The calls of a raise of the memory-bus vote for the frequency `new` that
fails: the mselect vote, then the EMC vote if the mselect vote succeeded. -/
def failed_vote_calls (hw : Hw) (new : Nat) : List Event :=
  Event.tegra_update_mselect_rate new ::
    (if hw.tegra_update_mselect_rate new ≠ 0 then []
     else [Event.clk_set_rate_emc (hw.tegra_emc_to_cpu_ratio new)])

/-- A hardware oracle in which every call succeeds, `clk_round_rate` returns
its argument, a switch of the clock parent keeps the rate, and the G-mode
notifier finds its clock handles valid, both locks free and the device not
suspended. -/
def sample_hw : Hw :=
  { tegra_throttle_governor_speed := fun v => v
    clk_round_rate := fun _ hz => hz
    clk_set_rate_cpu := fun _ => 0
    clk_set_rate_emc := fun _ => 0
    tegra_update_mselect_rate := fun _ => 0
    tegra_emc_to_cpu_ratio := fun khz => khz * 500
    clk_set_parent := fun _ => 0
    clk_parent_rate := fun _ hz => hz
    clk_err := false
    cpu_lock := true
    lpcpu_lock := true
    device_suspended := false }

/-- A running system: two cores online at 475 MHz on the main cluster, a
twelve-entry frequency table, both EDP tables present, no alarm. -/
def sample_state : State :=
  { freq_table := [51000, 102000, 204000, 340000, 475000, 640000, 760000, 860000,
      1000000, 1100000, 1200000, 1300000]
    policy_max_speed := fun _ => 1300000
    target_cpu_speed := fun c => if c = 0 then 1000000 else 640000
    is_suspended := false
    force_policy_max := false
    cpu_user_cap := 0
    cpu_edp_limits := some
      [{ temperature := 60, freq_limits := [1300000, 1300000, 1200000, 1200000] },
       { temperature := 75, freq_limits := [1200000, 1200000, 1100000, 1100000] },
       { temperature := 90, freq_limits := [1100000, 1000000, 1000000, 900000] }]
    system_edp_limits := some [1200000, 1000000, 900000, 800000]
    system_edp_alarm := false
    edp_thermal_index := 0
    edp_cpumask := fun c => decide (c < 2)
    edp_limit := 1300000
    cpu_online := fun c => decide (c < 2)
    cpu_rate := 475000000
    lp_cluster := false
    trace := [] }

/-- The sample state without a per-CPU EDP table and with the system alarm
raised. -/
def alarm_only_state : State :=
  { sample_state with cpu_edp_limits := none, system_edp_alarm := true }

/-- The sample state while suspended. -/
def suspended_state : State :=
  { sample_state with is_suspended := true }

/-- The sample oracle with an mselect vote that fails with `-EINVAL`. -/
def vote_fail_hw : Hw :=
  { sample_hw with tegra_update_mselect_rate := fun _ => -22 }

/-- A hardware oracle for a system with a companion cluster:
`clk_round_rate` returns at most 475 MHz while the companion cluster is
active, and the mselect vote for 1200000 kHz fails with `-EINVAL`; every other
call succeeds. -/
def lp_hw : Hw :=
  { sample_hw with
    clk_round_rate := fun lp hz => if lp then min hz 475000000 else hz
    tegra_update_mselect_rate := fun khz => if khz = 1200000 then -22 else 0 }

/-- The sample state on the companion cluster at 204 MHz. -/
def lp_state : State :=
  { sample_state with lp_cluster := true, cpu_rate := 204000000 }

/-- The sample state with the system alarm raised against system limits that
are not table frequencies. -/
def alarm_state : State :=
  { sample_state with
    system_edp_limits := some [1250000, 1050000, 900000, 800000]
    system_edp_alarm := true }

/-- The sample state with a frequency table that starts above every EDP
limit. -/
def high_table_state : State :=
  { sample_state with freq_table := [1400000, 1500000] }

/-- The number of rows of an EDP table whose temperature is at most `t`. -/
def rows_at_or_below (tbl : List tegra_edp_limits) (t : Int) : Nat :=
  (tbl.filter (fun r => decide (r.temperature ≤ t))).length

/-- The sample oracle with a CPU clock whose rate cannot be set. -/
def rate_fail_hw : Hw :=
  { sample_hw with clk_set_rate_cpu := fun _ => -22 }

/-- The sample state before cpufreq has set a target, with the CPU clock at
1.2 GHz. -/
def cold_state : State :=
  { sample_state with target_cpu_speed := fun _ => 0, cpu_rate := 1200000000 }

/-- The cold state after the thermal sensor has reported 95 degrees. -/
def heated_state : State :=
  match tegra_edp_update_thermal_zone sample_hw cold_state 95 with
  | some r => r.2
  | none => cold_state

/-- The result of a thermal reading of 95 degrees on the sample state. -/
def zone_result : Int × State :=
  (tegra_edp_update_thermal_zone sample_hw sample_state 95).getD (0, sample_state)

/-- The sample state with the CPU clock at 1.3 GHz. -/
def fast_state : State :=
  { sample_state with cpu_rate := 1300000000 }

/-- The result of `CPU_UP_PREPARE` for cpu 2 on `fast_state` when the clock
refuses every rate. -/
def failed_prepare : Int × State :=
  (tegra_cpu_edp_notify rate_fail_hw fast_state hotplug_event.CPU_UP_PREPARE 2).getD
    (0, fast_state)

/-- The transition notifications of one loop over the online CPUs. -/
def notifications (s : State) (old new : Nat) (post : Bool) : List Event :=
  (online_cpus s).map (fun cpu => Event.cpufreq_notify_transition cpu old new post)

/-- The sample oracle with a `clk_round_rate` that returns at most 475 MHz
while the companion cluster is active; every call succeeds. -/
def lp_round_hw : Hw :=
  { sample_hw with clk_round_rate := fun lp hz => if lp then min hz 475000000 else hz }

end CpuTegra

namespace Mpdecision

/-! ## Constants and types of `tegra_mpdecision.c` -/

/-- The build constant `CONFIG_NR_CPUS`, also the value of `nr_cpu_ids`. -/
def CONFIG_NR_CPUS : Nat := CpuTegra.CONFIG_NR_CPUS

/-- Number of values of a 32-bit machine word. -/
def U32 : Nat := 2 ^ 32

/-- Number of values of a 64-bit machine word. -/
def U64 : Nat := 2 ^ 64

/-- The constant `TEGRA_MPDEC_STARTDELAY`. -/
def TEGRA_MPDEC_STARTDELAY : Nat := 20000

/-- The constant `TEGRA_MPDEC_DELAY`. -/
def TEGRA_MPDEC_DELAY : Nat := 130

/-- The constant `TEGRA_MPDEC_PAUSE`. -/
def TEGRA_MPDEC_PAUSE : Nat := 10000

/-- The constant `TEGRA_MPDEC_IDLE_FREQ`. -/
def TEGRA_MPDEC_IDLE_FREQ : Nat := 475000

/-- The constant `TEGRA_MPDEC_LPCPU_RQ_DOWN`. -/
def TEGRA_MPDEC_LPCPU_RQ_DOWN : Nat := 36

/-- The constant `TEGRA_MPDEC_LPCPU_UPDELAY`. -/
def TEGRA_MPDEC_LPCPU_UPDELAY : Nat := 130

/-- The constant `TEGRA_MPDEC_LPCPU_DOWNDELAY`. -/
def TEGRA_MPDEC_LPCPU_DOWNDELAY : Nat := 2000

/-- The constant `TEGRA_MPDEC_LPCPU_UP_HYS`. -/
def TEGRA_MPDEC_LPCPU_UP_HYS : Nat := 4

/-- The constant `TEGRA_MPDEC_LPCPU_DOWN_HYS`. -/
def TEGRA_MPDEC_LPCPU_DOWN_HYS : Nat := 2

/-- The anonymous enum of decision states. -/
inductive mpdec_state where
  | TEGRA_MPDEC_DISABLED
  | TEGRA_MPDEC_IDLE
  | TEGRA_MPDEC_DOWN
  | TEGRA_MPDEC_UP
  | TEGRA_MPDEC_LPCPU_UP
  | TEGRA_MPDEC_LPCPU_DOWN
deriving DecidableEq, Repr

export mpdec_state (TEGRA_MPDEC_DISABLED TEGRA_MPDEC_IDLE TEGRA_MPDEC_DOWN
  TEGRA_MPDEC_UP TEGRA_MPDEC_LPCPU_UP TEGRA_MPDEC_LPCPU_DOWN)

/-- The record `struct tegra_mpdec_cpudata_t` without its mutexes and
input-boost fields. -/
structure tegra_mpdec_cpudata_t where
  online : Bool
  device_suspended : Bool
  on_time : Nat
  on_time_total : Nat
  times_cpu_hotplugged : Nat
  times_cpu_unplugged : Nat
deriving DecidableEq, Repr

/-- The record `struct tegra_mpdec_tuners` without its input-boost fields. -/
structure tegra_mpdec_tuners where
  startdelay : Nat
  delay : Nat
  pause : Nat
  scroff_single_core : Bool
  idle_freq : Nat
  lp_cpu_up_hysteresis : Nat
  lp_cpu_down_hysteresis : Nat
  max_cpus : Nat
  min_cpus : Nat
deriving DecidableEq, Repr

/-- The initial value `tegra_mpdec_tuners_ins` of the tunables. -/
def tegra_mpdec_tuners_ins : tegra_mpdec_tuners :=
  { startdelay := TEGRA_MPDEC_STARTDELAY
    delay := TEGRA_MPDEC_DELAY
    pause := TEGRA_MPDEC_PAUSE
    scroff_single_core := true
    idle_freq := TEGRA_MPDEC_IDLE_FREQ
    lp_cpu_up_hysteresis := TEGRA_MPDEC_LPCPU_UP_HYS
    lp_cpu_down_hysteresis := TEGRA_MPDEC_LPCPU_DOWN_HYS
    max_cpus := CONFIG_NR_CPUS
    min_cpus := 1 }

/-- Calls that leave `tegra_mpdecision.c`, and the calls of
`tegra_lp_cpu_handler` itself, in the order in which they are issued.
`clk_set_parent true` is `clk_set_parent(cpu_clk, cpu_lp_clk)` and
`clk_set_parent false` is `clk_set_parent(cpu_clk, cpu_g_clk)`;
`queue_delayed_work` and `cancel_delayed_work_sync` act on `tegra_mpdec_work`,
`queue_suspended_work` queues `tegra_mpdec_suspended_work`. -/
inductive Event where
  | cpu_up (cpu : Nat)
  | cpu_down (cpu : Nat)
  | unboost_cpu (cpu : Nat)
  | tegra_lp_cpu_handler (state notifier : Bool)
  | clk_set_parent (lp : Bool)
  | tegra_cpu_set_speed_cap
  | queue_delayed_work (ms : Nat)
  | cancel_delayed_work_sync
  | queue_suspended_work (delay : Nat)
deriving DecidableEq, Repr

/-- What the kernel answers during one run of the work thread: the clock
`ktime_to_ms(ktime_get())`, the run-queue sample `get_rq_info()`, the rate of
the CPU clock in Hz, whether each `mutex_trylock` obtains its lock, whether
one of the three clock handles is an error pointer, and the return codes of
`clk_set_parent`, `cpu_up` and `cpu_down` (`0` for success). -/
structure Tick where
  now : Nat
  rq_depth : Nat
  cpu_rate : Nat
  cpu_lock : Bool
  lpcpu_lock : Bool
  clk_err : Bool
  clk_set_parent : Int
  cpu_up : Nat → Int
  cpu_down : Nat → Int

/-- The file-level variables and function statics of `tegra_mpdecision.c`
(`first_call`, `total_time`, `last_time` of `mp_decision`; `lpup_req`,
`lpdown_req` of the work thread), the CPU online mask, `is_lp_cluster()`, and
the trace of calls issued so far. -/
structure Mpdec where
  tegra_mpdec_cpudata : Nat → tegra_mpdec_cpudata_t
  tegra_mpdec_lpcpudata : tegra_mpdec_cpudata_t
  tuners : tegra_mpdec_tuners
  idle_top_freq : Nat
  NwNs_Threshold : List Nat
  TwTs_Threshold : List Nat
  state : mpdec_state
  was_paused : Bool
  mpdec_paused_until : Nat
  first_call : Bool
  total_time : Nat
  last_time : Nat
  lpup_req : Nat
  lpdown_req : Nat
  cpu_online : Nat → Bool
  lp_cluster : Bool
  trace : List Event

/-- Append one call to the trace. -/
def emit (s : Mpdec) (e : Event) : Mpdec :=
  { s with trace := s.trace ++ [e] }

/-- Subtraction of two `cputime64_t` values. -/
def sub64 (a b : Nat) : Nat := (a % U64 + U64 - b % U64) % U64

/-- Addition of two 64-bit values. -/
def add64 (a b : Nat) : Nat := (a + b) % U64

/-- The value `num_online_cpus()`. -/
def num_online_cpus (s : Mpdec) : Nat :=
  ((List.range CONFIG_NR_CPUS).filter s.cpu_online).length

/-- The function `get_rate`, that is `tegra_getspeed` of `cpu-tegra.c`. -/
def get_rate (i : Tick) (cpu : Nat) : Nat :=
  if cpu ≥ CONFIG_NR_CPUS then 0 else i.cpu_rate / 1000

/-- One iteration of the loop of `get_slowest_cpu` on the pair
`(cpu, slow_rate)`. -/
def get_slowest_cpu_step (s : Mpdec) (i : Tick) (acc : Nat × Nat) (c : Nat) : Nat × Nat :=
  if !s.cpu_online c then acc
  else
    let rate := get_rate i c
    let slow_rate := if acc.2 = 0 then rate else acc.2
    if rate ≤ slow_rate ∧ slow_rate ≠ 0 then
      if c = 0 then (acc.1, slow_rate) else (c, rate)
    else (acc.1, slow_rate)

/-- The function `get_slowest_cpu`. -/
def get_slowest_cpu (s : Mpdec) (i : Tick) : Nat :=
  ((List.range CONFIG_NR_CPUS).foldl (get_slowest_cpu_step s i) (0, 0)).1

/-- One iteration of the loop of `get_slowest_cpu_rate` on `slow_rate`. -/
def get_slowest_cpu_rate_step (i : Tick) (slow_rate : Nat) (c : Nat) : Nat :=
  let rate := get_rate i c
  let slow_rate := if rate < slow_rate ∧ slow_rate ≠ 0 then rate else slow_rate
  if slow_rate = 0 then rate else slow_rate

/-- The function `get_slowest_cpu_rate`. -/
def get_slowest_cpu_rate (i : Tick) : Nat :=
  (List.range CONFIG_NR_CPUS).foldl (get_slowest_cpu_rate_step i) 0

/-- The function `lp_possible`. -/
def lp_possible (s : Mpdec) (i : Tick) : Bool :=
  if ((List.range CONFIG_NR_CPUS).filter (fun c => decide (1 ≤ c) && s.cpu_online c)) ≠ [] then
    false
  else if get_rate i 0 > s.idle_top_freq then false
  else true

/-- Replace the per-CPU record of one CPU. -/
def set_cpudata (s : Mpdec) (cpu : Nat) (d : tegra_mpdec_cpudata_t) : Mpdec :=
  { s with tegra_mpdec_cpudata := Function.update s.tegra_mpdec_cpudata cpu d }

/-- The function `mpdec_cpu_up`. -/
def mpdec_cpu_up (s : Mpdec) (i : Tick) (cpu : Nat) : Mpdec :=
  if !s.cpu_online cpu then
    let s := emit s (.cpu_up cpu)
    let s := if i.cpu_up cpu = 0 then
        { s with cpu_online := Function.update s.cpu_online cpu true } else s
    let d := s.tegra_mpdec_cpudata cpu
    set_cpudata s cpu
      { d with on_time := i.now
               online := true
               times_cpu_hotplugged := add64 d.times_cpu_hotplugged 1 }
  else s

/-- The function `mpdec_cpu_down`. -/
def mpdec_cpu_down (s : Mpdec) (i : Tick) (cpu : Nat) : Mpdec :=
  if s.cpu_online cpu then
    let s := emit s (.cpu_down cpu)
    let s := if i.cpu_down cpu = 0 then
        { s with cpu_online := Function.update s.cpu_online cpu false } else s
    let d := s.tegra_mpdec_cpudata cpu
    let on_time := sub64 i.now d.on_time
    set_cpudata s cpu
      { d with online := false
               on_time_total := add64 d.on_time_total on_time
               times_cpu_unplugged := add64 d.times_cpu_unplugged 1 }
  else s

/-- The candidate that `mp_decision` computes in its up branch, once the
accumulated time has reached the up threshold. -/
def up_candidate (s : Mpdec) (i : Tick) (nr_cpu_online : Nat) : mpdec_state :=
  let new_state :=
    if !s.lp_cluster ∧ nr_cpu_online < s.tuners.max_cpus then TEGRA_MPDEC_UP
    else if i.rq_depth > TEGRA_MPDEC_LPCPU_RQ_DOWN then TEGRA_MPDEC_LPCPU_DOWN
    else TEGRA_MPDEC_IDLE
  if get_slowest_cpu_rate i ≤ s.tuners.idle_freq ∧ new_state ≠ TEGRA_MPDEC_LPCPU_DOWN then
    TEGRA_MPDEC_IDLE
  else new_state

/-- The candidate that `mp_decision` computes in its down branch, once the
accumulated time has reached the down threshold. -/
def down_candidate (s : Mpdec) (i : Tick) (nr_cpu_online : Nat) : mpdec_state :=
  let new_state :=
    if nr_cpu_online > 1 ∧ nr_cpu_online > s.tuners.min_cpus then TEGRA_MPDEC_DOWN
    else if get_rate i 0 ≤ s.idle_top_freq ∧ !s.lp_cluster then TEGRA_MPDEC_LPCPU_UP
    else TEGRA_MPDEC_IDLE
  if get_slowest_cpu_rate i > s.tuners.idle_freq then TEGRA_MPDEC_IDLE
  else new_state

/-- The decision of `mp_decision` from the accumulated time `total_time`: the
new state and the value of `total_time` before the final reset. -/
def decide_state (s : Mpdec) (i : Tick) (total_time : Nat) : mpdec_state × Nat :=
  let nr_cpu_online := num_online_cpus s
  if nr_cpu_online ≠ 0 then
    let index := (nr_cpu_online - 1) * 2
    if nr_cpu_online < CONFIG_NR_CPUS ∧ i.rq_depth ≥ s.NwNs_Threshold.getD index 0 then
      if total_time ≥ s.TwTs_Threshold.getD index 0 then
        (up_candidate s i nr_cpu_online, total_time)
      else (TEGRA_MPDEC_IDLE, total_time)
    else if i.rq_depth ≤ s.NwNs_Threshold.getD (index + 1) 0 then
      if total_time ≥ s.TwTs_Threshold.getD (index + 1) 0 then
        (down_candidate s i nr_cpu_online, total_time)
      else (TEGRA_MPDEC_IDLE, total_time)
    else (TEGRA_MPDEC_IDLE, 0)
  else (TEGRA_MPDEC_IDLE, 0)

/-- The function `mp_decision`. -/
def mp_decision (s : Mpdec) (i : Tick) : mpdec_state × Mpdec :=
  if s.state = TEGRA_MPDEC_DISABLED then (TEGRA_MPDEC_DISABLED, s)
  else if i.now ≤ s.tuners.startdelay then (TEGRA_MPDEC_IDLE, s)
  else
    let this_time := if s.first_call then 0 else sub64 i.now s.last_time
    let total_time := add64 s.total_time this_time
    let d := decide_state s i total_time
    let total_time := if d.1 ≠ TEGRA_MPDEC_IDLE then 0 else d.2
    (d.1, { s with first_call := false, total_time := total_time, last_time := i.now })

/-- The statistics update of `tegra_lp_cpu_handler` after a switch to the
companion core. -/
def lp_switched_up (s : Mpdec) (i : Tick) : Mpdec :=
  let lp := s.tegra_mpdec_lpcpudata
  let s := { s with tegra_mpdec_lpcpudata :=
    { lp with on_time := i.now
              online := true
              times_cpu_hotplugged := add64 lp.times_cpu_hotplugged 1 } }
  let d := s.tegra_mpdec_cpudata 0
  set_cpudata s 0
    { d with on_time_total := add64 d.on_time_total (sub64 i.now d.on_time)
             times_cpu_unplugged := add64 d.times_cpu_unplugged 1 }

/-- The statistics update of `tegra_lp_cpu_handler` after a switch back to
the main cluster. -/
def lp_switched_down (s : Mpdec) (i : Tick) : Mpdec :=
  let lp := s.tegra_mpdec_lpcpudata
  let s := { s with tegra_mpdec_lpcpudata :=
    { lp with online := false
              times_cpu_unplugged := add64 lp.times_cpu_unplugged 1
              on_time_total := add64 lp.on_time_total (sub64 i.now lp.on_time) } }
  let d := s.tegra_mpdec_cpudata 0
  set_cpudata s 0
    { d with on_time := i.now
             times_cpu_hotplugged := add64 d.times_cpu_hotplugged 1 }

/-- The function `tegra_lp_cpu_handler`; `state = true` switches to the
companion core, `state = false` back to the main cluster.  The result is `1`
on success and `0` on failure. -/
def tegra_lp_cpu_handler (s : Mpdec) (i : Tick) (state notifier : Bool) : Nat × Mpdec :=
  let s := emit s (.tegra_lp_cpu_handler state notifier)
  if i.clk_err then (0, s)
  else if !i.lpcpu_lock then (0, s)
  else
    let s := emit s (.clk_set_parent state)
    if i.clk_set_parent = 0 then
      let s := { s with lp_cluster := state }
      let s := emit s .tegra_cpu_set_speed_cap
      if state then (1, lp_switched_up s i) else (1, lp_switched_down s i)
    else (0, s)

/-- The resynchronisation of the work thread after a pause: the tracked
online flags adopt the hardware state. -/
def resync (s : Mpdec) : Mpdec :=
  if s.was_paused then
    { s with
      tegra_mpdec_cpudata := fun cpu =>
        if cpu < CONFIG_NR_CPUS then
          { s.tegra_mpdec_cpudata cpu with online := s.cpu_online cpu }
        else s.tegra_mpdec_cpudata cpu
      tegra_mpdec_lpcpudata := { s.tegra_mpdec_lpcpudata with online := s.lp_cluster }
      was_paused := false }
  else s

/-- The pause that the work thread starts when a CPU was controlled outside
of mpdecision. -/
def pause (s : Mpdec) (i : Tick) : Mpdec :=
  { s with mpdec_paused_until := add64 i.now s.tuners.pause, was_paused := true }

/-- The value `cpumask_next_zero(0, cpu_online_mask)`: the first offline CPU
after CPU 0, or `nr_cpu_ids`. -/
def next_offline_cpu (s : Mpdec) : Nat :=
  ((List.range CONFIG_NR_CPUS).filter (fun c => decide (1 ≤ c) && !s.cpu_online c)).headD
    CONFIG_NR_CPUS

/-- The `switch (state)` of the work thread, on the state that `mp_decision`
has just returned. -/
def act (s : Mpdec) (i : Tick) : Mpdec :=
  match s.state with
  | TEGRA_MPDEC_IDLE => { s with lpup_req := 0, lpdown_req := 0 }
  | TEGRA_MPDEC_DISABLED => s
  | TEGRA_MPDEC_DOWN =>
    let s := { s with lpup_req := 0, lpdown_req := 0 }
    let cpu := get_slowest_cpu s i
    if cpu < CONFIG_NR_CPUS then
      if (s.tegra_mpdec_cpudata cpu).online = true ∧ s.cpu_online cpu = true then
        mpdec_cpu_down (emit s (.unboost_cpu cpu)) i cpu
      else if (s.tegra_mpdec_cpudata cpu).online ≠ s.cpu_online cpu then pause s i
      else s
    else s
  | TEGRA_MPDEC_UP =>
    let s := { s with lpup_req := 0, lpdown_req := 0 }
    let cpu := next_offline_cpu s
    if cpu < CONFIG_NR_CPUS then
      if (s.tegra_mpdec_cpudata cpu).online = false ∧ s.cpu_online cpu = false then
        emit (mpdec_cpu_up s i cpu) (.unboost_cpu cpu)
      else if (s.tegra_mpdec_cpudata cpu).online ≠ s.cpu_online cpu then pause s i
      else s
    else s
  | TEGRA_MPDEC_LPCPU_DOWN =>
    let s := { s with lpup_req := 0 }
    if s.lp_cluster then
      let s := { s with lpdown_req := (s.lpdown_req + 1) % U32 }
      if s.lpdown_req > s.tuners.lp_cpu_down_hysteresis then
        { (tegra_lp_cpu_handler s i false false).2 with lpdown_req := 0 }
      else s
    else s
  | TEGRA_MPDEC_LPCPU_UP =>
    let s := { s with lpdown_req := 0 }
    if !s.lp_cluster ∧ lp_possible s i then
      let s := { s with lpup_req := (s.lpup_req + 1) % U32 }
      if s.lpup_req > s.tuners.lp_cpu_up_hysteresis then
        { (tegra_lp_cpu_handler s i true false).2 with lpup_req := 0 }
      else s
    else s

/-- The code of the work thread after the label `out`: unless disabled, queue
the next run with the delay that belongs to `state`. -/
def requeue (s : Mpdec) : Mpdec :=
  match s.state with
  | TEGRA_MPDEC_DISABLED => s
  | TEGRA_MPDEC_LPCPU_DOWN => emit s (.queue_delayed_work TEGRA_MPDEC_LPCPU_DOWNDELAY)
  | TEGRA_MPDEC_LPCPU_UP => emit s (.queue_delayed_work TEGRA_MPDEC_LPCPU_UPDELAY)
  | _ => emit s (.queue_delayed_work s.tuners.delay)

/-- The test of the work thread that passes control to `mp_decision`: past
the start delay, not paused, no CPU marked `device_suspended`, and
`mpdec_tegra_cpu_lock` obtained. -/
def decides (s : Mpdec) (i : Tick) : Bool :=
  !decide (i.now ≤ s.tuners.startdelay) &&
  !decide (s.mpdec_paused_until ≥ i.now) &&
  !(List.range CONFIG_NR_CPUS).any (fun cpu => (s.tegra_mpdec_cpudata cpu).device_suspended) &&
  i.cpu_lock

/-- The state of the work thread after the resynchronisation and the
assignment `state = mp_decision()`. -/
def decided (s : Mpdec) (i : Tick) : Mpdec :=
  let r := mp_decision (resync s) i
  { r.2 with state := r.1 }

/-- The function `tegra_mpdec_work_thread`. -/
def tegra_mpdec_work_thread (s : Mpdec) (i : Tick) : Mpdec :=
  if decides s i then requeue (act (decided s i) i)
  else requeue s

/-- The state after successive runs of the work thread, one per element of
the list. -/
def run_ticks (s : Mpdec) : List Tick → Mpdec
  | [] => s
  | i :: rest => run_ticks (tegra_mpdec_work_thread s i) rest

/-! ## Sysfs stores and suspend hooks of `tegra_mpdecision.c` -/

/-- The error number `EINVAL`. -/
def EINVAL : Int := CpuTegra.EINVAL

/-- The value `cpu_online(cpu)` for an index that may lie past the mask: the
bits from `nr_cpu_ids` on are never set. -/
def cpu_online_bit (s : Mpdec) (cpu : Nat) : Bool :=
  decide (cpu < CONFIG_NR_CPUS) && s.cpu_online cpu

/-- The loop of `store_max_cpus` over `cpu = CONFIG_NR_CPUS, ..., 1`. -/
def store_max_cpus_loop (i : Tick) (input : Nat) : List Nat → Mpdec → Mpdec
  | [], s => s
  | cpu :: rest, s =>
    if num_online_cpus s ≤ input then s
    else if !cpu_online_bit s cpu then store_max_cpus_loop i input rest s
    else store_max_cpus_loop i input rest (mpdec_cpu_down s i cpu)

/-- The function `store_max_cpus`: `input` is what `sscanf` read with `%u`
(`none` when it read nothing), `count` the length of the write.  The result
is the return value and the new state. -/
def store_max_cpus (s : Mpdec) (i : Tick) (input : Option Nat) (count : Int) : Int × Mpdec :=
  match input with
  | none => (-EINVAL, s)
  | some input =>
    if input > CONFIG_NR_CPUS ∨ input < s.tuners.min_cpus then (-EINVAL, s)
    else
      let s := { s with tuners := { s.tuners with max_cpus := input } }
      if num_online_cpus s > input then
        (count, store_max_cpus_loop i input (List.range' 1 CONFIG_NR_CPUS).reverse s)
      else (count, s)

/-- The loop of `store_min_cpus` over `cpu = 1, ..., CONFIG_NR_CPUS - 1`. -/
def store_min_cpus_loop (i : Tick) (input : Nat) : List Nat → Mpdec → Mpdec
  | [], s => s
  | cpu :: rest, s =>
    if num_online_cpus s ≥ input then s
    else if s.cpu_online cpu then store_min_cpus_loop i input rest s
    else store_min_cpus_loop i input rest (mpdec_cpu_up s i cpu)

/-- The function `store_min_cpus`, with the arguments and result of
`store_max_cpus`. -/
def store_min_cpus (s : Mpdec) (i : Tick) (input : Option Nat) (count : Int) : Int × Mpdec :=
  match input with
  | none => (-EINVAL, s)
  | some input =>
    if input < 1 ∨ input > s.tuners.max_cpus then (-EINVAL, s)
    else
      let s := { s with tuners := { s.tuners with min_cpus := input } }
      if num_online_cpus s < input then
        (count, store_min_cpus_loop i input (List.range' 1 (CONFIG_NR_CPUS - 1)) s)
      else (count, s)

/-- One iteration of the loop of `tegra_mpdec_early_suspend` over the
possible CPUs. -/
def suspend_cpu (i : Tick) (s : Mpdec) (cpu : Nat) : Mpdec :=
  let s := emit s (.unboost_cpu cpu)
  let s := if cpu ≥ 1 ∧ s.cpu_online cpu = true then mpdec_cpu_down s i cpu else s
  set_cpudata s cpu { s.tegra_mpdec_cpudata cpu with device_suspended := true }

/-- The function `tegra_mpdec_early_suspend`. -/
def tegra_mpdec_early_suspend (s : Mpdec) (i : Tick) : Mpdec :=
  if !s.tuners.scroff_single_core then s
  else
    let s := emit s .cancel_delayed_work_sync
    let s := (List.range CONFIG_NR_CPUS).foldl (suspend_cpu i) s
    if lp_possible s i = true ∧ s.lp_cluster = false then
      (tegra_lp_cpu_handler s i true false).2
    else if s.lp_cluster = false then
      emit s (.queue_suspended_work TEGRA_MPDEC_LPCPU_UPDELAY)
    else s

/-- One iteration of the loop of `tegra_mpdec_late_resume` that restores the
`min_cpus` and `max_cpus` limits. -/
def resume_cpu (i : Tick) (s : Mpdec) (cpu : Nat) : Mpdec :=
  if cpu < s.tuners.min_cpus then
    if !s.cpu_online cpu then mpdec_cpu_up s i cpu else s
  else if cpu > s.tuners.max_cpus then
    if s.cpu_online cpu then mpdec_cpu_down s i cpu else s
  else s

/-- The function `tegra_mpdec_late_resume`. -/
def tegra_mpdec_late_resume (s : Mpdec) (i : Tick) : Mpdec :=
  let s := { s with
    tegra_mpdec_cpudata := fun cpu =>
      if cpu < CONFIG_NR_CPUS then
        { s.tegra_mpdec_cpudata cpu with device_suspended := false }
      else s.tegra_mpdec_cpudata cpu }
  let s := if s.lp_cluster then (tegra_lp_cpu_handler s i false false).2 else s
  if s.tuners.scroff_single_core then
    let s := { s with was_paused := true }
    let s := emit s (.queue_delayed_work s.tuners.delay)
    (List.range' 1 (CONFIG_NR_CPUS - 1)).foldl (resume_cpu i) s
  else s

/-! ## Notions used to state the properties of `tegra_mpdecision.c` -/

/-- The calls that one run of the work thread issues. -/
def tick_calls (s : Mpdec) (i : Tick) : List Event :=
  (tegra_mpdec_work_thread s i).trace.drop s.trace.length

/-- A run of the work thread decides CompanionUp while the companion is
inactive and `lp_possible` holds. -/
def qualifies_up (s : Mpdec) (i : Tick) : Prop :=
  decides s i = true ∧ (mp_decision (resync s) i).1 = TEGRA_MPDEC_LPCPU_UP ∧
    s.lp_cluster = false ∧ lp_possible s i = true

/-- A run of the work thread decides CompanionDown while the companion is
active. -/
def qualifies_down (s : Mpdec) (i : Tick) : Prop :=
  decides s i = true ∧ (mp_decision (resync s) i).1 = TEGRA_MPDEC_LPCPU_DOWN ∧
    s.lp_cluster = true

/-- Every tick of a run of consecutive ticks qualifies for CompanionUp. -/
def up_run : Mpdec → List Tick → Prop
  | _, [] => True
  | s, i :: rest => qualifies_up s i ∧ up_run (tegra_mpdec_work_thread s i) rest

/-- Every tick of a run of consecutive ticks qualifies for CompanionDown. -/
def down_run : Mpdec → List Tick → Prop
  | _, [] => True
  | s, i :: rest => qualifies_down s i ∧ down_run (tegra_mpdec_work_thread s i) rest

/-- The CompanionUp branch of the work thread up to the hysteresis test: clear
the down counter and count one more up request. -/
def count_up (s : Mpdec) : Mpdec :=
  { s with lpdown_req := 0, lpup_req := (s.lpup_req + 1) % U32 }

/-- The CompanionUp branch of the work thread past the hysteresis test: call
the handler and clear the up counter. -/
def switch_up (s : Mpdec) (i : Tick) : Mpdec :=
  { (tegra_lp_cpu_handler s i true false).2 with lpup_req := 0 }

/-- The CompanionDown branch of the work thread up to the hysteresis test:
clear the up counter and count one more down request. -/
def count_down (s : Mpdec) : Mpdec :=
  { s with lpup_req := 0, lpdown_req := (s.lpdown_req + 1) % U32 }

/-- The CompanionDown branch of the work thread past the hysteresis test: call
the handler and clear the down counter. -/
def switch_down (s : Mpdec) (i : Tick) : Mpdec :=
  { (tegra_lp_cpu_handler s i false false).2 with lpdown_req := 0 }

instance qualifies_up_decidable (s : Mpdec) (i : Tick) : Decidable (qualifies_up s i) :=
  inferInstanceAs (Decidable (_ ∧ _ ∧ _ ∧ _))

instance qualifies_down_decidable (s : Mpdec) (i : Tick) : Decidable (qualifies_down s i) :=
  inferInstanceAs (Decidable (_ ∧ _ ∧ _))

/-- Whether a run qualifies for CompanionUp can be computed. -/
def up_run_decidable : (s : Mpdec) → (ticks : List Tick) → Decidable (up_run s ticks)
  | _, [] => isTrue trivial
  | s, i :: rest =>
    @instDecidableAnd _ _ (qualifies_up_decidable s i)
      (up_run_decidable (tegra_mpdec_work_thread s i) rest)

instance (s : Mpdec) (ticks : List Tick) : Decidable (up_run s ticks) :=
  up_run_decidable s ticks

/-- Whether a run qualifies for CompanionDown can be computed. -/
def down_run_decidable : (s : Mpdec) → (ticks : List Tick) → Decidable (down_run s ticks)
  | _, [] => isTrue trivial
  | s, i :: rest =>
    @instDecidableAnd _ _ (qualifies_down_decidable s i)
      (down_run_decidable (tegra_mpdec_work_thread s i) rest)

instance (s : Mpdec) (ticks : List Tick) : Decidable (down_run s ticks) :=
  down_run_decidable s ticks

/-- A per-CPU record of a core that has been online since boot. -/
def sample_cpudata (online : Bool) : tegra_mpdec_cpudata_t :=
  { online := online
    device_suspended := false
    on_time := 0
    on_time_total := 0
    times_cpu_hotplugged := 0
    times_cpu_unplugged := 0 }

/-- An idle system on the main cluster: only core 0 online, the initial
tunables and threshold tables, all counters 0. -/
def idle_state : Mpdec :=
  { tegra_mpdec_cpudata := fun c => sample_cpudata (decide (c = 0))
    tegra_mpdec_lpcpudata := sample_cpudata false
    tuners := tegra_mpdec_tuners_ins
    idle_top_freq := 475000
    NwNs_Threshold := [16, 10, 24, 12, 30, 16, 0, 18]
    TwTs_Threshold := [140, 0, 140, 190, 140, 190, 0, 190]
    state := TEGRA_MPDEC_IDLE
    was_paused := false
    mpdec_paused_until := 0
    first_call := true
    total_time := 0
    last_time := 0
    lpup_req := 0
    lpdown_req := 0
    cpu_online := fun c => decide (c = 0)
    lp_cluster := false
    trace := [] }

/-- The idle system with the up hysteresis set to `UINT_MAX`. -/
def max_hysteresis_state : Mpdec :=
  { idle_state with
    tuners := { tegra_mpdec_tuners_ins with lp_cpu_up_hysteresis := 4294967295 } }

/-- The system on the companion core, only core 0 online, last decided at
28000 ms. -/
def companion_state : Mpdec :=
  { idle_state with
    lp_cluster := true
    tegra_mpdec_lpcpudata := sample_cpudata true
    first_call := false
    last_time := 28000 }

/-- A tick at time `now` with run-queue depth `rq_depth`, the CPU clock at
204 MHz, both locks free and every kernel call succeeding. -/
def sample_tick (now rq_depth : Nat) : Tick :=
  { now := now
    rq_depth := rq_depth
    cpu_rate := 204000000
    cpu_lock := true
    lpcpu_lock := true
    clk_err := false
    clk_set_parent := 0
    cpu_up := fun _ => 0
    cpu_down := fun _ => 0 }

/-- Five consecutive ticks with low load, 130 ms apart. -/
def calm_ticks : List Tick :=
  [sample_tick 30000 5, sample_tick 30130 5, sample_tick 30260 5, sample_tick 30390 5,
    sample_tick 30520 5]

/-- Three consecutive ticks with high load, 2000 ms apart. -/
def busy_ticks : List Tick :=
  [sample_tick 30000 40, sample_tick 32000 40, sample_tick 34000 40]

/-- Consecutive ticks with low load, 130 ms apart, the first at time
`start`. -/
def ticks_from (start : Nat) : Nat → List Tick
  | 0 => []
  | n + 1 => sample_tick start 5 :: ticks_from (start + 130) n

/-- The state agrees with `max_hysteresis_state` on everything that decides
whether a tick with low load qualifies for CompanionUp. -/
def calm_inv (s : Mpdec) : Prop :=
  s.tuners = max_hysteresis_state.tuners ∧
  s.cpu_online = max_hysteresis_state.cpu_online ∧
  s.lp_cluster = false ∧
  s.state ≠ TEGRA_MPDEC_DISABLED ∧
  s.NwNs_Threshold = [16, 10, 24, 12, 30, 16, 0, 18] ∧
  s.TwTs_Threshold = [140, 0, 140, 190, 140, 190, 0, 190] ∧
  s.idle_top_freq = 475000 ∧
  s.mpdec_paused_until = 0 ∧
  ∀ c, (s.tegra_mpdec_cpudata c).device_suspended = false

/-! ## Notions and fixtures for the timing of `mp_decision` -/

/-- The time `this_time` that `mp_decision` measures since its previous run:
`0` on the first call. -/
def this_time (s : Mpdec) (i : Tick) : Nat :=
  if s.first_call then 0 else sub64 i.now s.last_time

/-- The value of `total_time` after the statement `total_time += this_time`
of `mp_decision`. -/
def accumulated (s : Mpdec) (i : Tick) : Nat :=
  add64 s.total_time (this_time s i)

/-- A run of the work thread that reaches `mp_decision` while enabled, with
one core online, the load at or above `NwNs_Threshold[0]`, the companion
inactive, `max_cpus` at least 2 and the slowest clock above `idle_freq`. -/
def scales_up (s : Mpdec) (i : Tick) : Prop :=
  decides s i = true ∧ s.state ≠ TEGRA_MPDEC_DISABLED ∧ num_online_cpus s = 1 ∧
    i.rq_depth ≥ s.NwNs_Threshold.getD 0 0 ∧ s.lp_cluster = false ∧
    2 ≤ s.tuners.max_cpus ∧ s.tuners.idle_freq < get_slowest_cpu_rate i

/-- Every tick of a run of consecutive ticks satisfies `scales_up`. -/
def scale_up_run : Mpdec → List Tick → Prop
  | _, [] => True
  | s, i :: rest => scales_up s i ∧ scale_up_run (tegra_mpdec_work_thread s i) rest

instance scales_up_decidable (s : Mpdec) (i : Tick) : Decidable (scales_up s i) :=
  inferInstanceAs (Decidable (_ ∧ _ ∧ _ ∧ _ ∧ _ ∧ _ ∧ _))

/-- Whether a run satisfies `scale_up_run` can be computed. -/
def scale_up_run_decidable :
    (s : Mpdec) → (ticks : List Tick) → Decidable (scale_up_run s ticks)
  | _, [] => isTrue trivial
  | s, i :: rest =>
    @instDecidableAnd _ _ (scales_up_decidable s i)
      (scale_up_run_decidable (tegra_mpdec_work_thread s i) rest)

instance (s : Mpdec) (ticks : List Tick) : Decidable (scale_up_run s ticks) :=
  scale_up_run_decidable s ticks

/-- A tick at time `now` with run-queue depth `rq_depth`, the CPU clock at
1 GHz, both locks free and every kernel call succeeding. -/
def fast_tick (now rq_depth : Nat) : Tick :=
  { sample_tick now rq_depth with cpu_rate := 1000000000 }

/-- Three consecutive ticks with load 40 at 1 GHz, 70 ms apart. -/
def loaded_ticks : List Tick :=
  [fast_tick 30000 40, fast_tick 30070 40, fast_tick 30140 40]

/-- The idle system after an earlier decision at 28000 ms. -/
def settled_state : Mpdec :=
  { idle_state with first_call := false, last_time := 28000 }

/-- The settled system with `max_cpus` written to 1. -/
def single_core_state : Mpdec :=
  { settled_state with tuners := { tegra_mpdec_tuners_ins with max_cpus := 1 } }

/-- Cores 0 and 1 online and tracked online, last decided at 29870 ms. -/
def two_core_state : Mpdec :=
  { idle_state with
    tegra_mpdec_cpudata := fun c => sample_cpudata (decide (c ≤ 1))
    cpu_online := fun c => decide (c ≤ 1)
    first_call := false
    last_time := 29870 }

/-! ## Notions and fixtures for the calls of the work thread -/

/-- The assignments `lpup_req = 0; lpdown_req = 0` that open the Idle,
ScaleDown and ScaleUp branches of the work thread. -/
def clear_requests (s : Mpdec) : Mpdec :=
  { s with lpup_req := 0, lpdown_req := 0 }

/-- The calls issued between an earlier state and a later one. -/
def calls_since (a b : Mpdec) : List Event :=
  b.trace.drop a.trace.length

/-- The later state has issued, after the earlier one, only calls that satisfy
the predicate. -/
def issues (P : Event → Prop) (a b : Mpdec) : Prop :=
  ∃ evs, b.trace = a.trace ++ evs ∧ ∀ e ∈ evs, P e

/-- The calls that one call of `tegra_lp_cpu_handler` issues, its own marker
first: nothing more when a clock handle is in error or the lock is taken, else
the reparent, and after a successful reparent `tegra_cpu_set_speed_cap`. -/
def handler_calls (i : Tick) (state notifier : Bool) : List Event :=
  .tegra_lp_cpu_handler state notifier ::
    (if i.clk_err = true ∨ i.lpcpu_lock = false then []
     else .clk_set_parent state ::
       (if i.clk_set_parent = 0 then [.tegra_cpu_set_speed_cap] else []))

/-- The delays with which a list of calls queues `tegra_mpdec_work`. -/
def queued : List Event → List Nat
  | [] => []
  | .queue_delayed_work ms :: rest => ms :: queued rest
  | _ :: rest => queued rest

/-- Two states agree on the mode, the tunables, the threshold tables and the
statics of `mp_decision`. -/
def same_statics (a b : Mpdec) : Prop :=
  a.state = b.state ∧ a.tuners = b.tuners ∧ a.idle_top_freq = b.idle_top_freq ∧
    a.NwNs_Threshold = b.NwNs_Threshold ∧ a.TwTs_Threshold = b.TwTs_Threshold ∧
    a.first_call = b.first_call ∧ a.total_time = b.total_time ∧ a.last_time = b.last_time

/-- The delay with which the code after the label `out` queues the next run,
from the mode and `tuners.delay`: none when disabled. -/
def next_delay (st : mpdec_state) (delay : Nat) : Option Nat :=
  match st with
  | TEGRA_MPDEC_DISABLED => none
  | TEGRA_MPDEC_LPCPU_DOWN => some TEGRA_MPDEC_LPCPU_DOWNDELAY
  | TEGRA_MPDEC_LPCPU_UP => some TEGRA_MPDEC_LPCPU_UPDELAY
  | _ => some delay

/-- The calls that the code after the label `out` issues. -/
def requeue_calls (s : Mpdec) : List Event :=
  match next_delay s.state s.tuners.delay with
  | none => []
  | some d => [.queue_delayed_work d]

/-- The calls that the `switch (state)` of the work thread can issue, by
branch: none; the unboost and the `cpu_down` of the slowest core; the
`cpu_up` and the unboost of the first offline core; or the calls of
`tegra_lp_cpu_handler`. -/
def act_shape (s : Mpdec) (i : Tick) (evs : List Event) : Prop :=
  evs = [] ∨
  (s.state = TEGRA_MPDEC_DOWN ∧
    evs = [.unboost_cpu (get_slowest_cpu s i), .cpu_down (get_slowest_cpu s i)]) ∨
  (s.state = TEGRA_MPDEC_UP ∧
    evs = [.cpu_up (next_offline_cpu s), .unboost_cpu (next_offline_cpu s)]) ∨
  (s.state = TEGRA_MPDEC_LPCPU_DOWN ∧ s.lp_cluster = true ∧
    evs = handler_calls i false false) ∨
  (s.state = TEGRA_MPDEC_LPCPU_UP ∧ s.lp_cluster = false ∧
    evs = handler_calls i true false)

/-- The idle system paused until 40000 ms. -/
def paused_state : Mpdec :=
  { idle_state with mpdec_paused_until := 40000, was_paused := true }

/-- The system on the companion core with two CompanionDown requests
counted. -/
def leaving_state : Mpdec :=
  { companion_state with lpdown_req := 2, state := TEGRA_MPDEC_LPCPU_DOWN }

/-- A tick at 30000 ms with load 40 in which `clk_set_parent` fails with
`-EBUSY`. -/
def failing_tick : Tick :=
  { sample_tick 30000 40 with clk_set_parent := -16 }

/-- A tick at 30100 ms with load 5 in which the CPU clock reports a rate
below 1 kHz. -/
def stalled_tick : Tick :=
  { sample_tick 30100 5 with cpu_rate := 0 }

/-! ## Notions for the table reads and the request counters -/

/-- The decision of `mp_decision` for the online count `nr_cpu_online`, with
every read of `NwNs_Threshold` and `TwTs_Threshold` checked against the length
of the table: `none` when a read falls outside.  The up entries are read at
`index = (nr_cpu_online - 1) * 2`, the first only when
`nr_cpu_online < CONFIG_NR_CPUS` holds, the down entries at `index + 1`. -/
def decide_state_checked (s : Mpdec) (i : Tick) (total_time nr_cpu_online : Nat) :
    Option (mpdec_state × Nat) :=
  if nr_cpu_online ≠ 0 then
    let index := (nr_cpu_online - 1) * 2
    let up : Option Bool :=
      if nr_cpu_online < CONFIG_NR_CPUS then
        (s.NwNs_Threshold.get? index).map (fun t => decide (i.rq_depth ≥ t))
      else some false
    match up with
    | none => none
    | some true =>
      match s.TwTs_Threshold.get? index with
      | none => none
      | some t =>
        if total_time ≥ t then some (up_candidate s i nr_cpu_online, total_time)
        else some (TEGRA_MPDEC_IDLE, total_time)
    | some false =>
      match s.NwNs_Threshold.get? (index + 1) with
      | none => none
      | some d =>
        if i.rq_depth ≤ d then
          match s.TwTs_Threshold.get? (index + 1) with
          | none => none
          | some t =>
            if total_time ≥ t then some (down_candidate s i nr_cpu_online, total_time)
            else some (TEGRA_MPDEC_IDLE, total_time)
        else some (TEGRA_MPDEC_IDLE, 0)
  else some (TEGRA_MPDEC_IDLE, 0)

/-- The value of a 32-bit pattern read as an `int`. -/
def as_int (x : Nat) : Int :=
  if x < 2 ^ 31 then (x : Int) else (x : Int) - 2 ^ 32

/-- Both request counters of the work thread are at most their hysteresis
tunable, and at most one of them is non-zero. -/
def counters_bounded (s : Mpdec) : Prop :=
  s.lpup_req ≤ s.tuners.lp_cpu_up_hysteresis ∧
    s.lpdown_req ≤ s.tuners.lp_cpu_down_hysteresis ∧
    (s.lpup_req = 0 ∨ s.lpdown_req = 0)

/-- The idle system with empty threshold tables and no core online. -/
def no_core_state : Mpdec :=
  { idle_state with
    cpu_online := fun _ => false
    NwNs_Threshold := []
    TwTs_Threshold := [] }

/-- Five ticks 2000 ms apart: low load four times on the main cluster, then
high load. -/
def mixed_ticks : List Tick :=
  [sample_tick 30000 5, sample_tick 32000 5, sample_tick 34000 5, sample_tick 36000 5,
    sample_tick 38000 40]

end Mpdecision

/-! # Properties of `cpu-tegra.c` -/

namespace CpuTegra

theorem handed_speeds_append (a b : List Event) :
    handed_speeds (a ++ b) = handed_speeds a ++ handed_speeds b := by
  induction a with
  | nil => rfl
  | cons e a ih => cases e <;> simp [handed_speeds, ih]

theorem handed_speeds_notify (l : List Nat) (o n : Nat) (p : Bool) :
    handed_speeds (l.map (fun cpu => Event.cpufreq_notify_transition cpu o n p)) = [] := by
  induction l with
  | nil => rfl
  | cons c l ih => simpa [handed_speeds] using ih

theorem user_cap_speed_le (s : State) (x : Nat) : user_cap_speed s x ≤ x := by
  unfold user_cap_speed
  split_ifs with h
  · omega
  · exact le_refl x

theorem user_cap_speed_le_cap (s : State) (x : Nat) (h : s.cpu_user_cap ≠ 0) :
    user_cap_speed s x ≤ s.cpu_user_cap := by
  unfold user_cap_speed
  split_ifs with h1
  · exact le_refl _
  · push_neg at h1
    exact h1 h

theorem edp_governor_speed_le_limit (s : State) (x : Nat) (h : s.edp_limit ≠ 0) :
    edp_governor_speed s x ≤ s.edp_limit := by
  unfold edp_governor_speed
  split_ifs with h1
  · rcases h1 with h1 | h1
    · exact absurd h1 h
    · exact h1
  · exact le_refl _

theorem capped_speed_within (hw : Hw) (s : State) : within_limits s (capped_speed hw s) := by
  unfold within_limits capped_speed
  constructor
  · intro h
    exact le_trans (user_cap_speed_le s _) (edp_governor_speed_le_limit s _ h)
  · intro h
    exact user_cap_speed_le_cap s _ h

theorem Quiet.refl (s : State) : Quiet s s :=
  ⟨[], rfl, by simp⟩

theorem Quiet.trans {a b c : State} (h1 : Quiet a b) (h2 : Quiet b c) : Quiet a c := by
  obtain ⟨e1, q1, r1⟩ := h1
  obtain ⟨e2, q2, r2⟩ := h2
  refine ⟨e1 ++ e2, by simp [handed_speeds_append, q1, q2], ?_⟩
  rw [r2, r1]
  simp [List.append_assoc]

theorem quiet_emit (s : State) (e : Event) (h : handed_speeds [e] = []) : Quiet s (emit s e) :=
  ⟨[e], h, by simp [CpuTegra.emit]⟩

theorem quiet_clk_set_rate_cpu (hw : Hw) (s : State) (hz : Nat) :
    Quiet s (clk_set_rate_cpu hw s hz).2 := by
  unfold clk_set_rate_cpu
  split_ifs
  · exact ⟨[Event.clk_set_rate_cpu hz], rfl, by simp [CpuTegra.emit]⟩
  · exact ⟨[Event.clk_set_rate_cpu hz], rfl, by simp [CpuTegra.emit]⟩

theorem quiet_notify (s : State) (o n : Nat) (p : Bool) : Quiet s (notify_transition s o n p) :=
  ⟨(online_cpus s).map (fun cpu => Event.cpufreq_notify_transition cpu o n p),
    handed_speeds_notify _ o n p, by simp [notify_transition]⟩

theorem quiet_apply_cpu_rate (hw : Hw) (s : State) (o n : Nat) :
    Quiet s (apply_cpu_rate hw s o n).2 := by
  have h1 := (quiet_notify s o n false).trans
    (quiet_clk_set_rate_cpu hw (notify_transition s o n false) ((n * 1000) % U32))
  unfold apply_cpu_rate
  simp only []
  split_ifs
  · exact h1
  · exact ((h1.trans (quiet_notify _ o n true)).trans (quiet_emit _ _ (by rfl))).trans
      (quiet_emit _ _ (by rfl))
  · exact h1.trans (quiet_notify _ o n true)

theorem quiet_vote_and_apply (hw : Hw) (s : State) (o n : Nat) :
    Quiet s (vote_and_apply hw s o n).2 := by
  unfold vote_and_apply
  simp only []
  split_ifs
  · exact quiet_emit _ _ (by rfl)
  · exact (quiet_emit _ _ (by rfl)).trans (quiet_emit _ _ (by rfl))
  · exact ((quiet_emit _ _ (by rfl)).trans (quiet_emit _ _ (by rfl))).trans (quiet_apply_cpu_rate hw _ o n)
  · exact quiet_apply_cpu_rate hw s o n

theorem Quiet.hands {s s' : State} (v : Nat) (h : Quiet s s') : Hands v s s' := by
  obtain ⟨evs, q, r⟩ := h
  exact ⟨evs, Or.inl q, r⟩

theorem Quiet.then_hands {a b c : State} {v : Nat} (h1 : Quiet a b) (h2 : Hands v b c) :
    Hands v a c := by
  obtain ⟨e1, q1, r1⟩ := h1
  obtain ⟨e2, q2, r2⟩ := h2
  refine ⟨e1 ++ e2, ?_, ?_⟩
  · rw [handed_speeds_append, q1]
    simpa using q2
  · rw [r2, r1]
    simp [List.append_assoc]

theorem Hands.then_quiet {a b c : State} {v : Nat} (h1 : Hands v a b) (h2 : Quiet b c) :
    Hands v a c := by
  obtain ⟨e1, q1, r1⟩ := h1
  obtain ⟨e2, q2, r2⟩ := h2
  refine ⟨e1 ++ e2, ?_, ?_⟩
  · rw [handed_speeds_append, q2]
    simpa using q1
  · rw [r2, r1]
    simp [List.append_assoc]

theorem hands_call {s s' : State} {v : Nat}
    (h : Quiet (emit s (Event.tegra_update_cpu_speed v)) s') : Hands v s s' := by
  obtain ⟨evs, q, r⟩ := h
  refine ⟨Event.tegra_update_cpu_speed v :: evs, Or.inr (by simp [handed_speeds, q]), ?_⟩
  rw [r]
  simp [CpuTegra.emit]

theorem Hands.keeps_limits {v : Nat} {s s' : State} (h : Hands v s s') :
    s'.edp_limit = s.edp_limit ∧ s'.cpu_user_cap = s.cpu_user_cap ∧
      s'.is_suspended = s.is_suspended := by
  obtain ⟨evs, _, r⟩ := h
  rw [r]
  exact ⟨rfl, rfl, rfl⟩

theorem Hands.edp {v : Nat} {s s' : State} (h : Hands v s s') :
    s'.edp_thermal_index = s.edp_thermal_index ∧ s'.cpu_edp_limits = s.cpu_edp_limits ∧
      s'.system_edp_limits = s.system_edp_limits ∧ s'.system_edp_alarm = s.system_edp_alarm ∧
      s'.edp_cpumask = s.edp_cpumask ∧ s'.edp_limit = s.edp_limit ∧
      s'.freq_table = s.freq_table := by
  obtain ⟨evs, _, r⟩ := h
  rw [r]
  exact ⟨rfl, rfl, rfl, rfl, rfl, rfl, rfl⟩

theorem Hands.capped {v : Nat} {s s' : State} (h : Hands v s s') (hw : Hw) :
    capped_speed hw s' = capped_speed hw s ∧ online_cpus s' = online_cpus s := by
  obtain ⟨evs, _, r⟩ := h
  rw [r]
  exact ⟨rfl, rfl⟩

theorem Quiet.limits {s s' : State} (h : Quiet s s') :
    s'.edp_limit = s.edp_limit ∧ s'.cpu_user_cap = s.cpu_user_cap ∧
      s'.is_suspended = s.is_suspended :=
  (h.hands 0).keeps_limits

theorem Quiet.after_call {s s' : State} {v : Nat}
    (h : Quiet (emit s (Event.tegra_update_cpu_speed v)) s') :
    ∃ evs, s'.trace = s.trace ++ evs ∧ handed_speeds evs = [v] := by
  obtain ⟨evs, q, r⟩ := h
  refine ⟨Event.tegra_update_cpu_speed v :: evs, ?_, by simp [handed_speeds, q]⟩
  rw [r]
  simp [CpuTegra.emit]

theorem body_on_main (upd : State → Nat → Int × State) (hw : Hw) (s : State) (rate : Nat)
    (hlp : s.lp_cluster = false) :
    update_cpu_speed_body upd hw s rate =
      if tegra_getspeed s 0 = rounded_speed hw s rate then
        (0, emit s (Event.tegra_update_cpu_speed rate))
      else
        vote_and_apply hw (emit s (Event.tegra_update_cpu_speed rate)) (tegra_getspeed s 0)
          (rounded_speed hw s rate) := by
  have hl : lp_override hw (emit s (Event.tegra_update_cpu_speed rate)) rate = false := by
    simp [lp_override, CpuTegra.emit, hlp]
  have hr : rounded_speed hw (emit s (Event.tegra_update_cpu_speed rate)) rate =
      rounded_speed hw s rate := rfl
  have hg : tegra_getspeed (emit s (Event.tegra_update_cpu_speed rate)) 0 =
      tegra_getspeed s 0 := rfl
  unfold update_cpu_speed_body
  simp only [hl, hr, hg, Bool.false_eq_true, if_false]

theorem quiet_body_main (upd : State → Nat → Int × State) (hw : Hw) (s : State) (rate : Nat)
    (hlp : s.lp_cluster = false) :
    Quiet (emit s (Event.tegra_update_cpu_speed rate))
      (update_cpu_speed_body upd hw s rate).2 := by
  rw [body_on_main upd hw s rate hlp]
  split_ifs
  · exact Quiet.refl _
  · exact quiet_vote_and_apply hw _ _ _

theorem hands_set_speed_cap_main (upd : State → Nat → Int × State)
    (hupd : ∀ s v, s.lp_cluster = false →
      Quiet (emit s (Event.tegra_update_cpu_speed v)) (upd s v).2)
    (hw : Hw) (s : State) (b : Bool) (hlp : s.lp_cluster = false) :
    Hands (capped_speed hw s) s (set_speed_cap_with upd hw s b).2.2 ∧
      (s.is_suspended = true → set_speed_cap_with upd hw s b = (-EBUSY, none, s)) := by
  unfold set_speed_cap_with
  cases hs : s.is_suspended
  · simp only [Bool.false_eq_true, if_false]
    refine ⟨?_, fun h => absurd h (by simp)⟩
    have h := hupd s (capped_speed hw s) hlp
    split_ifs <;> first
      | exact hands_call (h.trans (quiet_emit _ _ (by rfl)))
      | exact hands_call h
  · simp only [if_true]
    refine ⟨(Quiet.refl s).hands _, fun _ => ?_⟩
    first | rfl | trivial

theorem hands_lp_handler (upd : State → Nat → Int × State)
    (hupd : ∀ s v, s.lp_cluster = false →
      Quiet (emit s (Event.tegra_update_cpu_speed v)) (upd s v).2)
    (hw : Hw) (s : State) (n : Bool) :
    Hands (capped_speed hw s) s (tegra_lp_cpu_handler upd hw s false n).2 ∧
      (s.is_suspended = true → Quiet s (tegra_lp_cpu_handler upd hw s false n).2) := by
  have q1 : Quiet s { emit s (Event.clk_set_parent false) with
      lp_cluster := false,
      cpu_rate := hw.clk_parent_rate false (emit s (Event.clk_set_parent false)).cpu_rate } :=
    ⟨[Event.clk_set_parent false], rfl, by simp [CpuTegra.emit]⟩
  obtain ⟨h2, h3⟩ := hands_set_speed_cap_main upd hupd hw
    { emit s (Event.clk_set_parent false) with
      lp_cluster := false,
      cpu_rate := hw.clk_parent_rate false (emit s (Event.clk_set_parent false)).cpu_rate }
    false rfl
  unfold tegra_lp_cpu_handler
  simp only []
  split_ifs
  · exact ⟨(Quiet.refl s).hands _, fun _ => Quiet.refl s⟩
  · exact ⟨(Quiet.refl s).hands _, fun _ => Quiet.refl s⟩
  · refine ⟨q1.then_hands h2, fun hs => ?_⟩
    rw [h3 hs]
    exact q1
  · exact ⟨(quiet_emit _ _ (by rfl)).hands _, fun _ => quiet_emit _ _ (by rfl)⟩

theorem hands_gmode (upd : State → Nat → Int × State)
    (hupd : ∀ s v, s.lp_cluster = false →
      Quiet (emit s (Event.tegra_update_cpu_speed v)) (upd s v).2)
    (hw : Hw) (s : State) :
    Hands (capped_speed hw s) s (mpdecision_gmode_notifier upd hw s).2 ∧
      (s.is_suspended = true → Quiet s (mpdecision_gmode_notifier upd hw s).2) := by
  have q0 : Quiet s (emit s Event.mpdecision_gmode_notifier) := quiet_emit _ _ (by rfl)
  obtain ⟨h1, h2⟩ := hands_lp_handler upd hupd hw (emit s Event.mpdecision_gmode_notifier) true
  have h1' : Hands (capped_speed hw s) (emit s Event.mpdecision_gmode_notifier)
      (tegra_lp_cpu_handler upd hw (emit s Event.mpdecision_gmode_notifier) false true).2 := h1
  unfold mpdecision_gmode_notifier
  simp only []
  split_ifs
  · exact ⟨q0.hands _, fun _ => q0⟩
  · exact ⟨q0.hands _, fun _ => q0⟩
  · exact ⟨q0.then_hands (h1'.then_quiet (quiet_emit _ _ (by rfl))),
      fun hs => q0.trans ((h2 hs).trans (quiet_emit _ _ (by rfl)))⟩
  · exact ⟨q0.then_hands (h1'.then_quiet
        ((quiet_emit _ _ (by rfl)).trans (quiet_emit _ _ (by rfl)))),
      fun hs => q0.trans ((h2 hs).trans
        ((quiet_emit _ _ (by rfl)).trans (quiet_emit _ _ (by rfl))))⟩
  · exact ⟨q0.then_hands h1', fun hs => q0.trans (h2 hs)⟩

theorem hands_leave_lp_mode (upd : State → Nat → Int × State)
    (hupd : ∀ s v, s.lp_cluster = false →
      Quiet (emit s (Event.tegra_update_cpu_speed v)) (upd s v).2)
    (hw : Hw) (s : State) :
    Hands (capped_speed hw s) s (leave_lp_mode upd hw s) ∧
      (s.is_suspended = true → Quiet s (leave_lp_mode upd hw s)) := by
  have q0 := quiet_clk_set_rate_cpu hw s (475000 * 1000)
  obtain ⟨h1, h2⟩ := hands_gmode upd hupd hw (clk_set_rate_cpu hw s (475000 * 1000)).2
  rw [((q0.hands 0).capped hw).1] at h1
  unfold leave_lp_mode
  exact ⟨q0.then_hands h1, fun hs => q0.trans (h2 (q0.limits.2.2.trans hs))⟩

theorem hands_body (upd : State → Nat → Int × State)
    (hupd : ∀ s v, s.lp_cluster = false →
      Quiet (emit s (Event.tegra_update_cpu_speed v)) (upd s v).2)
    (hw : Hw) (s : State) (rate : Nat) :
    Hands (capped_speed hw s) (emit s (Event.tegra_update_cpu_speed rate))
        (update_cpu_speed_body upd hw s rate).2 ∧
      (s.is_suspended = true →
        Quiet (emit s (Event.tegra_update_cpu_speed rate))
          (update_cpu_speed_body upd hw s rate).2) := by
  obtain ⟨h1, h2⟩ := hands_leave_lp_mode upd hupd hw (emit s (Event.tegra_update_cpu_speed rate))
  have h1' : Hands (capped_speed hw s) (emit s (Event.tegra_update_cpu_speed rate))
      (leave_lp_mode upd hw (emit s (Event.tegra_update_cpu_speed rate))) := h1
  unfold update_cpu_speed_body
  simp only []
  split_ifs
  · exact ⟨(Quiet.refl _).hands _, fun _ => Quiet.refl _⟩
  · exact ⟨h1'.then_quiet (quiet_vote_and_apply hw _ _ _),
      fun hs => (h2 hs).trans (quiet_vote_and_apply hw _ _ _)⟩
  · exact ⟨(quiet_vote_and_apply hw _ _ _).hands _, fun _ => quiet_vote_and_apply hw _ _ _⟩

theorem quiet_nested (hw : Hw) (s : State) (v : Nat) (hlp : s.lp_cluster = false) :
    Quiet (emit s (Event.tegra_update_cpu_speed v)) (tegra_update_cpu_speed_fuel 0 hw s v).2 :=
  quiet_body_main _ hw s v hlp

theorem update_cpu_speed_eq (hw : Hw) (s : State) (rate : Nat) :
    tegra_update_cpu_speed hw s rate =
      update_cpu_speed_body (tegra_update_cpu_speed_fuel 0 hw) hw s rate := rfl

theorem hands_update_cpu_speed (hw : Hw) (s : State) (rate : Nat) :
    Hands (capped_speed hw s) (emit s (Event.tegra_update_cpu_speed rate))
        (tegra_update_cpu_speed hw s rate).2 ∧
      (s.is_suspended = true →
        Quiet (emit s (Event.tegra_update_cpu_speed rate))
          (tegra_update_cpu_speed hw s rate).2) := by
  rw [update_cpu_speed_eq]
  exact hands_body _ (quiet_nested hw) hw s rate

theorem set_speed_cap_congr (upd upd' : State → Nat → Int × State)
    (h : ∀ s v, s.lp_cluster = false → upd s v = upd' s v) (hw : Hw) (s : State) (b : Bool)
    (hlp : s.lp_cluster = false) :
    set_speed_cap_with upd hw s b = set_speed_cap_with upd' hw s b := by
  have h' : ∀ v, upd s v = upd' s v := fun v => h s v hlp
  unfold set_speed_cap_with
  simp only [h']

theorem lp_handler_congr (upd upd' : State → Nat → Int × State)
    (h : ∀ s v, s.lp_cluster = false → upd s v = upd' s v) (hw : Hw) (s : State) (n : Bool) :
    tegra_lp_cpu_handler upd hw s false n = tegra_lp_cpu_handler upd' hw s false n := by
  unfold tegra_lp_cpu_handler
  simp only []
  rw [set_speed_cap_congr upd upd' h hw _ false rfl]

theorem body_congr (upd upd' : State → Nat → Int × State)
    (h : ∀ s v, s.lp_cluster = false → upd s v = upd' s v) (hw : Hw) (s : State) (rate : Nat) :
    update_cpu_speed_body upd hw s rate = update_cpu_speed_body upd' hw s rate := by
  unfold update_cpu_speed_body leave_lp_mode mpdecision_gmode_notifier
  simp only [lp_handler_congr upd upd' h]

theorem fuel_on_main (hw : Hw) (n : Nat) (s : State) (v : Nat) (hlp : s.lp_cluster = false) :
    tegra_update_cpu_speed_fuel n hw s v = tegra_update_cpu_speed_fuel 0 hw s v := by
  cases n with
  | zero => rfl
  | succ n =>
    show update_cpu_speed_body _ hw s v = update_cpu_speed_body _ hw s v
    rw [body_on_main _ hw s v hlp, body_on_main _ hw s v hlp]

/-- One level of nesting is enough: with any fuel above 0,
`tegra_update_cpu_speed_fuel` is `tegra_update_cpu_speed`. -/
theorem fuel_enough (hw : Hw) (n : Nat) (s : State) (rate : Nat) :
    tegra_update_cpu_speed_fuel (n + 1) hw s rate = tegra_update_cpu_speed hw s rate := by
  show update_cpu_speed_body _ hw s rate = update_cpu_speed_body _ hw s rate
  exact body_congr _ _ (fun s v hlp => fuel_on_main hw n s v hlp) hw s rate

/-- The function `tegra_update_cpu_speed` satisfies the recursive equation of
the source: it is its body with itself as the nested call. -/
theorem update_cpu_speed_unfold (hw : Hw) (s : State) (rate : Nat) :
    tegra_update_cpu_speed hw s rate =
      update_cpu_speed_body (tegra_update_cpu_speed hw) hw s rate :=
  (fuel_enough hw 1 s rate).symm

theorem quiet_update_cpu_speed (hw : Hw) (s : State) (rate : Nat)
    (h : s.is_suspended = true ∨ s.lp_cluster = false) :
    Quiet (emit s (Event.tegra_update_cpu_speed rate)) (tegra_update_cpu_speed hw s rate).2 := by
  rcases h with h | h
  · exact (hands_update_cpu_speed hw s rate).2 h
  · rw [update_cpu_speed_eq]
    exact quiet_body_main _ hw s rate h

theorem hands_set_speed_cap (hw : Hw) (s : State) (speed_cap : Bool)
    (hs : s.is_suspended = false) :
    Hands (capped_speed hw s) (emit s (Event.tegra_update_cpu_speed (capped_speed hw s)))
        (tegra_cpu_set_speed_cap hw s speed_cap).2.2 ∧
      (tegra_cpu_set_speed_cap hw s speed_cap).2.1 =
        (if speed_cap then some (capped_speed hw s) else none) := by
  have h := (hands_update_cpu_speed hw s (capped_speed hw s)).1
  unfold tegra_cpu_set_speed_cap set_speed_cap_with
  simp only [hs]
  split_ifs <;> first
    | exact ⟨h.then_quiet (quiet_emit _ _ (by rfl)), rfl⟩
    | exact ⟨h, rfl⟩
    | simp at *

theorem set_speed_cap_suspended (hw : Hw) (s : State) (speed_cap : Bool)
    (hs : s.is_suspended = true) :
    tegra_cpu_set_speed_cap hw s speed_cap = (-EBUSY, none, s) := by
  simp [tegra_cpu_set_speed_cap, set_speed_cap_with, hs]

theorem set_speed_cap_clamped (hw : Hw) (s : State) (speed_cap : Bool)
    (hs : s.is_suspended = false) :
    ∃ evs,
      (tegra_cpu_set_speed_cap hw s speed_cap).2.2.trace = s.trace ++ evs ∧
      (handed_speeds evs = [capped_speed hw s] ∨
        handed_speeds evs = [capped_speed hw s, capped_speed hw s]) ∧
      (tegra_cpu_set_speed_cap hw s speed_cap).2.1 =
        (if speed_cap then some (capped_speed hw s) else none) ∧
      within_limits (tegra_cpu_set_speed_cap hw s speed_cap).2.2 (capped_speed hw s) ∧
      capped_speed hw (tegra_cpu_set_speed_cap hw s speed_cap).2.2 = capped_speed hw s ∧
      (tegra_cpu_set_speed_cap hw s speed_cap).2.2.edp_limit = s.edp_limit ∧
      (tegra_cpu_set_speed_cap hw s speed_cap).2.2.cpu_user_cap = s.cpu_user_cap := by
  obtain ⟨q, w⟩ := hands_set_speed_cap hw s speed_cap hs
  obtain ⟨l1, l2, _⟩ := q.keeps_limits
  have hc := (q.capped hw).1
  obtain ⟨evs, hh, r⟩ := q
  refine ⟨Event.tegra_update_cpu_speed (capped_speed hw s) :: evs, ?_, ?_, w, ?_, hc, l1, l2⟩
  · rw [r]
    simp [CpuTegra.emit]
  · rcases hh with hh | hh
    · left
      simp [handed_speeds, hh]
    · right
      simp [handed_speeds, hh]
  · have := capped_speed_within hw s
    unfold within_limits at *
    rw [l1, l2]
    exact this

theorem cpu_user_cap_round_frame (s : State) :
    (cpu_user_cap_round s).trace = s.trace ∧
      (cpu_user_cap_round s).is_suspended = s.is_suspended ∧
      (cpu_user_cap_round s).edp_limit = s.edp_limit := by
  unfold cpu_user_cap_round
  split_ifs <;> exact ⟨rfl, rfl, rfl⟩

theorem edp_update_limit_eq {s s' : State} (h : edp_update_limit s = some s') :
    s' = { s with edp_limit := s'.edp_limit } := by
  unfold edp_update_limit at h
  split at h
  · exact absurd h (by simp)
  · simp only [] at h
    split_ifs at h
    injection h with h
    subst h
    rfl

theorem edp_update_limit_frame {s s' : State} (h : edp_update_limit s = some s') :
    s'.trace = s.trace ∧ s'.is_suspended = s.is_suspended ∧
      s'.cpu_user_cap = s.cpu_user_cap := by
  rw [edp_update_limit_eq h]
  exact ⟨rfl, rfl, rfl⟩

theorem edp_update_limit_congr (a b : State) (h1 : a.cpu_edp_limits = b.cpu_edp_limits)
    (h2 : a.edp_thermal_index = b.edp_thermal_index)
    (h3 : a.system_edp_limits = b.system_edp_limits)
    (h4 : a.system_edp_alarm = b.system_edp_alarm) (h5 : a.edp_cpumask = b.edp_cpumask)
    (h6 : a.freq_table = b.freq_table) :
    (edp_update_limit a).map (fun x => x.edp_limit) =
      (edp_update_limit b).map (fun x => x.edp_limit) := by
  have hp : ∀ n, edp_predict_limit a n = edp_predict_limit b n := by
    intro n
    unfold edp_predict_limit
    rw [h1, h2, h3, h4]
  have hw : edp_cpumask_weight a = edp_cpumask_weight b := by
    unfold edp_cpumask_weight
    rw [h5]
  unfold edp_update_limit
  rw [hw, hp]
  cases edp_predict_limit b (edp_cpumask_weight b) with
  | none => rfl
  | some limit =>
    simp only [freq_at]
    rw [h6]
    split_ifs <;> rfl

theorem set_speed_cap_edp (hw : Hw) (s : State) (speed_cap : Bool) :
    (tegra_cpu_set_speed_cap hw s speed_cap).2.2.edp_thermal_index = s.edp_thermal_index ∧
      (tegra_cpu_set_speed_cap hw s speed_cap).2.2.cpu_edp_limits = s.cpu_edp_limits ∧
      (tegra_cpu_set_speed_cap hw s speed_cap).2.2.system_edp_limits = s.system_edp_limits ∧
      (tegra_cpu_set_speed_cap hw s speed_cap).2.2.system_edp_alarm = s.system_edp_alarm ∧
      (tegra_cpu_set_speed_cap hw s speed_cap).2.2.edp_cpumask = s.edp_cpumask ∧
      (tegra_cpu_set_speed_cap hw s speed_cap).2.2.edp_limit = s.edp_limit ∧
      (tegra_cpu_set_speed_cap hw s speed_cap).2.2.freq_table = s.freq_table := by
  cases hs : s.is_suspended
  · exact (hands_set_speed_cap hw s speed_cap hs).1.edp
  · rw [set_speed_cap_suspended hw s speed_cap hs]
    exact ⟨rfl, rfl, rfl, rfl, rfl, rfl, rfl⟩

theorem set_speed_cap_keeps_user_cap (hw : Hw) (s : State) (speed_cap : Bool) :
    (tegra_cpu_set_speed_cap hw s speed_cap).2.2.cpu_user_cap = s.cpu_user_cap := by
  cases hs : s.is_suspended
  · exact (hands_set_speed_cap hw s speed_cap hs).1.keeps_limits.2.1
  · rw [set_speed_cap_suspended hw s speed_cap hs]

theorem thermal_zone_cases (hw : Hw) (s : State) (t : Int) (r : Int × State)
    (h : tegra_edp_update_thermal_zone hw s t = some r) :
    (s.cpu_edp_limits = none ∧ r = (-EINVAL, s)) ∨
    (∃ idx, s.target_cpu_speed 0 = 0 ∧
      r = (0, emit (emit { s with edp_thermal_index := idx }
        (Event.tegra_cpu_dvfs_alter idx true)) (Event.tegra_cpu_dvfs_alter idx false))) ∨
    (∃ idx s2, s.cpu_edp_limits ≠ none ∧ s.target_cpu_speed 0 ≠ 0 ∧
      edp_update_limit (emit { s with edp_thermal_index := idx }
        (Event.tegra_cpu_dvfs_alter idx true)) = some s2 ∧
      r = (0, emit (tegra_cpu_set_speed_cap hw s2 false).2.2
        (Event.tegra_cpu_dvfs_alter idx false))) := by
  unfold tegra_edp_update_thermal_zone at h
  split at h
  · rename_i hc
    injection h with h
    exact Or.inl ⟨hc, h.symm⟩
  · exact absurd h (by simp)
  · rename_i row0 rest hc
    simp only [] at h
    split_ifs at h with ht
    · split at h
      · exact absurd h (by simp)
      · rename_i s2 hu
        injection h with h
        exact Or.inr (Or.inr ⟨_, s2, by rw [hc]; simp, ht, hu, h.symm⟩)
    · injection h with h
      exact Or.inr (Or.inl ⟨_, not_not.mp ht, h.symm⟩)

theorem edp_alarm_cases (hw : Hw) (s : State) (alarm : Bool) (r : Int × State)
    (h : tegra_system_edp_alarm hw s alarm = some r) :
    (s.target_cpu_speed 0 = 0 ∧ r.1 = -ENODEV ∧
      ∃ evs, r.2 = { s with system_edp_alarm := alarm, trace := s.trace ++ evs } ∧
        handed_speeds evs = []) ∨
    (∃ s2, s.target_cpu_speed 0 ≠ 0 ∧
      edp_update_limit { s with system_edp_alarm := alarm } = some s2 ∧
      r.1 = (tegra_cpu_set_speed_cap hw s2 false).1 ∧
      ∃ evs, r.2 = { (tegra_cpu_set_speed_cap hw s2 false).2.2 with
          trace := (tegra_cpu_set_speed_cap hw s2 false).2.2.trace ++ evs } ∧
        handed_speeds evs = []) := by
  unfold tegra_system_edp_alarm at h
  simp only [] at h
  split_ifs at h with ht ha
  · split at h
    · exact absurd h (by simp)
    · rename_i s2 hu
      right
      refine ⟨s2, ht, hu, ?_⟩
      split_ifs at h
      · injection h with h
        subst h
        exact ⟨rfl, [Event.tegra_edp_throttle_cpu_now 0], rfl, rfl⟩
      · injection h with h
        subst h
        exact ⟨rfl, [], by simp, rfl⟩
  · injection h with h
    subst h
    exact Or.inl ⟨not_not.mp ht, rfl, [Event.tegra_edp_throttle_cpu_now 0], rfl, rfl⟩
  · injection h with h
    subst h
    exact Or.inl ⟨not_not.mp ht, rfl, [], by simp, rfl⟩

/-- C1, as the code has it.  In a state that is not suspended,
`tegra_cpu_set_speed_cap` hands the speed `v`, the clamp of the aggregate
request, to `tegra_update_cpu_speed` (and, if that call switches to the main
cluster, the G-mode notifier hands the same `v` over once more), stores `v`
through a non-NULL `speed_cap`, and `v` is at most `edp_limit` when that is
not 0 and at most `cpu_user_cap` when that is not 0.  `tegra_cpu_user_cap_set`
always runs this clamp-and-apply on the new cap.
`tegra_edp_update_thermal_zone` and `tegra_system_edp_alarm` run it, after
they have recomputed `edp_limit`, when `target_cpu_speed[0]` is not 0; when it
is 0 they record the new zone or alarm and return without a call of
`tegra_update_cpu_speed` and with `edp_limit` and the CPU clock as they
were. -/
theorem no_overshoot (hw : Hw) (s : State) (hs : s.is_suspended = false) :
    (∀ speed_cap, ∃ v evs,
        (tegra_cpu_set_speed_cap hw s speed_cap).2.2.trace = s.trace ++ evs ∧
        (handed_speeds evs = [v] ∨ handed_speeds evs = [v, v]) ∧
        v = capped_speed hw s ∧
        (tegra_cpu_set_speed_cap hw s speed_cap).2.1 = (if speed_cap then some v else none) ∧
        within_limits (tegra_cpu_set_speed_cap hw s speed_cap).2.2 v) ∧
    (∀ speed_khz, ∃ v evs,
        (tegra_cpu_user_cap_set hw s speed_khz).trace = s.trace ++ evs ∧
        (handed_speeds evs = [v] ∨ handed_speeds evs = [v, v]) ∧
        v = capped_speed hw (tegra_cpu_user_cap_set hw s speed_khz) ∧
        within_limits (tegra_cpu_user_cap_set hw s speed_khz) v) ∧
    (∀ temperature r, tegra_edp_update_thermal_zone hw s temperature = some r →
        (s.cpu_edp_limits ≠ none → s.target_cpu_speed 0 ≠ 0 →
          ∃ v evs, r.2.trace = s.trace ++ evs ∧
            (handed_speeds evs = [v] ∨ handed_speeds evs = [v, v]) ∧
            v = capped_speed hw r.2 ∧ within_limits r.2 v ∧
            (edp_update_limit { s with edp_thermal_index := r.2.edp_thermal_index }).map
              (fun x => x.edp_limit) = some r.2.edp_limit) ∧
        (s.cpu_edp_limits = none ∨ s.target_cpu_speed 0 = 0 →
          ∃ evs, r.2.trace = s.trace ++ evs ∧ handed_speeds evs = [] ∧
            r.2.edp_limit = s.edp_limit ∧ r.2.cpu_rate = s.cpu_rate)) ∧
    (∀ alarm,
        (tegra_system_edp_alarm hw s alarm = none ↔
          s.target_cpu_speed 0 ≠ 0 ∧
            edp_update_limit { s with system_edp_alarm := alarm } = none) ∧
        ∀ r, tegra_system_edp_alarm hw s alarm = some r →
          r.2.system_edp_alarm = alarm ∧
          (s.target_cpu_speed 0 ≠ 0 →
            ∃ v evs, r.2.trace = s.trace ++ evs ∧
              (handed_speeds evs = [v] ∨ handed_speeds evs = [v, v]) ∧
              v = capped_speed hw r.2 ∧ within_limits r.2 v ∧
              (edp_update_limit { s with system_edp_alarm := alarm }).map
                (fun x => x.edp_limit) = some r.2.edp_limit) ∧
          (s.target_cpu_speed 0 = 0 →
            r.1 = -ENODEV ∧
            ∃ evs, r.2.trace = s.trace ++ evs ∧ handed_speeds evs = [] ∧
              r.2.edp_limit = s.edp_limit ∧ r.2.cpu_rate = s.cpu_rate)) := by
  refine ⟨?_, ?_, ?_, ?_⟩
  · intro speed_cap
    obtain ⟨evs, h1, h2, h3, h4, _⟩ := set_speed_cap_clamped hw s speed_cap hs
    exact ⟨_, evs, h1, h2, rfl, h3, h4⟩
  · intro speed_khz
    obtain ⟨f1, f2, _⟩ := cpu_user_cap_round_frame { s with cpu_user_cap := speed_khz }
    obtain ⟨evs, h1, h2, _, h4, h5, _⟩ :=
      set_speed_cap_clamped hw (cpu_user_cap_round { s with cpu_user_cap := speed_khz }) false
        (by rw [f2]; exact hs)
    refine ⟨_, evs, ?_, h2, h5.symm, h4⟩
    rw [f1] at h1
    exact h1
  · intro temperature r hr
    rcases thermal_zone_cases hw s temperature r hr with
      ⟨hc, rfl⟩ | ⟨idx, ht, rfl⟩ | ⟨idx, s2, hc, ht, hu, rfl⟩
    · refine ⟨fun h => absurd hc h, fun _ => ⟨[], by simp, rfl, rfl, rfl⟩⟩
    · refine ⟨fun _ h => absurd ht h, fun _ => ?_⟩
      exact ⟨[Event.tegra_cpu_dvfs_alter idx true, Event.tegra_cpu_dvfs_alter idx false],
        by simp [CpuTegra.emit], rfl, rfl, rfl⟩
    · refine ⟨fun _ _ => ?_, fun h => ?_⟩
      · obtain ⟨f1, f2, _⟩ := edp_update_limit_frame hu
        obtain ⟨evs, h1, h2, _, h4, h5, h6, _⟩ :=
          set_speed_cap_clamped hw s2 false (by rw [f2]; exact hs)
        obtain ⟨e1, _⟩ := set_speed_cap_edp hw s2 false
        have e2 : s2.edp_thermal_index = idx := by
          rw [edp_update_limit_eq hu]
          rfl
        refine ⟨capped_speed hw s2,
          Event.tegra_cpu_dvfs_alter idx true :: evs ++ [Event.tegra_cpu_dvfs_alter idx false],
          ?_, ?_, h5.symm, h4, ?_⟩
        · simp [CpuTegra.emit, h1, f1]
        · rcases h2 with h2 | h2
          · left
            simp [handed_speeds, handed_speeds_append, h2]
          · right
            simp [handed_speeds, handed_speeds_append, h2]
        · have e3 : (emit (tegra_cpu_set_speed_cap hw s2 false).2.2
              (Event.tegra_cpu_dvfs_alter idx false)).edp_thermal_index = idx := e1.trans e2
          have e4 : (emit (tegra_cpu_set_speed_cap hw s2 false).2.2
              (Event.tegra_cpu_dvfs_alter idx false)).edp_limit = s2.edp_limit := h6
          show (edp_update_limit { s with edp_thermal_index :=
              (emit (tegra_cpu_set_speed_cap hw s2 false).2.2
                (Event.tegra_cpu_dvfs_alter idx false)).edp_thermal_index }).map
              (fun x => x.edp_limit) =
            some (emit (tegra_cpu_set_speed_cap hw s2 false).2.2
              (Event.tegra_cpu_dvfs_alter idx false)).edp_limit
          rw [e3, e4, edp_update_limit_congr { s with edp_thermal_index := idx }
            (emit { s with edp_thermal_index := idx } (Event.tegra_cpu_dvfs_alter idx true))
            rfl rfl rfl rfl rfl rfl, hu]
          rfl
      · rcases h with h | h
        · exact absurd h hc
        · exact absurd h ht
  · intro alarm
    constructor
    · unfold tegra_system_edp_alarm
      simp only []
      by_cases ht : s.target_cpu_speed 0 ≠ 0
      · have ht' : ({ s with system_edp_alarm := alarm } : State).target_cpu_speed 0 ≠ 0 := ht
        rw [if_pos ht']
        cases hu : edp_update_limit { s with system_edp_alarm := alarm }
        · exact ⟨fun _ => ⟨ht, rfl⟩, fun _ => rfl⟩
        · simp only []
          constructor
          · intro h
            split_ifs at h
          · intro h
            exact absurd h.2 (by simp)
      · have ht' : ¬ ({ s with system_edp_alarm := alarm } : State).target_cpu_speed 0 ≠ 0 := ht
        rw [if_neg ht']
        constructor
        · intro h
          split_ifs at h
        · intro h
          exact absurd h.1 ht
    · intro r hr
      rcases edp_alarm_cases hw s alarm r hr with
        ⟨ht, hr1, evs, hr2, hh⟩ | ⟨s2, ht, hu, hr1, evs, hr2, hh⟩
      · refine ⟨by rw [hr2], fun h => absurd ht h, fun _ => ⟨hr1, evs, ?_, hh, ?_, ?_⟩⟩
        · rw [hr2]
        · rw [hr2]
        · rw [hr2]
      · obtain ⟨f1, f2, _⟩ := edp_update_limit_frame hu
        obtain ⟨evs2, h1, h2, _, h4, h5, h6, h7⟩ :=
          set_speed_cap_clamped hw s2 false (by rw [f2]; exact hs)
        obtain ⟨_, _, _, e4, _⟩ := set_speed_cap_edp hw s2 false
        have e5 : s2.system_edp_alarm = alarm := by
          rw [edp_update_limit_eq hu]
        refine ⟨?_, fun _ => ⟨capped_speed hw s2, evs2 ++ evs, ?_, ?_, ?_, ?_, ?_⟩,
          fun h => absurd h ht⟩
        · rw [hr2]
          exact e4.trans e5
        · rw [hr2]
          simp [h1, f1]
        · rw [handed_speeds_append, hh]
          simpa using h2
        · rw [hr2]
          exact h5.symm
        · rw [hr2]
          unfold within_limits at h4 ⊢
          exact h4
        · rw [hr2, hu]
          exact congrArg some h6.symm

/-- Witness of C1 as amended, on the sample state: it is not suspended, the
speed that `tegra_cpu_set_speed_cap` hands over and stores is within the
limits, and a thermal reading of 95 degrees, with a target set, recomputes
`edp_limit` to 1000000 kHz and hands 1000000 kHz to
`tegra_update_cpu_speed`. -/
theorem no_overshoot_witness :
    sample_state.is_suspended = false ∧
    (tegra_cpu_set_speed_cap sample_hw sample_state true).2.1 = some 1000000 ∧
    (∃ v evs,
      (tegra_cpu_set_speed_cap sample_hw sample_state true).2.2.trace =
        sample_state.trace ++ evs ∧
      (handed_speeds evs = [v] ∨ handed_speeds evs = [v, v]) ∧
      v = capped_speed sample_hw sample_state ∧
      (tegra_cpu_set_speed_cap sample_hw sample_state true).2.1 =
        (if true = true then some v else none) ∧
      within_limits (tegra_cpu_set_speed_cap sample_hw sample_state true).2.2 v) ∧
    tegra_edp_update_thermal_zone sample_hw sample_state 95 = some zone_result ∧
    zone_result.2.edp_limit = 1000000 ∧
    handed_speeds zone_result.2.trace = [1000000] ∧
    (∃ v evs, zone_result.2.trace = sample_state.trace ++ evs ∧
      (handed_speeds evs = [v] ∨ handed_speeds evs = [v, v]) ∧
      v = capped_speed sample_hw zone_result.2 ∧ within_limits zone_result.2 v ∧
      (edp_update_limit
        { sample_state with edp_thermal_index := zone_result.2.edp_thermal_index }).map
          (fun x => x.edp_limit) = some zone_result.2.edp_limit) :=
  ⟨rfl, by decide, (no_overshoot sample_hw sample_state rfl).1 true, rfl, by decide, by decide,
    ((no_overshoot sample_hw sample_state rfl).2.2.1 95 zone_result rfl).1
      (by decide) (by decide)⟩

/-- Counterexample to C1 as stated: before cpufreq has set a target
(`target_cpu_speed[0] == 0`), with the CPU clock at 1200000 kHz, raising the
system EDP alarm returns `-ENODEV` without a call of `tegra_update_cpu_speed`
and without recomputing `edp_limit`: on return the alarm is set, the limit for
the two CPUs of `edp_cpumask` is 1000000 kHz, `edp_limit` is still 1300000 kHz
and the clock still runs at 1200000 kHz.  A thermal reading of 95 degrees
does the same. -/
theorem limit_change_without_apply :
    cold_state.is_suspended = false ∧ cold_state.target_cpu_speed 0 = 0 ∧
    (tegra_system_edp_alarm sample_hw cold_state true).map
      (fun r => (r.1, handed_speeds r.2.trace, r.2.system_edp_alarm)) =
      some (-19, [], true) ∧
    (tegra_system_edp_alarm sample_hw cold_state true).map
      (fun r => (edp_predict_limit r.2 (edp_cpumask_weight r.2), r.2.edp_limit,
        tegra_getspeed r.2 0)) =
      some (some 1000000, 1300000, 1200000) ∧
    (tegra_edp_update_thermal_zone sample_hw cold_state 95).map
      (fun r => (r.1, handed_speeds r.2.trace, r.2.edp_thermal_index)) =
      some (0, [], 2) ∧
    (tegra_edp_update_thermal_zone sample_hw cold_state 95).map
      (fun r => (edp_predict_limit r.2 (edp_cpumask_weight r.2), r.2.edp_limit,
        tegra_getspeed r.2 0)) =
      some (some 1000000, 1300000, 1200000) :=
  ⟨by decide, by decide, by decide, by decide, by decide, by decide⟩

/-- C2. The clamp is idempotent: for every limit state and every requested
speed, `edp_governor_speed` followed by `user_cap_speed`, applied to its own
output, returns that output. -/
theorem clamp_idempotent (s : State) (x : Nat) :
    user_cap_speed s (edp_governor_speed s (user_cap_speed s (edp_governor_speed s x))) =
      user_cap_speed s (edp_governor_speed s x) ∧
    clamp s (clamp s x) = clamp s x := by
  have h : user_cap_speed s (edp_governor_speed s (user_cap_speed s (edp_governor_speed s x))) =
      user_cap_speed s (edp_governor_speed s x) := by
    unfold user_cap_speed edp_governor_speed
    split_ifs <;> omega
  exact ⟨h, h⟩

theorem freq_scan_spec (limit : Nat) (l : List Nat) (hl : l.Pairwise (· ≤ ·)) (i : Nat) :
    i ≤ freq_scan limit l i ∧
    (freq_scan limit l i = i → ∀ f ∈ l, limit < f) ∧
    (i < freq_scan limit l i →
      l.getD (freq_scan limit l i - 1 - i) CPUFREQ_TABLE_END ∈ l ∧
      l.getD (freq_scan limit l i - 1 - i) CPUFREQ_TABLE_END ≤ limit ∧
      ∀ f ∈ l, f ≤ limit → f ≤ l.getD (freq_scan limit l i - 1 - i) CPUFREQ_TABLE_END) := by
  induction l generalizing i with
  | nil => simp [freq_scan]
  | cons a rest ih =>
    rw [List.pairwise_cons] at hl
    obtain ⟨ha, hrest⟩ := hl
    unfold freq_scan
    split_ifs with hgt
    · refine ⟨le_refl i, ?_, fun h => absurd h (lt_irrefl i)⟩
      intro _ f hf
      rcases List.mem_cons.mp hf with rfl | hf
      · exact hgt
      · exact lt_of_lt_of_le hgt (ha f hf)
    · obtain ⟨h1, h2, h3⟩ := ih hrest (i + 1)
      refine ⟨by omega, fun h => by omega, fun _ => ?_⟩
      rcases Nat.eq_or_lt_of_le h1 with heq | hlt
      · have hall := h2 heq.symm
        have hidx : freq_scan limit rest (i + 1) - 1 - i = 0 := by omega
        rw [hidx]
        refine ⟨by simp, by simpa using Nat.le_of_not_lt hgt, ?_⟩
        intro f hf hfl
        rcases List.mem_cons.mp hf with rfl | hf
        · simp
        · exact absurd (hall f hf) (by omega)
      · obtain ⟨m1, m2, m3⟩ := h3 hlt
        have hidx : freq_scan limit rest (i + 1) - 1 - i =
            (freq_scan limit rest (i + 1) - 1 - (i + 1)) + 1 := by omega
        rw [hidx]
        simp only [List.getD_cons_succ]
        refine ⟨List.mem_cons_of_mem _ m1, m2, ?_⟩
        intro f hf hfl
        rcases List.mem_cons.mp hf with rfl | hf
        · exact ha _ m1
        · exact m3 f hf hfl

/-- C3, as the code has it.  For a non-empty ascending frequency table and a
requested cap `speed_khz`: a request of 0 stays 0; a non-zero request that
some table entry does not exceed is stored as the largest table entry not
above it; a non-zero request below every table entry is stored as the lowest
table frequency `freq_table[0]`. -/
theorem user_cap_rounding (hw : Hw) (s : State) (speed_khz : Nat)
    (hsorted : s.freq_table.Pairwise (· ≤ ·)) (hne : s.freq_table ≠ []) :
    (speed_khz = 0 → (tegra_cpu_user_cap_set hw s speed_khz).cpu_user_cap = 0) ∧
    (speed_khz ≠ 0 → (∃ f ∈ s.freq_table, f ≤ speed_khz) →
      (tegra_cpu_user_cap_set hw s speed_khz).cpu_user_cap ∈ s.freq_table ∧
      (tegra_cpu_user_cap_set hw s speed_khz).cpu_user_cap ≤ speed_khz ∧
      ∀ f ∈ s.freq_table, f ≤ speed_khz →
        f ≤ (tegra_cpu_user_cap_set hw s speed_khz).cpu_user_cap) ∧
    (speed_khz ≠ 0 → (∀ f ∈ s.freq_table, speed_khz < f) →
      some (tegra_cpu_user_cap_set hw s speed_khz).cpu_user_cap = s.freq_table.head?) := by
  have hcap : (tegra_cpu_user_cap_set hw s speed_khz).cpu_user_cap =
      (cpu_user_cap_round { s with cpu_user_cap := speed_khz }).cpu_user_cap := by
    unfold tegra_cpu_user_cap_set _cpu_user_cap_set_locked
    exact set_speed_cap_keeps_user_cap hw _ false
  rw [hcap]
  obtain ⟨h1, h2, h3⟩ := freq_scan_spec speed_khz s.freq_table hsorted 0
  refine ⟨?_, ?_, ?_⟩
  · intro h0
    simp [cpu_user_cap_round, h0]
  · intro hnz ⟨f, hf, hfl⟩
    have hpos : 0 < freq_scan speed_khz s.freq_table 0 := by
      rcases Nat.eq_zero_or_pos (freq_scan speed_khz s.freq_table 0) with h | h
      · exact absurd (h2 h f hf) (by omega)
      · exact h
    have := h3 hpos
    simp only [cpu_user_cap_round, hnz, ne_eq, not_false_eq_true, if_true, freq_at,
      Nat.ne_of_gt hpos, if_false]
    simpa using this
  · intro hnz hall
    have hz : freq_scan speed_khz s.freq_table 0 = 0 := by
      rcases Nat.eq_zero_or_pos (freq_scan speed_khz s.freq_table 0) with h | h
      · exact h
      · obtain ⟨m1, m2, _⟩ := h3 h
        exact absurd (hall _ m1) (by omega)
    simp only [cpu_user_cap_round, hnz, ne_eq, not_false_eq_true, if_true, freq_at, hz]
    cases hft : s.freq_table with
    | nil => exact absurd hft hne
    | cons a rest => simp

/-- Witness of C3 on the sample table: a request of 700000 kHz is stored as
640000 kHz. -/
theorem user_cap_rounding_witness :
    sample_state.freq_table.Pairwise (· ≤ ·) ∧ sample_state.freq_table ≠ [] ∧
    (tegra_cpu_user_cap_set sample_hw sample_state 700000).cpu_user_cap = 640000 ∧
    (tegra_cpu_user_cap_set sample_hw sample_state 700000).cpu_user_cap ≤ 700000 :=
  ⟨by decide, by decide, by decide,
    ((user_cap_rounding sample_hw sample_state 700000 (by decide) (by decide)).2.1
      (by decide) ⟨640000, by decide, by decide⟩).2.1⟩

/-- Counterexample to C3 as stated: on the sample table, whose lowest entry
is 51000 kHz, a requested cap of 30000 kHz is stored as 51000 kHz, which is
above the request. -/
theorem user_cap_rounds_up_below_table :
    (30000 : Nat) ≠ 0 ∧ sample_state.freq_table ≠ [] ∧
    sample_state.freq_table.Pairwise (· ≤ ·) ∧
    (tegra_cpu_user_cap_set sample_hw sample_state 30000).cpu_user_cap = 51000 ∧
    ¬ (tegra_cpu_user_cap_set sample_hw sample_state 30000).cpu_user_cap ≤ 30000 := by
  decide

/-- C4. EDP prediction.  With the per-CPU EDP table present, a thermal index
inside it and `n >= 1` within the row width, `edp_predict_limit n` is the
table entry `[edp_thermal_index][n-1]` when the system alarm is clear (and
when no system table exists), and the minimum of that entry and
`system_edp_limits[n-1]` when the alarm is set; for `n = 2` and
`system_edp_limits = [a, b, c, d]` with the alarm set it is the minimum of the
table entry and `b`. -/
theorem edp_predict_limit_lookup (s : State) (tbl : List tegra_edp_limits)
    (row : tegra_edp_limits) (n entry : Nat)
    (htbl : s.cpu_edp_limits = some tbl)
    (hidx : 0 ≤ s.edp_thermal_index)
    (hrow : tbl.get? s.edp_thermal_index.toNat = some row)
    (hn : 1 ≤ n)
    (hentry : row.freq_limits.get? (n - 1) = some entry) :
    (s.system_edp_alarm = false → edp_predict_limit s n = some entry) ∧
    (s.system_edp_limits = none → edp_predict_limit s n = some entry) ∧
    (∀ sys l, s.system_edp_alarm = true → s.system_edp_limits = some sys →
      sys.get? (n - 1) = some l → edp_predict_limit s n = some (min entry l)) ∧
    (∀ a b c d, n = 2 → s.system_edp_alarm = true →
      s.system_edp_limits = some [a, b, c, d] →
      edp_predict_limit s n = some (min entry b)) := by
  have hlt : ¬ s.edp_thermal_index ≥ (tbl.length : Int) := by
    have := List.get?_eq_some.mp hrow
    obtain ⟨h, _⟩ := this
    omega
  have hn0 : n ≠ 0 := by omega
  rw [List.get?_eq_getElem?] at hrow hentry
  have key : ∀ sys l, s.system_edp_alarm = true → s.system_edp_limits = some sys →
      sys.get? (n - 1) = some l → edp_predict_limit s n = some (min entry l) := by
    intro sys l ha hs hl
    rw [List.get?_eq_getElem?] at hl
    simp [edp_predict_limit, hn0, htbl, hlt, not_lt.mpr hidx, hrow, hentry, hs, ha, hl]
  refine ⟨?_, ?_, key, ?_⟩
  · intro ha
    cases hs : s.system_edp_limits <;>
      simp [edp_predict_limit, hn0, htbl, hlt, not_lt.mpr hidx, hrow, hentry, hs, ha]
  · intro hs
    simp [edp_predict_limit, hn0, htbl, hlt, not_lt.mpr hidx, hrow, hentry, hs]
  · intro a b c d h2 ha hs
    subst h2
    exact key [a, b, c, d] b ha hs rfl

/-- Witness of C4 on the sample state with the alarm raised: two CPUs, table
entry 1300000 kHz and system limit 1000000 kHz give 1000000 kHz. -/
theorem edp_predict_limit_lookup_witness :
    edp_predict_limit { sample_state with system_edp_alarm := true } 2 =
      some (min 1300000 1000000) :=
  (edp_predict_limit_lookup { sample_state with system_edp_alarm := true }
    _ { temperature := 60, freq_limits := [1300000, 1300000, 1200000, 1200000] } 2 1300000
    rfl (by decide) rfl (by decide) rfl).2.2.2 1200000 1000000 900000 800000 rfl rfl rfl

/-- C5, at the failing input.  Without a per-CPU EDP table, with the system
table `[1200000, 1000000, 900000, 800000]` present and the alarm raised,
`edp_predict_limit 2` is 0 and not `system_edp_limits[1] = 1000000`; the other
two parts of the claim hold: `edp_governor_speed` with `edp_limit = 0` and
`user_cap_speed` with `cpu_user_cap = 0` return their argument. -/
theorem edp_predict_limit_drops_alarm_limit :
    alarm_only_state.cpu_edp_limits = none ∧
    alarm_only_state.system_edp_limits = some [1200000, 1000000, 900000, 800000] ∧
    alarm_only_state.system_edp_alarm = true ∧
    edp_predict_limit alarm_only_state 2 = some 0 ∧
    edp_predict_limit alarm_only_state 2 ≠ some 1000000 ∧
    (∀ s x, s.edp_limit = 0 → edp_governor_speed s x = x) ∧
    (∀ s x, s.cpu_user_cap = 0 → user_cap_speed s x = x) := by
  refine ⟨rfl, rfl, rfl, by decide, by decide, ?_, ?_⟩
  · intro s x h
    simp [edp_governor_speed, h]
  · intro s x h
    simp [user_cap_speed, h]

theorem foldl_max_eq (l : List Nat) (r : Nat) : l.foldl max r = max r (l.foldr max 0) := by
  induction l generalizing r with
  | nil => simp
  | cons a l ih =>
    simp only [List.foldl_cons, List.foldr_cons, ih]
    omega

theorem foldl_min_eq (l : List Nat) (p : Nat) (hp : p ≤ ULONG_MAX) :
    l.foldl min p = min p (l.foldr min ULONG_MAX) := by
  induction l generalizing p with
  | nil => simp [hp]
  | cons a l ih =>
    simp only [List.foldl_cons, List.foldr_cons]
    rw [ih (min p a) (le_trans (min_le_left p a) hp)]
    omega

theorem foldr_min_le (l : List Nat) : l.foldr min ULONG_MAX ≤ ULONG_MAX := by
  induction l with
  | nil => simp
  | cons a l ih =>
    simp only [List.foldr_cons]
    exact le_trans (min_le_right _ _) ih

theorem highest_speed_foldl (b : Bool) (pm tg : Nat → Nat) (l : List Nat) (p r : Nat) :
    l.foldl (fun (acc : Nat × Nat) i =>
        ((if b then min acc.1 (pm i) else acc.1), max acc.2 (tg i))) (p, r) =
      ((if b then (l.map pm).foldl min p else p), (l.map tg).foldl max r) := by
  induction l generalizing p r with
  | nil => cases b <;> rfl
  | cons a l ih =>
    simp only [List.foldl_cons, List.map_cons, ih]
    cases b <;> rfl

theorem highest_speed_eq (s : State) :
    tegra_cpu_highest_speed s =
      min (max_target_online s)
        (if s.force_policy_max then min_policy_max_online s else ULONG_MAX) := by
  unfold tegra_cpu_highest_speed max_target_online min_policy_max_online
  rw [highest_speed_foldl, foldl_max_eq]
  cases s.force_policy_max
  · simp
  · simp only [if_true]
    rw [foldl_min_eq _ ULONG_MAX (le_refl _), min_eq_right (foldr_min_le _)]
    simp

theorem max_target_online_le (s : State) (h : ∀ c, s.target_cpu_speed c ≤ ULONG_MAX) :
    max_target_online s ≤ ULONG_MAX := by
  unfold max_target_online
  induction online_cpus s with
  | nil => simp
  | cons a l ih =>
    simp only [List.map_cons, List.foldr_cons]
    exact max_le (h a) ih

/-- C6. Aggregate request.  With every per-core target a 32-bit value,
`tegra_cpu_highest_speed` is the maximum of `target_cpu_speed` over the online
cores when `force_policy_max` is off, and the minimum of that maximum and of
the minimum of `policy_max_speed` over the online cores when it is on; two
states with the same online mask and flag that agree on the targets and policy
maxima of the online cores give the same result. -/
theorem highest_speed_aggregate (s : State) (h32 : ∀ c, s.target_cpu_speed c ≤ ULONG_MAX) :
    (s.force_policy_max = false → tegra_cpu_highest_speed s = max_target_online s) ∧
    (s.force_policy_max = true →
      tegra_cpu_highest_speed s = min (max_target_online s) (min_policy_max_online s)) ∧
    (∀ s' : State, s'.cpu_online = s.cpu_online → s'.force_policy_max = s.force_policy_max →
      (∀ c, s.cpu_online c = true →
        s'.target_cpu_speed c = s.target_cpu_speed c ∧
        s'.policy_max_speed c = s.policy_max_speed c) →
      tegra_cpu_highest_speed s' = tegra_cpu_highest_speed s) := by
  have hM := max_target_online_le s h32
  refine ⟨?_, ?_, ?_⟩
  · intro hf
    rw [highest_speed_eq, hf]
    simpa using hM
  · intro hf
    rw [highest_speed_eq, hf]
    simp
  · intro s' ho hf hag
    have hl : online_cpus s' = online_cpus s := by simp [online_cpus, ho]
    have hmem : ∀ c ∈ online_cpus s, s.cpu_online c = true := by
      intro c hc
      simp only [online_cpus, List.mem_filter] at hc
      exact hc.2
    have ht : (online_cpus s).map s'.target_cpu_speed = (online_cpus s).map s.target_cpu_speed :=
      List.map_congr_left (fun c hc => (hag c (hmem c hc)).1)
    have hp : (online_cpus s).map s'.policy_max_speed = (online_cpus s).map s.policy_max_speed :=
      List.map_congr_left (fun c hc => (hag c (hmem c hc)).2)
    rw [highest_speed_eq, highest_speed_eq]
    unfold max_target_online min_policy_max_online
    rw [hl, hf, ht, hp]

/-- Witness of C6 on the sample state: every target is a 32-bit value, the
flag is off, and the result is the target of core 0, the larger of the two
online cores. -/
theorem highest_speed_aggregate_witness :
    (∀ c, sample_state.target_cpu_speed c ≤ ULONG_MAX) ∧
    tegra_cpu_highest_speed sample_state = max_target_online sample_state ∧
    max_target_online sample_state = 1000000 :=
  have h : ∀ c, sample_state.target_cpu_speed c ≤ ULONG_MAX := by
    intro c
    simp only [sample_state, ULONG_MAX]
    split_ifs <;> omega
  ⟨h, (highest_speed_aggregate sample_state h).1 rfl, by decide⟩

theorem clk_set_rate_cpu_indep (hw : Hw) (s : State) (hz cap : Nat) (fpm : Bool)
    (tgt : Nat → Nat) :
    clk_set_rate_cpu hw (with_policy s cap fpm tgt) hz =
      ((clk_set_rate_cpu hw s hz).1, with_policy (clk_set_rate_cpu hw s hz).2 cap fpm tgt) := by
  unfold clk_set_rate_cpu
  simp only []
  split_ifs <;> rfl

theorem apply_cpu_rate_indep (hw : Hw) (s : State) (o n cap : Nat) (fpm : Bool)
    (tgt : Nat → Nat) :
    apply_cpu_rate hw (with_policy s cap fpm tgt) o n =
      ((apply_cpu_rate hw s o n).1, with_policy (apply_cpu_rate hw s o n).2 cap fpm tgt) := by
  have hn : ∀ p, notify_transition (with_policy s cap fpm tgt) o n p =
      with_policy (notify_transition s o n p) cap fpm tgt := fun _ => rfl
  unfold apply_cpu_rate
  simp only [hn, clk_set_rate_cpu_indep]
  split_ifs <;> rfl

theorem vote_and_apply_indep (hw : Hw) (s : State) (o n cap : Nat) (fpm : Bool)
    (tgt : Nat → Nat) :
    vote_and_apply hw (with_policy s cap fpm tgt) o n =
      ((vote_and_apply hw s o n).1, with_policy (vote_and_apply hw s o n).2 cap fpm tgt) := by
  have he : ∀ e, emit (with_policy s cap fpm tgt) e = with_policy (emit s e) cap fpm tgt :=
    fun _ => rfl
  have he2 : ∀ e e', emit (with_policy (emit s e) cap fpm tgt) e' =
      with_policy (emit (emit s e) e') cap fpm tgt := fun _ _ => rfl
  unfold vote_and_apply
  simp only [he, he2, apply_cpu_rate_indep]
  split_ifs <;> rfl

theorem set_speed_cap_with_suspended (upd : State → Nat → Int × State) (hw : Hw) (s : State)
    (b : Bool) (hs : s.is_suspended = true) :
    set_speed_cap_with upd hw s b = (-EBUSY, none, s) := by
  simp [set_speed_cap_with, hs]

theorem lp_handler_suspended (upd : State → Nat → Int × State) (hw : Hw) (s : State)
    (n : Bool) (hs : s.is_suspended = true) :
    tegra_lp_cpu_handler upd hw s false n =
      if hw.clk_err then (0, s)
      else if !hw.lpcpu_lock then (0, s)
      else if hw.clk_set_parent false = 0 then
        (1, { emit s (Event.clk_set_parent false) with
          lp_cluster := false, cpu_rate := hw.clk_parent_rate false s.cpu_rate })
      else (0, emit s (Event.clk_set_parent false)) := by
  unfold tegra_lp_cpu_handler
  simp only []
  rw [set_speed_cap_with_suspended upd hw _ false (show ({ emit s (Event.clk_set_parent false)
    with lp_cluster := false,
         cpu_rate := hw.clk_parent_rate false (emit s (Event.clk_set_parent false)).cpu_rate } :
      State).is_suspended = true from hs)]
  rfl

theorem lp_handler_indep (upd : State → Nat → Int × State) (hw : Hw) (s : State) (n : Bool)
    (cap : Nat) (fpm : Bool) (tgt : Nat → Nat) (hs : s.is_suspended = true) :
    tegra_lp_cpu_handler upd hw (with_policy s cap fpm tgt) false n =
      ((tegra_lp_cpu_handler upd hw s false n).1,
        with_policy (tegra_lp_cpu_handler upd hw s false n).2 cap fpm tgt) := by
  rw [lp_handler_suspended upd hw _ n (show (with_policy s cap fpm tgt).is_suspended = true
    from hs), lp_handler_suspended upd hw s n hs]
  split_ifs <;> rfl

theorem gmode_indep (upd : State → Nat → Int × State) (hw : Hw) (s : State) (cap : Nat)
    (fpm : Bool) (tgt : Nat → Nat) (hs : s.is_suspended = true) :
    mpdecision_gmode_notifier upd hw (with_policy s cap fpm tgt) =
      ((mpdecision_gmode_notifier upd hw s).1,
        with_policy (mpdecision_gmode_notifier upd hw s).2 cap fpm tgt) := by
  have he : emit (with_policy s cap fpm tgt) Event.mpdecision_gmode_notifier =
      with_policy (emit s Event.mpdecision_gmode_notifier) cap fpm tgt := rfl
  have hh := lp_handler_indep upd hw (emit s Event.mpdecision_gmode_notifier) true cap fpm tgt hs
  have hc : ∀ x : State, (with_policy x cap fpm tgt).lp_cluster = x.lp_cluster := fun _ => rfl
  unfold mpdecision_gmode_notifier
  simp only [he, hh, hc]
  split_ifs <;> rfl

theorem leave_lp_mode_indep (upd : State → Nat → Int × State) (hw : Hw) (s : State)
    (cap : Nat) (fpm : Bool) (tgt : Nat → Nat) (hs : s.is_suspended = true) :
    leave_lp_mode upd hw (with_policy s cap fpm tgt) =
      with_policy (leave_lp_mode upd hw s) cap fpm tgt := by
  have h1 : (clk_set_rate_cpu hw s (475000 * 1000)).2.is_suspended = true :=
    (quiet_clk_set_rate_cpu hw s _).limits.2.2.trans hs
  unfold leave_lp_mode
  simp only [clk_set_rate_cpu_indep, gmode_indep upd hw _ cap fpm tgt h1]

theorem update_cpu_speed_indep (hw : Hw) (s : State) (rate cap : Nat) (fpm : Bool)
    (tgt : Nat → Nat) (hs : s.is_suspended = true) :
    tegra_update_cpu_speed hw (with_policy s cap fpm tgt) rate =
      ((tegra_update_cpu_speed hw s rate).1,
        with_policy (tegra_update_cpu_speed hw s rate).2 cap fpm tgt) := by
  have he : ∀ e, emit (with_policy s cap fpm tgt) e = with_policy (emit s e) cap fpm tgt :=
    fun _ => rfl
  have hg : ∀ s : State, tegra_getspeed (with_policy s cap fpm tgt) 0 = tegra_getspeed s 0 :=
    fun _ => rfl
  have hl : ∀ s : State, lp_override hw (with_policy s cap fpm tgt) rate = lp_override hw s rate :=
    fun _ => rfl
  have hr : ∀ s : State, rounded_speed hw (with_policy s cap fpm tgt) rate =
      rounded_speed hw s rate := fun _ => rfl
  have hlv := leave_lp_mode_indep (tegra_update_cpu_speed_fuel 0 hw) hw
    (emit s (Event.tegra_update_cpu_speed rate)) cap fpm tgt hs
  rw [update_cpu_speed_eq, update_cpu_speed_eq]
  unfold update_cpu_speed_body
  simp only [he, hg, hl, hr, hlv, vote_and_apply_indep]
  split_ifs <;> rfl

/-- C7. Suspend gating.  While `is_suspended` is set, `tegra_cpu_set_speed_cap`
returns `-EBUSY`, stores nothing through `speed_cap` and leaves the state,
trace included, as it was.  While it is clear, `tegra_suspended_target`
returns `-EBUSY` and leaves the state as it was.  While it is set,
`tegra_suspended_target f` is `tegra_update_cpu_speed` on the thermal and EDP
clamp of `f`; that speed is the one it hands over, and the return value, the
trace and the CPU clock do not depend on `cpu_user_cap`, `force_policy_max`
or the per-core targets. -/
theorem suspend_gating (hw : Hw) (s : State) :
    (s.is_suspended = true →
      ∀ speed_cap, tegra_cpu_set_speed_cap hw s speed_cap = (-EBUSY, none, s)) ∧
    (s.is_suspended = false →
      ∀ f, tegra_suspended_target hw s f = (-EBUSY, s)) ∧
    (s.is_suspended = true → ∀ f,
      tegra_suspended_target hw s f =
        tegra_update_cpu_speed hw s
          (edp_governor_speed s (hw.tegra_throttle_governor_speed f)) ∧
      (∃ evs, (tegra_suspended_target hw s f).2.trace = s.trace ++ evs ∧
        handed_speeds evs = [edp_governor_speed s (hw.tegra_throttle_governor_speed f)]) ∧
      ∀ cap fpm tgt,
        (tegra_suspended_target hw (with_policy s cap fpm tgt) f).1 =
          (tegra_suspended_target hw s f).1 ∧
        (tegra_suspended_target hw (with_policy s cap fpm tgt) f).2.trace =
          (tegra_suspended_target hw s f).2.trace ∧
        (tegra_suspended_target hw (with_policy s cap fpm tgt) f).2.cpu_rate =
          (tegra_suspended_target hw s f).2.cpu_rate ∧
        (tegra_suspended_target hw (with_policy s cap fpm tgt) f).2.lp_cluster =
          (tegra_suspended_target hw s f).2.lp_cluster) := by
  refine ⟨?_, ?_, ?_⟩
  · intro hs speed_cap
    exact set_speed_cap_suspended hw s speed_cap hs
  · intro hs f
    simp [tegra_suspended_target, hs]
  · intro hs f
    have h1 : tegra_suspended_target hw s f =
        tegra_update_cpu_speed hw s
          (edp_governor_speed s (hw.tegra_throttle_governor_speed f)) := by
      simp [tegra_suspended_target, hs]
    refine ⟨h1, ?_, ?_⟩
    · rw [h1]
      exact (quiet_update_cpu_speed hw s _ (Or.inl hs)).after_call
    · intro cap fpm tgt
      have h2 : tegra_suspended_target hw (with_policy s cap fpm tgt) f =
          tegra_update_cpu_speed hw (with_policy s cap fpm tgt)
            (edp_governor_speed s (hw.tegra_throttle_governor_speed f)) := by
        simp [tegra_suspended_target, hs, edp_governor_speed, with_policy]
      rw [h2, h1, update_cpu_speed_indep hw s _ cap fpm tgt hs]
      exact ⟨rfl, rfl, rfl, rfl⟩

/-- Witness of C7 on the suspended sample state: the capped path is refused
with `-EBUSY`, and the suspend path hands the EDP clamp of 1500000 kHz, which
is 1300000 kHz, to `tegra_update_cpu_speed`. -/
theorem suspend_gating_witness :
    suspended_state.is_suspended = true ∧
    tegra_cpu_set_speed_cap sample_hw suspended_state true = (-EBUSY, none, suspended_state) ∧
    (∃ evs, (tegra_suspended_target sample_hw suspended_state 1500000).2.trace =
        suspended_state.trace ++ evs ∧
      handed_speeds evs =
        [edp_governor_speed suspended_state
          (sample_hw.tegra_throttle_governor_speed 1500000)]) ∧
    edp_governor_speed suspended_state (sample_hw.tegra_throttle_governor_speed 1500000) =
      1300000 :=
  ⟨rfl, (suspend_gating sample_hw suspended_state).1 rfl true,
    ((suspend_gating sample_hw suspended_state).2.2 rfl 1500000).2.1, by decide⟩

theorem hands_trace {v : Nat} {s s' : State} (h : Hands v s s') :
    s'.trace = s.trace ++ calls_since s s' ∧
      (handed_speeds (calls_since s s') = [] ∨ handed_speeds (calls_since s s') = [v]) := by
  obtain ⟨evs, hh, r⟩ := h
  have ht : s'.trace = s.trace ++ evs := by
    rw [r]
  have hc : calls_since s s' = evs := by
    unfold calls_since
    rw [ht]
    simp
  rw [hc]
  exact ⟨ht, hh⟩

theorem set_speed_cap_main_calls (upd : State → Nat → Int × State)
    (hupd : ∀ s v, s.lp_cluster = false →
      Quiet (emit s (Event.tegra_update_cpu_speed v)) (upd s v).2)
    (hw : Hw) (s : State) (b : Bool) (hlp : s.lp_cluster = false) :
    ∃ rest, (set_speed_cap_with upd hw s b).2.2.trace = s.trace ++ rest ∧
      (s.is_suspended = true → rest = []) ∧
      (s.is_suspended = false →
        ∃ rest3, rest = Event.tegra_update_cpu_speed (capped_speed hw s) :: rest3) := by
  cases hs : s.is_suspended
  · have h := hupd s (capped_speed hw s) hlp
    have hq : Quiet (emit s (Event.tegra_update_cpu_speed (capped_speed hw s)))
        (set_speed_cap_with upd hw s b).2.2 := by
      unfold set_speed_cap_with
      simp only [hs]
      split_ifs <;> first
        | exact h.trans (quiet_emit _ _ (by rfl))
        | exact h
        | simp at *
    obtain ⟨evs, _, r⟩ := hq
    refine ⟨Event.tegra_update_cpu_speed (capped_speed hw s) :: evs, ?_,
      fun h => absurd h (by simp), fun _ => ⟨evs, rfl⟩⟩
    rw [r]
    simp [CpuTegra.emit]
  · rw [set_speed_cap_with_suspended upd hw s b hs]
    exact ⟨[], by simp, fun _ => rfl, fun h => absurd h (by simp)⟩

theorem cpu_lp_handler_calls (upd : State → Nat → Int × State)
    (hupd : ∀ s v, s.lp_cluster = false →
      Quiet (emit s (Event.tegra_update_cpu_speed v)) (upd s v).2)
    (hw : Hw) (s : State) (n : Bool) :
    ∃ rest, (tegra_lp_cpu_handler upd hw s false n).2.trace = s.trace ++ rest ∧
      ((hw.lpcpu_lock && !hw.clk_err) = false →
        rest = [] ∧ (tegra_lp_cpu_handler upd hw s false n).1 = 0) ∧
      ((hw.lpcpu_lock && !hw.clk_err) = true →
        ∃ rest2, rest = Event.clk_set_parent false :: rest2 ∧
          (hw.clk_set_parent false ≠ 0 →
            rest2 = [] ∧ (tegra_lp_cpu_handler upd hw s false n).1 = 0) ∧
          (hw.clk_set_parent false = 0 →
            (tegra_lp_cpu_handler upd hw s false n).1 = 1 ∧
            (s.is_suspended = true → rest2 = []) ∧
            (s.is_suspended = false →
              ∃ rest3, rest2 = Event.tegra_update_cpu_speed (capped_speed hw s) :: rest3))) := by
  obtain ⟨rest, ht, hsus, hrun⟩ := set_speed_cap_main_calls upd hupd hw
    { emit s (Event.clk_set_parent false) with
      lp_cluster := false,
      cpu_rate := hw.clk_parent_rate false (emit s (Event.clk_set_parent false)).cpu_rate }
    false rfl
  unfold tegra_lp_cpu_handler
  simp only []
  by_cases h1 : hw.clk_err = true
  · rw [if_pos h1]
    exact ⟨[], (List.append_nil _).symm, fun _ => ⟨rfl, rfl⟩,
      fun h => absurd h (by simp [h1])⟩
  · rw [if_neg h1]
    by_cases h2 : (!hw.lpcpu_lock) = true
    · rw [if_pos h2]
      refine ⟨[], (List.append_nil _).symm, fun _ => ⟨rfl, rfl⟩, fun h => absurd h ?_⟩
      simp only [Bool.not_eq_true'] at h2
      simp [h2]
    · rw [if_neg h2]
      have hen : ¬ (hw.lpcpu_lock && !hw.clk_err) = false := by
        simp only [Bool.not_eq_true', Bool.not_eq_false] at h2
        simp [h2, h1]
      by_cases h3 : hw.clk_set_parent false = 0
      · rw [if_pos h3]
        refine ⟨Event.clk_set_parent false :: rest, ?_, fun h => absurd h hen,
          fun _ => ⟨rest, rfl, fun h => absurd h3 h, fun _ => ⟨rfl, hsus, hrun⟩⟩⟩
        show (set_speed_cap_with upd hw _ false).2.2.trace = _
        rw [ht]
        simp [CpuTegra.emit]
      · rw [if_neg h3]
        exact ⟨[Event.clk_set_parent false], rfl, fun h => absurd h hen,
          fun _ => ⟨[], rfl, fun _ => ⟨rfl, rfl⟩, fun h => absurd h h3⟩⟩

theorem gmode_calls (upd : State → Nat → Int × State)
    (hupd : ∀ s v, s.lp_cluster = false →
      Quiet (emit s (Event.tegra_update_cpu_speed v)) (upd s v).2)
    (hw : Hw) (s : State) (hlp : s.lp_cluster = true) :
    ∃ rest, (mpdecision_gmode_notifier upd hw s).2.trace =
        s.trace ++ Event.mpdecision_gmode_notifier :: rest ∧
      (notifier_enters hw = false → rest = []) ∧
      (notifier_enters hw = true →
        ∃ rest2, rest = Event.clk_set_parent false :: rest2 ∧
          (hw.clk_set_parent false ≠ 0 → rest2 = []) ∧
          (hw.clk_set_parent false = 0 → s.is_suspended = false →
            ∃ rest3, rest2 = Event.tegra_update_cpu_speed (capped_speed hw s) :: rest3)) := by
  obtain ⟨rest, ht, hno, hyes⟩ :=
    cpu_lp_handler_calls upd hupd hw (emit s Event.mpdecision_gmode_notifier) true
  have hl : (!(emit s Event.mpdecision_gmode_notifier).lp_cluster) = false := by
    show (!s.lp_cluster) = false
    rw [hlp]
    rfl
  unfold mpdecision_gmode_notifier
  simp only [hl, Bool.false_eq_true, if_false]
  by_cases h1 : (!hw.cpu_lock) = true
  · rw [if_pos h1]
    refine ⟨[], rfl, fun _ => rfl, fun h => absurd h ?_⟩
    simp only [Bool.not_eq_true'] at h1
    simp [notifier_enters, h1]
  · rw [if_neg h1]
    simp only [Bool.not_eq_true', Bool.not_eq_false] at h1
    cases hen : (hw.lpcpu_lock && !hw.clk_err)
    · obtain ⟨e1, e2⟩ := hno hen
      have hne : ¬ (tegra_lp_cpu_handler upd hw (emit s Event.mpdecision_gmode_notifier)
          false true).1 ≠ 0 := by
        rw [e2]
        simp
      rw [if_neg hne]
      refine ⟨[], ?_, fun _ => rfl, fun h => absurd h ?_⟩
      · show (tegra_lp_cpu_handler upd hw (emit s Event.mpdecision_gmode_notifier)
          false true).2.trace = _
        rw [ht, e1]
        simp [CpuTegra.emit]
      · have : notifier_enters hw = false := by
          unfold notifier_enters
          rw [Bool.and_assoc, Bool.and_comm (!hw.clk_err), hen]
          simp
        rw [this]
        simp
    · obtain ⟨rest2, e1, hfail, hok⟩ := hyes hen
      have hent : notifier_enters hw = true := by
        unfold notifier_enters
        rw [Bool.and_assoc, Bool.and_comm (!hw.clk_err), hen, h1]
        rfl
      have hent' : ¬ notifier_enters hw = false := by
        rw [hent]
        simp
      by_cases h3 : hw.clk_set_parent false = 0
      · obtain ⟨e2, _, hrun⟩ := hok h3
        have hne : (tegra_lp_cpu_handler upd hw (emit s Event.mpdecision_gmode_notifier)
            false true).1 ≠ 0 := by
          rw [e2]
          simp
        rw [if_pos hne]
        by_cases h4 : hw.device_suspended = true
        · rw [if_pos h4]
          refine ⟨Event.clk_set_parent false :: (rest2 ++
            [Event.queue_suspended_work TEGRA_MPDEC_LPCPU_UPDELAY]), ?_,
            fun h => absurd h hent', fun _ => ⟨_, rfl, fun h => absurd h3 h, fun _ hs => ?_⟩⟩
          · show (tegra_lp_cpu_handler upd hw (emit s Event.mpdecision_gmode_notifier)
              false true).2.trace ++ _ = _
            rw [ht, e1]
            simp [CpuTegra.emit]
          · obtain ⟨rest3, e3⟩ := hrun hs
            exact ⟨rest3 ++ [Event.queue_suspended_work TEGRA_MPDEC_LPCPU_UPDELAY], by
              rw [e3]
              rfl⟩
        · rw [if_neg h4]
          refine ⟨Event.clk_set_parent false :: (rest2 ++
            [Event.cancel_delayed_work_sync,
              Event.queue_delayed_work TEGRA_MPDEC_LPCPU_DOWNDELAY]), ?_,
            fun h => absurd h hent', fun _ => ⟨_, rfl, fun h => absurd h3 h, fun _ hs => ?_⟩⟩
          · show ((tegra_lp_cpu_handler upd hw (emit s Event.mpdecision_gmode_notifier)
              false true).2.trace ++ _) ++ _ = _
            rw [ht, e1]
            simp [CpuTegra.emit]
          · obtain ⟨rest3, e3⟩ := hrun hs
            exact ⟨rest3 ++ [Event.cancel_delayed_work_sync,
              Event.queue_delayed_work TEGRA_MPDEC_LPCPU_DOWNDELAY], by
              rw [e3]
              rfl⟩
      · obtain ⟨e2, e3⟩ := hfail h3
        have hne : ¬ (tegra_lp_cpu_handler upd hw (emit s Event.mpdecision_gmode_notifier)
            false true).1 ≠ 0 := by
          rw [e3]
          simp
        rw [if_neg hne]
        refine ⟨[Event.clk_set_parent false], ?_, fun h => absurd h hent',
          fun _ => ⟨[], rfl, fun _ => rfl, fun h => absurd h h3⟩⟩
        show (tegra_lp_cpu_handler upd hw (emit s Event.mpdecision_gmode_notifier)
          false true).2.trace = _
        rw [ht, e1, e2]
        simp [CpuTegra.emit]

theorem leave_lp_mode_calls (upd : State → Nat → Int × State)
    (hupd : ∀ s v, s.lp_cluster = false →
      Quiet (emit s (Event.tegra_update_cpu_speed v)) (upd s v).2)
    (hw : Hw) (s : State) (hlp : s.lp_cluster = true) :
    ∃ rest, (leave_lp_mode upd hw s).trace =
        s.trace ++ Event.clk_set_rate_cpu (475000 * 1000) ::
          Event.mpdecision_gmode_notifier :: rest ∧
      (notifier_enters hw = false → rest = []) ∧
      (notifier_enters hw = true →
        ∃ rest2, rest = Event.clk_set_parent false :: rest2 ∧
          (hw.clk_set_parent false ≠ 0 → rest2 = []) ∧
          (hw.clk_set_parent false = 0 → s.is_suspended = false →
            ∃ rest3, rest2 = Event.tegra_update_cpu_speed (capped_speed hw s) :: rest3)) := by
  have q0 := quiet_clk_set_rate_cpu hw s (475000 * 1000)
  have ht : (clk_set_rate_cpu hw s (475000 * 1000)).2.trace =
      s.trace ++ [Event.clk_set_rate_cpu (475000 * 1000)] := by
    unfold clk_set_rate_cpu
    simp only []
    split_ifs <;> rfl
  have hl : (clk_set_rate_cpu hw s (475000 * 1000)).2.lp_cluster = true := by
    unfold clk_set_rate_cpu
    simp only []
    split_ifs <;> exact hlp
  obtain ⟨rest, h1, h2, h3⟩ := gmode_calls upd hupd hw _ hl
  rw [((q0.hands 0).capped hw).1, q0.limits.2.2] at h3
  refine ⟨rest, ?_, h2, h3⟩
  unfold leave_lp_mode
  simp only []
  rw [h1, ht]
  simp

theorem lp_block_calls_eq (hw : Hw) (s : State) (rate : Nat)
    (hov : lp_override hw s rate = true) :
    (leave_lp_mode (tegra_update_cpu_speed_fuel 0 hw) hw
        (emit s (Event.tegra_update_cpu_speed rate))).trace =
      s.trace ++ Event.tegra_update_cpu_speed rate :: lp_block_calls hw s rate := by
  obtain ⟨h1, _⟩ := hands_trace (hands_leave_lp_mode _ (quiet_nested hw) hw
    (emit s (Event.tegra_update_cpu_speed rate))).1
  rw [h1]
  simp [lp_block_calls, hov, CpuTegra.emit]

theorem lp_block_calls_spec (hw : Hw) (s : State) (rate : Nat)
    (hov : lp_override hw s rate = true) :
    ∃ rest, lp_block_calls hw s rate =
        Event.clk_set_rate_cpu (475000 * 1000) :: Event.mpdecision_gmode_notifier :: rest ∧
      (notifier_enters hw = false → rest = []) ∧
      (notifier_enters hw = true →
        ∃ rest2, rest = Event.clk_set_parent false :: rest2 ∧
          (hw.clk_set_parent false ≠ 0 → rest2 = []) ∧
          (hw.clk_set_parent false = 0 → s.is_suspended = false →
            ∃ rest3, rest2 = Event.tegra_update_cpu_speed (capped_speed hw s) :: rest3)) := by
  have hlp : (emit s (Event.tegra_update_cpu_speed rate)).lp_cluster = true := by
    unfold lp_override at hov
    simp only [Bool.and_eq_true] at hov
    exact hov.2
  obtain ⟨rest, h1, h2, h3⟩ := leave_lp_mode_calls _ (quiet_nested hw) hw
    (emit s (Event.tegra_update_cpu_speed rate)) hlp
  refine ⟨rest, ?_, h2, h3⟩
  have h4 := lp_block_calls_eq hw s rate hov
  rw [h1] at h4
  simp only [CpuTegra.emit, List.append_assoc, List.singleton_append,
    List.append_cancel_left_eq, List.cons.injEq, true_and] at h4
  exact h4.symm

theorem vote_and_apply_fails (hw : Hw) (s : State) (o n : Nat) (hinc : o < n)
    (hfail : bus_vote_fails hw n) :
    (vote_and_apply hw s o n).1 = bus_vote_error hw n ∧
    (vote_and_apply hw s o n).2 =
      { s with trace := s.trace ++ failed_vote_calls hw n } := by
  unfold vote_and_apply bus_vote_error failed_vote_calls
  unfold bus_vote_fails at hfail
  simp only [hinc, if_true, emit]
  by_cases hm : hw.tegra_update_mselect_rate n ≠ 0
  · simp [hm]
  · have he : hw.clk_set_rate_emc (hw.tegra_emc_to_cpu_ratio n) ≠ 0 := by
      rcases hfail with h | h
      · exact absurd h hm
      · exact h
    simp [hm, he]

theorem bus_vote_error_ne_zero (hw : Hw) (n : Nat) (hfail : bus_vote_fails hw n) :
    bus_vote_error hw n ≠ 0 := by
  unfold bus_vote_error
  unfold bus_vote_fails at hfail
  split_ifs with h
  · exact h
  · rcases hfail with h' | h'
    · exact absurd h' h
    · exact h'

theorem update_cpu_speed_cases (hw : Hw) (s : State) (rate : Nat)
    (hne : tegra_getspeed s 0 ≠ rounded_speed hw s rate) :
    (lp_override hw s rate = false →
      lp_block_calls hw s rate = [] ∧
      tegra_update_cpu_speed hw s rate =
        vote_and_apply hw (emit s (Event.tegra_update_cpu_speed rate)) (tegra_getspeed s 0)
          (target_speed hw s rate)) ∧
    (lp_override hw s rate = true →
      tegra_update_cpu_speed hw s rate =
        vote_and_apply hw
          (leave_lp_mode (tegra_update_cpu_speed_fuel 0 hw) hw
            (emit s (Event.tegra_update_cpu_speed rate)))
          (tegra_getspeed s 0) (target_speed hw s rate)) := by
  have hg : tegra_getspeed (emit s (Event.tegra_update_cpu_speed rate)) 0 =
      tegra_getspeed s 0 := rfl
  have hr : rounded_speed hw (emit s (Event.tegra_update_cpu_speed rate)) rate =
      rounded_speed hw s rate := rfl
  constructor
  · intro hov
    have hts : target_speed hw s rate = rounded_speed hw s rate := by simp [target_speed, hov]
    have hl : lp_override hw (emit s (Event.tegra_update_cpu_speed rate)) rate = false := hov
    refine ⟨by simp [lp_block_calls, hov], ?_⟩
    rw [update_cpu_speed_eq]
    unfold update_cpu_speed_body
    simp only [hl, hg, hr, hne, if_false, hts, Bool.false_eq_true]
  · intro hov
    have hts : target_speed hw s rate = rate := by simp [target_speed, hov]
    have hl : lp_override hw (emit s (Event.tegra_update_cpu_speed rate)) rate = true := hov
    rw [update_cpu_speed_eq]
    unfold update_cpu_speed_body
    simp only [hl, hg, hr, hne, if_false, if_true, hts]

/-- C8, as the code has it.  In a call of `tegra_update_cpu_speed` that gets
past the equal-frequency check, in which the frequency is increasing and the
raise of the memory-bus vote fails, the call returns that error, which is not
0, and the calls it has issued are the calls of the low-power-cluster block,
if that block was entered, and then the bus votes, with no notification and
no CPU clock operation after that block.  When the block was not entered
nothing else is issued, and the CPU clock rate and parent are as on entry.
When it was entered the call has issued `clk_set_rate(cpu_clk, 475000 kHz)`
and called `mpdecision_gmode_notifier`; if the notifier obtains its locks it
has called `clk_set_parent`, and if that succeeded (and the system is not
suspended) it has run `tegra_cpu_set_speed_cap`, that is a nested call of
`tegra_update_cpu_speed` with the capped speed. -/
theorem failed_bus_vote_aborts (hw : Hw) (s : State) (rate : Nat)
    (hne : tegra_getspeed s 0 ≠ rounded_speed hw s rate)
    (hinc : tegra_getspeed s 0 < target_speed hw s rate)
    (hfail : bus_vote_fails hw (target_speed hw s rate)) :
    (tegra_update_cpu_speed hw s rate).1 = bus_vote_error hw (target_speed hw s rate) ∧
    (tegra_update_cpu_speed hw s rate).1 ≠ 0 ∧
    (tegra_update_cpu_speed hw s rate).2.trace =
      s.trace ++ Event.tegra_update_cpu_speed rate ::
        (lp_block_calls hw s rate ++ failed_vote_calls hw (target_speed hw s rate)) ∧
    (failed_vote_calls hw (target_speed hw s rate)).filter is_notification = [] ∧
    (failed_vote_calls hw (target_speed hw s rate)).filter is_cpu_clock_op = [] ∧
    (lp_override hw s rate = false →
      lp_block_calls hw s rate = [] ∧
      (tegra_update_cpu_speed hw s rate).2.cpu_rate = s.cpu_rate ∧
      (tegra_update_cpu_speed hw s rate).2.lp_cluster = s.lp_cluster) ∧
    (lp_override hw s rate = true →
      ∃ rest, lp_block_calls hw s rate =
          Event.clk_set_rate_cpu (475000 * 1000) :: Event.mpdecision_gmode_notifier :: rest ∧
        (notifier_enters hw = false → rest = []) ∧
        (notifier_enters hw = true →
          ∃ rest2, rest = Event.clk_set_parent false :: rest2 ∧
            (hw.clk_set_parent false ≠ 0 → rest2 = []) ∧
            (hw.clk_set_parent false = 0 → s.is_suspended = false →
              ∃ rest3, rest2 =
                Event.tegra_update_cpu_speed (capped_speed hw s) :: rest3))) := by
  have hnot : (failed_vote_calls hw (target_speed hw s rate)).filter is_notification = [] := by
    unfold failed_vote_calls
    split_ifs <;> rfl
  have hclk : (failed_vote_calls hw (target_speed hw s rate)).filter is_cpu_clock_op = [] := by
    unfold failed_vote_calls
    split_ifs <;> rfl
  obtain ⟨c0, c1⟩ := update_cpu_speed_cases hw s rate hne
  cases hov : lp_override hw s rate
  · obtain ⟨hlp, hu⟩ := c0 hov
    have hv := vote_and_apply_fails hw (emit s (Event.tegra_update_cpu_speed rate))
      (tegra_getspeed s 0) (target_speed hw s rate) hinc hfail
    rw [hu, hv.1, hv.2, hlp]
    refine ⟨rfl, bus_vote_error_ne_zero hw _ hfail, ?_, hnot, hclk, ?_, ?_⟩
    · simp [CpuTegra.emit]
    · intro _
      exact ⟨rfl, rfl, rfl⟩
    · intro h
      exact absurd h (by simp)
  · have hu := c1 hov
    have hv := vote_and_apply_fails hw
      (leave_lp_mode (tegra_update_cpu_speed_fuel 0 hw) hw
        (emit s (Event.tegra_update_cpu_speed rate)))
      (tegra_getspeed s 0) (target_speed hw s rate) hinc hfail
    rw [hu, hv.1, hv.2]
    refine ⟨rfl, bus_vote_error_ne_zero hw _ hfail, ?_, hnot, hclk, ?_, ?_⟩
    · show (leave_lp_mode (tegra_update_cpu_speed_fuel 0 hw) hw
        (emit s (Event.tegra_update_cpu_speed rate))).trace ++ _ = _
      rw [lp_block_calls_eq hw s rate hov]
      simp
    · intro h
      exact absurd h (by simp)
    · intro _
      exact lp_block_calls_spec hw s rate hov

/-- Witness of C8 as amended: on the main cluster at 475 MHz a request for
1000000 kHz is an increase, the mselect vote fails, and the call returns the
error `-EINVAL` with the CPU clock as it was and nothing issued but the
vote. -/
theorem failed_bus_vote_aborts_witness :
    tegra_getspeed sample_state 0 ≠ rounded_speed vote_fail_hw sample_state 1000000 ∧
    tegra_getspeed sample_state 0 < target_speed vote_fail_hw sample_state 1000000 ∧
    bus_vote_fails vote_fail_hw (target_speed vote_fail_hw sample_state 1000000) ∧
    (tegra_update_cpu_speed vote_fail_hw sample_state 1000000).1 = -22 ∧
    (tegra_update_cpu_speed vote_fail_hw sample_state 1000000).2.trace =
      [Event.tegra_update_cpu_speed 1000000, Event.tegra_update_mselect_rate 1000000] ∧
    (tegra_update_cpu_speed vote_fail_hw sample_state 1000000).2.cpu_rate =
      sample_state.cpu_rate :=
  have h1 : tegra_getspeed sample_state 0 ≠ rounded_speed vote_fail_hw sample_state 1000000 := by
    decide
  have h2 : tegra_getspeed sample_state 0 < target_speed vote_fail_hw sample_state 1000000 := by
    decide
  have h3 : bus_vote_fails vote_fail_hw (target_speed vote_fail_hw sample_state 1000000) :=
    Or.inl (by decide)
  ⟨h1, h2, h3, by decide, by decide,
    ((failed_bus_vote_aborts vote_fail_hw sample_state 1000000 h1 h2 h3).2.2.2.2.2.1
      (by decide)).2.1⟩

/-- Counterexample to C8 as stated: on the companion cluster at 204 MHz a
request for 1200000 kHz is an increase whose mselect vote fails; the call
returns the error, yet before the vote it has set the CPU clock to 475 MHz and
called the G-mode notifier, which has switched the clock parent and run a
complete nested frequency change to 1000000 kHz, the capped target, with bus
votes, transition notifications and `clk_set_rate`; on return the CPU clock
runs at 1 GHz on the main cluster. -/
theorem failed_bus_vote_after_lp_exit :
    tegra_getspeed lp_state 0 < target_speed lp_hw lp_state 1200000 ∧
    lp_hw.tegra_update_mselect_rate (target_speed lp_hw lp_state 1200000) ≠ 0 ∧
    (tegra_update_cpu_speed lp_hw lp_state 1200000).1 = -22 ∧
    (tegra_update_cpu_speed lp_hw lp_state 1200000).2.trace =
      [Event.tegra_update_cpu_speed 1200000, Event.clk_set_rate_cpu 475000000,
        Event.mpdecision_gmode_notifier, Event.clk_set_parent false,
        Event.tegra_update_cpu_speed 1000000, Event.tegra_update_mselect_rate 1000000,
        Event.clk_set_rate_emc 500000000,
        Event.cpufreq_notify_transition 0 475000 1000000 false,
        Event.cpufreq_notify_transition 1 475000 1000000 false,
        Event.clk_set_rate_cpu 1000000000,
        Event.cpufreq_notify_transition 0 475000 1000000 true,
        Event.cpufreq_notify_transition 1 475000 1000000 true,
        Event.tegra_auto_hotplug_governor 1000000 false,
        Event.cancel_delayed_work_sync, Event.queue_delayed_work 2000,
        Event.tegra_update_mselect_rate 1200000] ∧
    lp_state.cpu_rate = 204000000 ∧
    (tegra_update_cpu_speed lp_hw lp_state 1200000).2.cpu_rate = 1000000000 ∧
    lp_state.lp_cluster = true ∧
    (tegra_update_cpu_speed lp_hw lp_state 1200000).2.lp_cluster = false := by
  decide

/-- C22. EDP limit is rounded down onto the frequency table.  For an ascending
frequency table and `L = edp_predict_limit(cpumask_weight(&edp_cpumask))`: if
some table entry is at most `L`, `edp_update_limit` changes nothing but
`edp_limit`, which it sets to the largest table frequency that is at most `L`;
if every table entry is above `L` (or the table is empty) it stops at
`BUG_ON(i == 0)` and stores nothing. -/
theorem edp_limit_rounding (s : State) (L : Nat) (hsorted : s.freq_table.Pairwise (· ≤ ·))
    (hL : edp_predict_limit s (edp_cpumask_weight s) = some L) :
    ((∃ f ∈ s.freq_table, f ≤ L) →
      ∃ v, edp_update_limit s = some { s with edp_limit := v } ∧
        v ∈ s.freq_table ∧ v ≤ L ∧ ∀ f ∈ s.freq_table, f ≤ L → f ≤ v) ∧
    ((∀ f ∈ s.freq_table, L < f) → edp_update_limit s = none) := by
  obtain ⟨h1, h2, h3⟩ := freq_scan_spec L s.freq_table hsorted 0
  refine ⟨?_, ?_⟩
  · intro ⟨f, hf, hfl⟩
    have hpos : 0 < freq_scan L s.freq_table 0 := by
      rcases Nat.eq_zero_or_pos (freq_scan L s.freq_table 0) with h | h
      · exact absurd (h2 h f hf) (by omega)
      · exact h
    obtain ⟨m1, m2, m3⟩ := h3 hpos
    refine ⟨freq_at s (freq_scan L s.freq_table 0 - 1), ?_, ?_, ?_, ?_⟩
    · unfold edp_update_limit
      rw [hL]
      simp only []
      rw [if_neg (Nat.ne_of_gt hpos)]
    · simpa [freq_at] using m1
    · simpa [freq_at] using m2
    · simpa [freq_at] using m3
  · intro hall
    have hz : freq_scan L s.freq_table 0 = 0 := by
      rcases Nat.eq_zero_or_pos (freq_scan L s.freq_table 0) with h | h
      · exact h
      · obtain ⟨m1, m2, _⟩ := h3 h
        exact absurd (hall _ m1) (by omega)
    unfold edp_update_limit
    rw [hL]
    simp only []
    rw [if_pos hz]

/-- Witness of C22: with the alarm limit 1050000 kHz for two CPUs the stored
limit is 1000000 kHz; with a table that starts at 1400000 kHz the limit
1300000 kHz leads to the `BUG_ON`. -/
theorem edp_limit_rounding_witness :
    edp_predict_limit alarm_state (edp_cpumask_weight alarm_state) = some 1050000 ∧
    edp_update_limit alarm_state = some { alarm_state with edp_limit := 1000000 } ∧
    edp_update_limit high_table_state = none := by
  refine ⟨by decide, ?_, ?_⟩
  · obtain ⟨v, hv, hm, hle, hmax⟩ :=
      (edp_limit_rounding alarm_state 1050000 (by decide) (by decide)).1
        ⟨1000000, by decide, by decide⟩
    have h1 : (1000000 : Nat) ≤ v := hmax 1000000 (by decide) (by decide)
    have h2 : v = 1000000 := by
      have hm' : v ∈ [51000, 102000, 204000, 340000, 475000, 640000, 760000, 860000,
          1000000, 1100000, 1200000, 1300000] := hm
      simp only [List.mem_cons, List.mem_singleton, List.not_mem_nil, or_false] at hm'
      omega
    rw [hv, h2]
  · exact (edp_limit_rounding high_table_state 1300000 (by decide) (by decide)).2 (by decide)

theorem rows_none_below (l : List tegra_edp_limits) (t : Int)
    (h : ∀ r ∈ l, t < r.temperature) : rows_at_or_below l t = 0 := by
  unfold rows_at_or_below
  rw [List.length_eq_zero, List.filter_eq_nil_iff]
  intro r hr
  have := h r hr
  simp
  omega

theorem rows_cons (a : tegra_edp_limits) (l : List tegra_edp_limits) (t : Int) :
    rows_at_or_below (a :: l) t =
      (if a.temperature ≤ t then 1 else 0) + rows_at_or_below l t := by
  unfold rows_at_or_below
  by_cases h : a.temperature ≤ t
  · simp [List.filter_cons, h]
    omega
  · simp [List.filter_cons, h]

theorem rows_le_length (l : List tegra_edp_limits) (t : Int) :
    rows_at_or_below l t ≤ l.length :=
  List.length_filter_le _ _

theorem rows_mono (l : List tegra_edp_limits) (t1 t2 : Int) (h : t1 ≤ t2) :
    rows_at_or_below l t1 ≤ rows_at_or_below l t2 := by
  induction l with
  | nil => exact le_refl _
  | cons a rest ih =>
    rw [rows_cons, rows_cons]
    by_cases h1 : a.temperature ≤ t1
    · have h2 : a.temperature ≤ t2 := le_trans h1 h
      rw [if_pos h1, if_pos h2]
      omega
    · rw [if_neg h1]
      split_ifs <;> omega

theorem thermal_zone_scan_spec (t : Int) :
    ∀ (l : List tegra_edp_limits) (a : tegra_edp_limits) (i : Nat),
      (a :: l).Pairwise (fun x y => x.temperature ≤ y.temperature) → a.temperature ≤ t →
      (∀ j, thermal_zone_scan t (a :: l) i = some j →
        j = i + rows_at_or_below (a :: l) t ∧ rows_at_or_below (a :: l) t < (a :: l).length) ∧
      (thermal_zone_scan t (a :: l) i = none →
        rows_at_or_below (a :: l) t = (a :: l).length) := by
  intro l
  induction l with
  | nil =>
    intro a i _ ha
    refine ⟨fun j hj => ?_, fun _ => ?_⟩
    · simp [thermal_zone_scan] at hj
    · rw [rows_cons, if_pos ha]
      rfl
  | cons b rest ih =>
    intro a i hp ha
    rw [List.pairwise_cons] at hp
    obtain ⟨hab, hrest⟩ := hp
    by_cases hb : t < b.temperature
    · have hc : t ≥ a.temperature ∧ t < b.temperature := ⟨ha, hb⟩
      have hz : rows_at_or_below (b :: rest) t = 0 := by
        apply rows_none_below
        intro r hr
        rcases List.mem_cons.mp hr with rfl | hr
        · exact hb
        · exact lt_of_lt_of_le hb ((List.pairwise_cons.mp hrest).1 r hr)
      refine ⟨fun j hj => ?_, fun hn => ?_⟩
      · unfold thermal_zone_scan at hj
        rw [if_pos hc] at hj
        injection hj with hj
        rw [rows_cons, if_pos ha, hz]
        exact ⟨by omega, by simp⟩
      · unfold thermal_zone_scan at hn
        rw [if_pos hc] at hn
        cases hn
    · have hc : ¬ (t ≥ a.temperature ∧ t < b.temperature) := fun h => hb h.2
      have hb' : b.temperature ≤ t := not_lt.mp hb
      obtain ⟨i1, i2⟩ := ih b (i + 1) hrest hb'
      refine ⟨fun j hj => ?_, fun hn => ?_⟩
      · unfold thermal_zone_scan at hj
        rw [if_neg hc] at hj
        obtain ⟨e1, e2⟩ := i1 j hj
        rw [rows_cons a, if_pos ha]
        refine ⟨by omega, ?_⟩
        simp only [List.length_cons] at e2 ⊢
        omega
      · unfold thermal_zone_scan at hn
        rw [if_neg hc] at hn
        have := i2 hn
        rw [rows_cons a, if_pos ha, this]
        simp only [List.length_cons]
        omega

theorem thermal_zone_index_eq (row0 : tegra_edp_limits) (rest : List tegra_edp_limits)
    (t : Int)
    (hasc : (row0 :: rest).Pairwise (fun x y => x.temperature ≤ y.temperature)) :
    thermal_zone_index (row0 :: rest) row0 t =
      ((min (rows_at_or_below (row0 :: rest) t) ((row0 :: rest).length - 1) : Nat) : Int) := by
  unfold thermal_zone_index
  by_cases h0 : t < row0.temperature
  · rw [if_pos h0]
    have hz : rows_at_or_below (row0 :: rest) t = 0 := by
      apply rows_none_below
      intro r hr
      rcases List.mem_cons.mp hr with rfl | hr
      · exact h0
      · exact lt_of_lt_of_le h0 ((List.pairwise_cons.mp hasc).1 r hr)
    rw [hz]
    simp
  · rw [if_neg h0]
    obtain ⟨i1, i2⟩ := thermal_zone_scan_spec t rest row0 0 hasc (not_lt.mp h0)
    cases hs : thermal_zone_scan t (row0 :: rest) 0 with
    | none =>
      have := i2 hs
      simp only []
      rw [this]
      simp only [List.length_cons]
      have hmin : min (rest.length + 1) (rest.length + 1 - 1) = rest.length := by omega
      rw [hmin]
      push_cast
      omega
    | some j =>
      obtain ⟨e1, e2⟩ := i1 j hs
      simp only []
      have hmin : min (rows_at_or_below (row0 :: rest) t) ((row0 :: rest).length - 1) = j := by
        omega
      rw [hmin]

theorem thermal_zone_result (hw : Hw) (s : State) (row0 : tegra_edp_limits)
    (rest : List tegra_edp_limits) (t : Int) (htbl : s.cpu_edp_limits = some (row0 :: rest))
    (r : Int) (s' : State) (h : tegra_edp_update_thermal_zone hw s t = some (r, s')) :
    r = 0 ∧ s'.cpu_edp_limits = some (row0 :: rest) ∧
      s'.edp_thermal_index = thermal_zone_index (row0 :: rest) row0 t := by
  unfold tegra_edp_update_thermal_zone at h
  rw [htbl] at h
  simp only [] at h
  split_ifs at h with h1
  · split at h
    · exact absurd h (by simp)
    · rename_i s2 hs2
      injection h with h
      injection h with hr hs
      have e := edp_update_limit_eq hs2
      obtain ⟨f1, f2, _⟩ := set_speed_cap_edp hw s2 false
      subst hs
      refine ⟨hr.symm, ?_, ?_⟩
      · show (tegra_cpu_set_speed_cap hw s2 false).2.2.cpu_edp_limits = _
        rw [f2, e]
        rfl
      · show (tegra_cpu_set_speed_cap hw s2 false).2.2.edp_thermal_index = _
        rw [f1, e]
        rfl
  · injection h with h
    injection h with hr hs
    subst hs
    refine ⟨hr.symm, ?_, rfl⟩
    rfl

theorem thermal_zone_returns (hw : Hw) (s : State) (row0 : tegra_edp_limits)
    (rest : List tegra_edp_limits) (t : Int) (htbl : s.cpu_edp_limits = some (row0 :: rest)) :
    tegra_edp_update_thermal_zone hw s t = none ↔
      (s.target_cpu_speed 0 ≠ 0 ∧
        edp_update_limit
          (emit { s with edp_thermal_index := thermal_zone_index (row0 :: rest) row0 t }
            (Event.tegra_cpu_dvfs_alter (thermal_zone_index (row0 :: rest) row0 t) true)) =
          none) := by
  unfold tegra_edp_update_thermal_zone
  rw [htbl]
  simp only []
  split_ifs with h1
  · split
    · rename_i h2
      exact ⟨fun _ => ⟨h1, h2⟩, fun _ => rfl⟩
    · rename_i s2 h2
      exact ⟨fun h => absurd h (by simp), fun h => absurd (h2.symm.trans h.2) (by simp)⟩
  · exact ⟨fun h => absurd h (by simp), fun h => absurd h.1 h1⟩

/-- C27. Thermal zone index is always a valid row.  For a non-empty CPU EDP
table of `n` rows with ascending temperatures and a temperature `t`,
`tegra_edp_update_thermal_zone` sets `edp_thermal_index` to `min(k, n-1)`, where
`k` is the number of rows whose temperature is at most `t`: the call returns,
unless a cpufreq target is set and `edp_update_limit` stops at a `BUG_ON` for
the state with that index, and when it returns it has returned 0 and left the
table as it is and the index at that value.  The index lies in `[0, n)`, so the
range check of `edp_predict_limit` passes, and it is monotone in `t`.  When the
table is absent the call returns `-EINVAL` and changes nothing. -/
theorem thermal_index_valid (hw : Hw) (s : State) (t : Int) :
    (∀ tbl, s.cpu_edp_limits = some tbl → tbl ≠ [] →
      tbl.Pairwise (fun x y => x.temperature ≤ y.temperature) →
      (tegra_edp_update_thermal_zone hw s t = none ↔
        (s.target_cpu_speed 0 ≠ 0 ∧
          edp_update_limit
            (emit { s with edp_thermal_index :=
                ((min (rows_at_or_below tbl t) (tbl.length - 1) : Nat) : Int) }
              (Event.tegra_cpu_dvfs_alter
                ((min (rows_at_or_below tbl t) (tbl.length - 1) : Nat) : Int) true)) =
            none)) ∧
      (∀ r s', tegra_edp_update_thermal_zone hw s t = some (r, s') →
        r = 0 ∧ s'.cpu_edp_limits = some tbl ∧
        s'.edp_thermal_index = ((min (rows_at_or_below tbl t) (tbl.length - 1) : Nat) : Int) ∧
        0 ≤ s'.edp_thermal_index ∧ s'.edp_thermal_index < (tbl.length : Int)) ∧
      (∀ t2 r s' r2 s2, t ≤ t2 → tegra_edp_update_thermal_zone hw s t = some (r, s') →
        tegra_edp_update_thermal_zone hw s t2 = some (r2, s2) →
        s'.edp_thermal_index ≤ s2.edp_thermal_index)) ∧
    (s.cpu_edp_limits = none → tegra_edp_update_thermal_zone hw s t = some (-EINVAL, s)) := by
  refine ⟨fun tbl htbl hne hasc => ?_, fun hnone => ?_⟩
  · cases tbl with
    | nil => exact absurd rfl hne
    | cons row0 rest =>
      have key : ∀ u r s', tegra_edp_update_thermal_zone hw s u = some (r, s') →
          r = 0 ∧ s'.cpu_edp_limits = some (row0 :: rest) ∧
          s'.edp_thermal_index =
            ((min (rows_at_or_below (row0 :: rest) u) ((row0 :: rest).length - 1) : Nat) :
              Int) := by
        intro u r s' h
        obtain ⟨a, b, c⟩ := thermal_zone_result hw s row0 rest u htbl r s' h
        exact ⟨a, b, c.trans (thermal_zone_index_eq row0 rest u hasc)⟩
      refine ⟨?_, fun r s' h => ?_, fun t2 r s' r2 s2 hle h1 h2 => ?_⟩
      · rw [← thermal_zone_index_eq row0 rest t hasc]
        exact thermal_zone_returns hw s row0 rest t htbl
      · obtain ⟨a, b, c⟩ := key t r s' h
        refine ⟨a, b, c, ?_, ?_⟩
        · rw [c]
          exact Int.natCast_nonneg _
        · rw [c]
          have : min (rows_at_or_below (row0 :: rest) t) ((row0 :: rest).length - 1) <
              (row0 :: rest).length := by
            simp only [List.length_cons]
            omega
          exact_mod_cast this
      · rw [(key t r s' h1).2.2, (key t2 r2 s2 h2).2.2]
        have := rows_mono (row0 :: rest) t t2 hle
        have h3 : min (rows_at_or_below (row0 :: rest) t) ((row0 :: rest).length - 1) ≤
            min (rows_at_or_below (row0 :: rest) t2) ((row0 :: rest).length - 1) := by
          omega
        exact_mod_cast h3
  · unfold tegra_edp_update_thermal_zone
    rw [hnone]

/-- The thermal zone of the sample table at 80 degrees: two rows are at or
below, the call returns 0 and the index is 2; without a table it returns
`-EINVAL`. -/
theorem thermal_index_at_80 :
    rows_at_or_below [{ temperature := 60, freq_limits := [] },
      { temperature := 75, freq_limits := [] }, { temperature := 90, freq_limits := [] }] 80 = 2 ∧
    (tegra_edp_update_thermal_zone sample_hw sample_state 80).map
      (fun r => (r.1, r.2.edp_thermal_index)) = some (0, 2) ∧
    (tegra_edp_update_thermal_zone sample_hw alarm_only_state 80).map
      (fun r => r.1) = some (-22) := by
  decide

theorem decide_gt_eq_not (x y : Nat) : decide (y > x) = !decide (x ≥ y) := by
  by_cases h : x ≥ y
  · simp [h, not_lt.mpr h]
  · simp [h, not_le.mp h]

theorem favor_down_succ (s : State) (n : Nat) (o : Int) (h1 : 1 ≤ n)
    (h2 : n < FREQ_LIMITS_SIZE) :
    tegra_cpu_edp_favor_down s (n + 1) o =
      (tegra_cpu_edp_favor_up s n o).map (fun b => !b) := by
  have a1 : ¬ n + 1 ≤ 1 := by omega
  have a2 : ¬ n + 1 > FREQ_LIMITS_SIZE := by omega
  have a3 : ¬ n = 0 := by omega
  have a4 : ¬ n ≥ FREQ_LIMITS_SIZE := by omega
  unfold tegra_cpu_edp_favor_down tegra_cpu_edp_favor_up
  rw [if_neg a1, if_neg a2, if_neg a3, if_neg a4, Nat.add_sub_cancel]
  cases edp_predict_limit s n <;> cases edp_predict_limit s (n + 1) <;>
    simp only [Option.map, decide_gt_eq_not]

/-- C28. The EDP up and down recommendations are exact complements.  For
`1 <= n < ARRAY_SIZE(freq_limits)`, `tegra_cpu_edp_favor_down(n + 1, overhead)`
is the negation of `tegra_cpu_edp_favor_up(n, overhead)`, with the products
taken in 32-bit unsigned arithmetic, and one stops at a `BUG_ON` exactly when
the other does.  At the edges `favor_up(0)` is true, `favor_up(n)` is false for
`n` at or above the width, `favor_down(n)` is false for `n <= 1` and true for
`n` above the width. -/
theorem edp_favor_complement (s : State) (n : Nat) (o : Int) :
    (1 ≤ n → n < FREQ_LIMITS_SIZE →
      tegra_cpu_edp_favor_down s (n + 1) o =
        (tegra_cpu_edp_favor_up s n o).map (fun b => !b) ∧
      (tegra_cpu_edp_favor_up s n o = some true ↔
        tegra_cpu_edp_favor_down s (n + 1) o = some false) ∧
      (tegra_cpu_edp_favor_up s n o = some false ↔
        tegra_cpu_edp_favor_down s (n + 1) o = some true) ∧
      (tegra_cpu_edp_favor_up s n o = none ↔ tegra_cpu_edp_favor_down s (n + 1) o = none)) ∧
    tegra_cpu_edp_favor_up s 0 o = some true ∧
    (n ≥ FREQ_LIMITS_SIZE → tegra_cpu_edp_favor_up s n o = some false) ∧
    (n ≤ 1 → tegra_cpu_edp_favor_down s n o = some false) ∧
    (n > FREQ_LIMITS_SIZE → tegra_cpu_edp_favor_down s n o = some true) := by
  refine ⟨fun h1 h2 => ?_, rfl, fun h => ?_, fun h => ?_, fun h => ?_⟩
  · have e := favor_down_succ s n o h1 h2
    refine ⟨e, ?_, ?_, ?_⟩ <;> rw [e] <;>
      cases tegra_cpu_edp_favor_up s n o with
      | none => simp
      | some b => cases b <;> simp
  · have h4 : n ≥ 4 := h
    unfold tegra_cpu_edp_favor_up
    rw [if_neg (by omega), if_pos h]
  · unfold tegra_cpu_edp_favor_down
    rw [if_pos h]
  · have h4 : n > 4 := h
    unfold tegra_cpu_edp_favor_down
    rw [if_neg (by omega), if_pos h]

/-- The two recommendations on the sample state with an overhead of 10
percent, and with the overhead -200, for which `100 + mp_overhead` wraps as an
`unsigned int`. -/
theorem edp_favor_on_sample :
    tegra_cpu_edp_favor_up sample_state 2 10 = some true ∧
    tegra_cpu_edp_favor_down sample_state 3 10 = some false ∧
    overhead_factor (-200) = 4294967196 ∧
    tegra_cpu_edp_favor_up sample_state 2 (-200) = some false ∧
    tegra_cpu_edp_favor_down sample_state 3 (-200) = some true := by
  decide

theorem update_update_false (m : Nat → Bool) (cpu : Nat) (h : m cpu = false) :
    Function.update (Function.update m cpu true) cpu false = m := by
  rw [Function.update_idem, ← h, Function.update_eq_self]

theorem up_prepare_cases (hw : Hw) (s : State) (cpu : Nat) (r : Int) (s' : State)
    (h : tegra_cpu_edp_notify hw s hotplug_event.CPU_UP_PREPARE cpu = some (r, s')) :
    ∃ s2, edp_update_limit (edp_cpu_set s cpu) = some s2 ∧
      ((¬ edp_governor_speed s2 (tegra_getspeed s2 0) < tegra_getspeed s2 0 ∧
          r = 0 ∧ s' = s2) ∨
       (edp_governor_speed s2 (tegra_getspeed s2 0) < tegra_getspeed s2 0 ∧
          (tegra_cpu_set_speed_cap hw s2 false).1 = 0 ∧ r = 0 ∧
          s' = (tegra_cpu_set_speed_cap hw s2 false).2.2) ∨
       (edp_governor_speed s2 (tegra_getspeed s2 0) < tegra_getspeed s2 0 ∧
          (tegra_cpu_set_speed_cap hw s2 false).1 ≠ 0 ∧
          r = (tegra_cpu_set_speed_cap hw s2 false).1 ∧
          edp_update_limit (edp_cpu_clear (tegra_cpu_set_speed_cap hw s2 false).2.2 cpu) =
            some s')) := by
  unfold tegra_cpu_edp_notify at h
  simp only [] at h
  cases h2 : edp_update_limit (edp_cpu_set s cpu) with
  | none =>
    rw [h2] at h
    cases h
  | some s2 =>
    rw [h2] at h
    simp only [] at h
    refine ⟨s2, rfl, ?_⟩
    by_cases hlow : edp_governor_speed s2 (tegra_getspeed s2 0) < tegra_getspeed s2 0
    · rw [if_pos hlow] at h
      by_cases hret : (tegra_cpu_set_speed_cap hw s2 false).1 ≠ 0
      · rw [if_pos hret] at h
        right; right
        cases h4 : edp_update_limit
            (edp_cpu_clear (tegra_cpu_set_speed_cap hw s2 false).2.2 cpu) with
        | none =>
          rw [h4] at h
          cases h
        | some s4 =>
          rw [h4] at h
          injection h with h
          injection h with hr hs
          subst hs
          exact ⟨hlow, hret, hr.symm, rfl⟩
      · rw [if_neg hret] at h
        injection h with h
        injection h with hr hs
        right; left
        exact ⟨hlow, not_not.mp hret, hr.symm, hs.symm⟩
    · rw [if_neg hlow] at h
      injection h with h
      injection h with hr hs
      left
      exact ⟨hlow, hr.symm, hs.symm⟩

theorem edp_update_limit_edp {s s' : State} (h : edp_update_limit s = some s') :
    s'.edp_thermal_index = s.edp_thermal_index ∧ s'.cpu_edp_limits = s.cpu_edp_limits ∧
      s'.system_edp_limits = s.system_edp_limits ∧ s'.system_edp_alarm = s.system_edp_alarm ∧
      s'.edp_cpumask = s.edp_cpumask ∧ s'.freq_table = s.freq_table := by
  rw [edp_update_limit_eq h]
  exact ⟨rfl, rfl, rfl, rfl, rfl, rfl⟩

theorem edp_update_limit_of_map (s : State) (v : Nat)
    (h : (edp_update_limit s).map (fun x => x.edp_limit) = some v) :
    edp_update_limit s = some { s with edp_limit := v } := by
  cases ht : edp_update_limit s with
  | none =>
    rw [ht] at h
    cases h
  | some t =>
    rw [ht] at h
    have hv : t.edp_limit = v := by
      injection h
    rw [edp_update_limit_eq ht, ← hv]

/-- C29, as the code has it.  `CPU_UP_PREPARE` for a cpu that is not yet in
`edp_cpumask`, in a run of `tegra_cpu_edp_notify` that returns.  If the
frequency has to be lowered and `tegra_cpu_set_speed_cap` fails, the error is
the `ret` handed to `notifier_from_errno`, `edp_cpumask` is as before the
event, and `edp_limit` is what `edp_update_limit` computes for that mask: the
value before the event if that was up to date.  If no lowering is needed, or it
succeeds, `ret` is 0, the cpu is in `edp_cpumask` and `edp_limit` is what
`edp_update_limit` computes for the enlarged mask. -/
theorem up_prepare_atomic (hw : Hw) (s : State) (cpu : Nat) (r : Int) (s' : State)
    (hnot : s.edp_cpumask cpu = false)
    (h : tegra_cpu_edp_notify hw s hotplug_event.CPU_UP_PREPARE cpu = some (r, s')) :
    (r ≠ 0 →
      s'.edp_cpumask = s.edp_cpumask ∧
      edp_update_limit s = some { s with edp_limit := s'.edp_limit } ∧
      (edp_update_limit s = some s → s'.edp_limit = s.edp_limit) ∧
      ∃ s2, edp_update_limit (edp_cpu_set s cpu) = some s2 ∧
        edp_governor_speed s2 (tegra_getspeed s2 0) < tegra_getspeed s2 0 ∧
        r = (tegra_cpu_set_speed_cap hw s2 false).1) ∧
    (r = 0 →
      s'.edp_cpumask = Function.update s.edp_cpumask cpu true ∧
      s'.edp_cpumask cpu = true ∧
      edp_update_limit (edp_cpu_set s cpu) =
        some { edp_cpu_set s cpu with edp_limit := s'.edp_limit }) := by
  obtain ⟨s2, h2, hc⟩ := up_prepare_cases hw s cpu r s' h
  obtain ⟨g1, g2, g3, g4, g5, g6⟩ := edp_update_limit_edp h2
  obtain ⟨f1, f2, f3, f4, f5, f6, f7⟩ := set_speed_cap_edp hw s2 false
  have g5' : s2.edp_cpumask = Function.update s.edp_cpumask cpu true := g5
  have hok : ∀ x : State, x.edp_cpumask = s2.edp_cpumask → x.edp_limit = s2.edp_limit →
      x.edp_cpumask = Function.update s.edp_cpumask cpu true ∧ x.edp_cpumask cpu = true ∧
      edp_update_limit (edp_cpu_set s cpu) =
        some { edp_cpu_set s cpu with edp_limit := x.edp_limit } := by
    intro x hx1 hx2
    have hm : x.edp_cpumask = Function.update s.edp_cpumask cpu true := hx1.trans g5'
    refine ⟨hm, by rw [hm]; simp, ?_⟩
    rw [hx2, h2]
    exact congrArg some (edp_update_limit_eq h2)
  refine ⟨fun hr => ?_, fun hr => ?_⟩
  · rcases hc with ⟨_, hr0, _⟩ | ⟨_, _, hr0, _⟩ | ⟨hlow, hret, hre, h4⟩
    · exact absurd hr0 hr
    · exact absurd hr0 hr
    · obtain ⟨k1, k2, k3, k4, k5, k6⟩ := edp_update_limit_edp h4
      have hclear : (edp_cpu_clear (tegra_cpu_set_speed_cap hw s2 false).2.2 cpu).edp_cpumask =
          s.edp_cpumask := by
        show Function.update (tegra_cpu_set_speed_cap hw s2 false).2.2.edp_cpumask cpu false = _
        rw [f5, g5']
        exact update_update_false s.edp_cpumask cpu hnot
      have hmask : s'.edp_cpumask = s.edp_cpumask := k5.trans hclear
      have hcongr := edp_update_limit_congr
        (edp_cpu_clear (tegra_cpu_set_speed_cap hw s2 false).2.2 cpu) s
        (f2.trans g2) (f1.trans g1) (f3.trans g3) (f4.trans g4) hclear (f7.trans g6)
      have hmap : (edp_update_limit s).map (fun x => x.edp_limit) = some s'.edp_limit := by
        rw [← hcongr, h4]
        rfl
      have hupd := edp_update_limit_of_map s _ hmap
      refine ⟨hmask, hupd, fun hs => ?_, s2, h2, hlow, hre⟩
      rw [hs] at hupd
      injection hupd with hupd
      exact (congrArg State.edp_limit hupd).symm
  · rcases hc with ⟨_, _, hs⟩ | ⟨_, _, _, hs⟩ | ⟨_, hret, hre, _⟩
    · rw [hs]
      exact hok s2 rfl rfl
    · rw [hs]
      exact hok _ f5 f6
    · exact absurd (hre.symm.trans hr) hret

/-- Witness of C29 as amended: on the sample state with the clock at 1.3 GHz
and an up-to-date limit, a lowering that fails returns the error and leaves
the mask and the limit as they were. -/
theorem up_prepare_atomic_witness :
    fast_state.edp_cpumask 2 = false ∧
    tegra_cpu_edp_notify rate_fail_hw fast_state hotplug_event.CPU_UP_PREPARE 2 =
      some (failed_prepare.1, failed_prepare.2) ∧
    failed_prepare.1 = -22 ∧
    failed_prepare.2.edp_cpumask = fast_state.edp_cpumask ∧
    (edp_update_limit fast_state = some fast_state →
      failed_prepare.2.edp_limit = fast_state.edp_limit) ∧
    failed_prepare.2.edp_limit = 1300000 :=
  ⟨by decide, rfl, by decide,
    ((up_prepare_atomic rate_fail_hw fast_state 2 failed_prepare.1 failed_prepare.2
      (by decide) rfl).1 (by decide)).1,
    ((up_prepare_atomic rate_fail_hw fast_state 2 failed_prepare.1 failed_prepare.2
      (by decide) rfl).1 (by decide)).2.2.1,
    by decide⟩

/-- Counterexample to C29 as stated: the thermal sensor reports 95 degrees
before cpufreq has set a target, which moves the thermal zone and leaves
`edp_limit` at 1300000 kHz; a `CPU_UP_PREPARE` for cpu 2 whose lowering fails
then returns the error with the mask as before, but with `edp_limit` at
1000000 kHz, not at its value before the event. -/
theorem up_prepare_leaves_new_limit :
    heated_state.edp_cpumask 2 = false ∧ heated_state.edp_limit = 1300000 ∧
    (tegra_cpu_edp_notify rate_fail_hw heated_state hotplug_event.CPU_UP_PREPARE 2).map
      (fun x => (x.1, x.2.edp_limit, (List.range 4).map x.2.edp_cpumask)) =
        some (-22, 1000000, [true, true, false, false]) := by
  decide

theorem apply_cpu_rate_trace (hw : Hw) (s : State) (o n : Nat) :
    (apply_cpu_rate hw s o n).2.trace =
      s.trace ++ (notifications s o n false ++ Event.clk_set_rate_cpu ((n * 1000) % U32) ::
        (if hw.clk_set_rate_cpu ((n * 1000) % U32) ≠ 0 then []
         else notifications s o n true ++
          (if o > n then [Event.clk_set_rate_emc (hw.tegra_emc_to_cpu_ratio n),
            Event.tegra_update_mselect_rate n] else []))) := by
  unfold apply_cpu_rate clk_set_rate_cpu notify_transition notifications
  simp only [emit]
  by_cases hc : hw.clk_set_rate_cpu ((n * 1000) % U32) = 0
  · by_cases hd : o > n
    · simp [hc, hd, online_cpus]
    · simp [hc, hd, online_cpus]
  · simp [hc]

theorem vote_and_apply_trace (hw : Hw) (s : State) (o n : Nat) :
    (vote_and_apply hw s o n).2.trace =
      s.trace ++
        (if o < n then
          Event.tegra_update_mselect_rate n ::
            (if hw.tegra_update_mselect_rate n ≠ 0 then []
             else Event.clk_set_rate_emc (hw.tegra_emc_to_cpu_ratio n) ::
              (if hw.clk_set_rate_emc (hw.tegra_emc_to_cpu_ratio n) ≠ 0 then []
               else notifications s o n false ++
                Event.clk_set_rate_cpu ((n * 1000) % U32) ::
                  (if hw.clk_set_rate_cpu ((n * 1000) % U32) ≠ 0 then []
                   else notifications s o n true)))
         else
          notifications s o n false ++ Event.clk_set_rate_cpu ((n * 1000) % U32) ::
            (if hw.clk_set_rate_cpu ((n * 1000) % U32) ≠ 0 then []
             else notifications s o n true ++
              (if o > n then [Event.clk_set_rate_emc (hw.tegra_emc_to_cpu_ratio n),
                Event.tegra_update_mselect_rate n] else []))) := by
  unfold vote_and_apply
  simp only []
  by_cases hinc : o < n
  · have hd : ¬ o > n := by omega
    rw [if_pos hinc, if_pos hinc]
    by_cases hm : hw.tegra_update_mselect_rate n ≠ 0
    · rw [if_pos hm, if_pos hm]
      rfl
    · rw [if_neg hm, if_neg hm]
      by_cases he : hw.clk_set_rate_emc (hw.tegra_emc_to_cpu_ratio n) ≠ 0
      · rw [if_pos he, if_pos he]
        simp [emit]
      · rw [if_neg he, if_neg he, apply_cpu_rate_trace, if_neg hd]
        simp [emit, notifications, online_cpus]
  · rw [if_neg hinc, if_neg hinc, apply_cpu_rate_trace]

theorem notifications_leave_lp_mode (hw : Hw) (s : State) (o n : Nat) (p : Bool) :
    notifications (leave_lp_mode (tegra_update_cpu_speed_fuel 0 hw) hw s) o n p =
      notifications s o n p := by
  have h := ((hands_leave_lp_mode _ (quiet_nested hw) hw s).1.capped hw).2
  unfold notifications
  rw [h]

/-- C24, as the code has it.  When the rounded new frequency equals the
current one, `tegra_update_cpu_speed` returns 0 and issues no call.  Otherwise
the calls it issues are, in this order: the calls of the low-power-cluster
block, if that block was entered; then, when the frequency is increasing, the
mselect vote and the EMC vote, each only if the call before it succeeded, and
only after both the pre-change notifications, `clk_set_rate` on the CPU clock
for the new frequency and, if that succeeded, the post-change notifications;
when the frequency is not increasing, the pre-change notifications,
`clk_set_rate` on the CPU clock and, only if that succeeded, the post-change
notifications followed, when the frequency is decreasing, by the EMC vote and
the mselect vote.  The low-power-cluster block is entered only on the
companion cluster, for a request of at least 880000 kHz above the rounded
frequency; it starts with `clk_set_rate(cpu_clk, 475000 kHz)` and the call of
`mpdecision_gmode_notifier`, which, if it obtains its locks, calls
`clk_set_parent` and, if that succeeds while the system is not suspended,
makes a nested call of `tegra_update_cpu_speed` with the capped speed.  So the
raise comes before every change of the CPU clock rate except those of the
low-power-cluster block. -/
theorem bus_vote_ordering (hw : Hw) (s : State) (rate : Nat) :
    (tegra_getspeed s 0 = rounded_speed hw s rate →
      tegra_update_cpu_speed hw s rate = (0, emit s (Event.tegra_update_cpu_speed rate))) ∧
    (lp_block_calls hw s rate = [] ∨
      (rounded_speed hw s rate < rate ∧ rate ≥ 880000 ∧ s.lp_cluster = true ∧
        ∃ rest, lp_block_calls hw s rate =
            Event.clk_set_rate_cpu (475000 * 1000) :: Event.mpdecision_gmode_notifier :: rest ∧
          (notifier_enters hw = false → rest = []) ∧
          (notifier_enters hw = true →
            ∃ rest2, rest = Event.clk_set_parent false :: rest2 ∧
              (hw.clk_set_parent false ≠ 0 → rest2 = []) ∧
              (hw.clk_set_parent false = 0 → s.is_suspended = false →
                ∃ rest3, rest2 =
                  Event.tegra_update_cpu_speed (capped_speed hw s) :: rest3)))) ∧
    (tegra_getspeed s 0 ≠ rounded_speed hw s rate →
      tegra_getspeed s 0 < target_speed hw s rate →
      (tegra_update_cpu_speed hw s rate).2.trace =
        s.trace ++ Event.tegra_update_cpu_speed rate :: (lp_block_calls hw s rate ++
          Event.tegra_update_mselect_rate (target_speed hw s rate) ::
            (if hw.tegra_update_mselect_rate (target_speed hw s rate) ≠ 0 then []
             else Event.clk_set_rate_emc (hw.tegra_emc_to_cpu_ratio (target_speed hw s rate)) ::
              (if hw.clk_set_rate_emc
                  (hw.tegra_emc_to_cpu_ratio (target_speed hw s rate)) ≠ 0 then []
               else notifications s (tegra_getspeed s 0) (target_speed hw s rate) false ++
                Event.clk_set_rate_cpu ((target_speed hw s rate * 1000) % U32) ::
                  (if hw.clk_set_rate_cpu ((target_speed hw s rate * 1000) % U32) ≠ 0 then []
                   else notifications s (tegra_getspeed s 0)
                    (target_speed hw s rate) true))))) ∧
    (tegra_getspeed s 0 ≠ rounded_speed hw s rate →
      ¬ tegra_getspeed s 0 < target_speed hw s rate →
      (tegra_update_cpu_speed hw s rate).2.trace =
        s.trace ++ Event.tegra_update_cpu_speed rate :: (lp_block_calls hw s rate ++
          (notifications s (tegra_getspeed s 0) (target_speed hw s rate) false ++
            Event.clk_set_rate_cpu ((target_speed hw s rate * 1000) % U32) ::
              (if hw.clk_set_rate_cpu ((target_speed hw s rate * 1000) % U32) ≠ 0 then []
               else notifications s (tegra_getspeed s 0) (target_speed hw s rate) true ++
                (if tegra_getspeed s 0 > target_speed hw s rate then
                  [Event.clk_set_rate_emc (hw.tegra_emc_to_cpu_ratio (target_speed hw s rate)),
                    Event.tegra_update_mselect_rate (target_speed hw s rate)]
                 else []))))) := by
  have hg : tegra_getspeed (emit s (Event.tegra_update_cpu_speed rate)) 0 =
      tegra_getspeed s 0 := rfl
  have hr : rounded_speed hw (emit s (Event.tegra_update_cpu_speed rate)) rate =
      rounded_speed hw s rate := rfl
  have hn : ∀ x o n p, notifications (emit s x) o n p = notifications s o n p :=
    fun _ _ _ _ => rfl
  have htr : ∀ (hne : tegra_getspeed s 0 ≠ rounded_speed hw s rate),
      (tegra_update_cpu_speed hw s rate).2.trace =
        s.trace ++ Event.tegra_update_cpu_speed rate :: (lp_block_calls hw s rate ++
          (if tegra_getspeed s 0 < target_speed hw s rate then
            Event.tegra_update_mselect_rate (target_speed hw s rate) ::
              (if hw.tegra_update_mselect_rate (target_speed hw s rate) ≠ 0 then []
               else Event.clk_set_rate_emc
                  (hw.tegra_emc_to_cpu_ratio (target_speed hw s rate)) ::
                (if hw.clk_set_rate_emc
                    (hw.tegra_emc_to_cpu_ratio (target_speed hw s rate)) ≠ 0 then []
                 else notifications s (tegra_getspeed s 0) (target_speed hw s rate) false ++
                  Event.clk_set_rate_cpu ((target_speed hw s rate * 1000) % U32) ::
                    (if hw.clk_set_rate_cpu ((target_speed hw s rate * 1000) % U32) ≠ 0
                     then []
                     else notifications s (tegra_getspeed s 0)
                      (target_speed hw s rate) true)))
           else
            notifications s (tegra_getspeed s 0) (target_speed hw s rate) false ++
              Event.clk_set_rate_cpu ((target_speed hw s rate * 1000) % U32) ::
                (if hw.clk_set_rate_cpu ((target_speed hw s rate * 1000) % U32) ≠ 0 then []
                 else notifications s (tegra_getspeed s 0) (target_speed hw s rate) true ++
                  (if tegra_getspeed s 0 > target_speed hw s rate then
                    [Event.clk_set_rate_emc
                        (hw.tegra_emc_to_cpu_ratio (target_speed hw s rate)),
                      Event.tegra_update_mselect_rate (target_speed hw s rate)]
                   else [])))) := by
    intro hne
    obtain ⟨c0, c1⟩ := update_cpu_speed_cases hw s rate hne
    cases hov : lp_override hw s rate
    · obtain ⟨hlp, hu⟩ := c0 hov
      rw [hu, vote_and_apply_trace, hlp, hn, hn]
      simp [emit]
    · have hu := c1 hov
      rw [hu, vote_and_apply_trace, notifications_leave_lp_mode,
        notifications_leave_lp_mode, hn, hn, lp_block_calls_eq hw s rate hov]
      simp
  refine ⟨fun heq => ?_, ?_, fun hne hinc => ?_, fun hne hinc => ?_⟩
  · rw [update_cpu_speed_eq]
    unfold update_cpu_speed_body
    simp only [hg, hr, heq, if_true]
  · cases hov : lp_override hw s rate
    · left
      simp [lp_block_calls, hov]
    · right
      have h := hov
      unfold lp_override at h
      simp only [Bool.and_eq_true, decide_eq_true_eq] at h
      exact ⟨h.1.1, h.1.2, h.2, lp_block_calls_spec hw s rate hov⟩
  · rw [htr hne, if_pos hinc]
  · rw [htr hne, if_neg hinc]

/-- Counterexample to C24 as stated: on the companion cluster at 204 MHz a
request for 1000000 kHz is an increase in which every call succeeds; before
the call raises the mselect and EMC votes it has set the CPU clock rate to
475 MHz, and the G-mode notifier has switched the clock parent and, in a
nested call, set the CPU clock rate to 1 GHz. -/
theorem cpu_rate_set_before_raise :
    tegra_getspeed lp_state 0 < target_speed lp_round_hw lp_state 1000000 ∧
    (tegra_update_cpu_speed lp_round_hw lp_state 1000000).1 = 0 ∧
    (tegra_update_cpu_speed lp_round_hw lp_state 1000000).2.trace =
      [Event.tegra_update_cpu_speed 1000000, Event.clk_set_rate_cpu 475000000,
        Event.mpdecision_gmode_notifier, Event.clk_set_parent false,
        Event.tegra_update_cpu_speed 1000000, Event.tegra_update_mselect_rate 1000000,
        Event.clk_set_rate_emc 500000000,
        Event.cpufreq_notify_transition 0 475000 1000000 false,
        Event.cpufreq_notify_transition 1 475000 1000000 false,
        Event.clk_set_rate_cpu 1000000000,
        Event.cpufreq_notify_transition 0 475000 1000000 true,
        Event.cpufreq_notify_transition 1 475000 1000000 true,
        Event.tegra_auto_hotplug_governor 1000000 false,
        Event.cancel_delayed_work_sync, Event.queue_delayed_work 2000,
        Event.tegra_update_mselect_rate 1000000, Event.clk_set_rate_emc 500000000,
        Event.cpufreq_notify_transition 0 204000 1000000 false,
        Event.cpufreq_notify_transition 1 204000 1000000 false,
        Event.clk_set_rate_cpu 1000000000,
        Event.cpufreq_notify_transition 0 204000 1000000 true,
        Event.cpufreq_notify_transition 1 204000 1000000 true] := by
  decide

end CpuTegra

/-! # Properties of `tegra_mpdecision.c` -/

namespace Mpdecision

theorem filter_update_of_not_mem (l : List Nat) (f : Nat → Bool) (c : Nat) (b : Bool)
    (h : c ∉ l) : l.filter (Function.update f c b) = l.filter f := by
  apply List.filter_congr
  intro x hx
  have : x ≠ c := fun e => h (e ▸ hx)
  simp [Function.update, this]

theorem filter_update_true_length (l : List Nat) (hnd : l.Nodup) (f : Nat → Bool) (c : Nat)
    (hc : c ∈ l) (hf : f c = false) :
    (l.filter (Function.update f c true)).length = (l.filter f).length + 1 := by
  induction l with
  | nil => exact absurd hc (by simp)
  | cons a l ih =>
    rw [List.nodup_cons] at hnd
    by_cases hac : a = c
    · subst hac
      rw [List.filter_cons, List.filter_cons]
      simp [hf, filter_update_of_not_mem l f a true hnd.1]
    · have hc' : c ∈ l := by
        rcases List.mem_cons.mp hc with h | h
        · exact absurd h.symm hac
        · exact h
      rw [List.filter_cons, List.filter_cons]
      simp only [Function.update, hac, dite_false, eq_rec_constant]
      have := ih hnd.2 hc'
      simp only [Function.update] at this
      split_ifs <;> simp [this]

theorem filter_update_false_length (l : List Nat) (hnd : l.Nodup) (f : Nat → Bool) (c : Nat)
    (hc : c ∈ l) (hf : f c = true) :
    (l.filter (Function.update f c false)).length + 1 = (l.filter f).length := by
  induction l with
  | nil => exact absurd hc (by simp)
  | cons a l ih =>
    rw [List.nodup_cons] at hnd
    by_cases hac : a = c
    · subst hac
      rw [List.filter_cons, List.filter_cons]
      simp [hf, filter_update_of_not_mem l f a false hnd.1]
    · have hc' : c ∈ l := by
        rcases List.mem_cons.mp hc with h | h
        · exact absurd h.symm hac
        · exact h
      rw [List.filter_cons, List.filter_cons]
      simp only [Function.update, hac, dite_false, eq_rec_constant]
      have := ih hnd.2 hc'
      simp only [Function.update] at this
      split_ifs <;> simp [this]

theorem mpdec_cpu_up_online (s : Mpdec) (i : Tick) (cpu : Nat) (hc : cpu < CONFIG_NR_CPUS) :
    num_online_cpus (mpdec_cpu_up s i cpu) = num_online_cpus s ∨
      num_online_cpus (mpdec_cpu_up s i cpu) = num_online_cpus s + 1 := by
  unfold mpdec_cpu_up
  split_ifs with h1 h2
  · right
    simp only [num_online_cpus, set_cpudata, emit]
    exact filter_update_true_length _ (List.nodup_range _) _ _ (List.mem_range.mpr hc)
      (by simpa using h1)
  · left
    rfl
  · left
    rfl

theorem mpdec_cpu_down_online (s : Mpdec) (i : Tick) (cpu : Nat) (hc : cpu < CONFIG_NR_CPUS) :
    num_online_cpus (mpdec_cpu_down s i cpu) = num_online_cpus s ∨
      num_online_cpus (mpdec_cpu_down s i cpu) + 1 = num_online_cpus s := by
  unfold mpdec_cpu_down
  split_ifs with h1 h2
  · right
    simp only [num_online_cpus, set_cpudata, emit]
    exact filter_update_false_length _ (List.nodup_range _) _ _ (List.mem_range.mpr hc) h1
  · left
    rfl
  · left
    rfl

theorem lp_handler_online (s : Mpdec) (i : Tick) (st nt : Bool) :
    (tegra_lp_cpu_handler s i st nt).2.cpu_online = s.cpu_online ∧
      (tegra_lp_cpu_handler s i st nt).2.tuners = s.tuners := by
  unfold tegra_lp_cpu_handler
  simp only []
  split_ifs <;> exact ⟨rfl, rfl⟩

theorem act_online (s : Mpdec) (i : Tick) :
    num_online_cpus (act s i) = num_online_cpus s ∨
      (s.state = TEGRA_MPDEC_UP ∧ num_online_cpus (act s i) = num_online_cpus s + 1) ∨
      (s.state = TEGRA_MPDEC_DOWN ∧ num_online_cpus (act s i) + 1 = num_online_cpus s) := by
  unfold act
  split
  · left; rfl
  · left; rfl
  · rename_i hst
    simp only []
    split_ifs with h1 h2 h3
    · rcases mpdec_cpu_down_online
          (emit { s with lpup_req := 0, lpdown_req := 0 }
            (Event.unboost_cpu (get_slowest_cpu { s with lpup_req := 0, lpdown_req := 0 } i)))
          i _ h1 with h | h
      · left; exact h
      · right; right; exact ⟨hst, h⟩
    · left; rfl
    · left; rfl
    · left; rfl
  · rename_i hst
    simp only []
    split_ifs with h1 h2 h3
    · rcases mpdec_cpu_up_online { s with lpup_req := 0, lpdown_req := 0 } i _ h1 with h | h
      · left; exact h
      · right; left; exact ⟨hst, h⟩
    · left; rfl
    · left; rfl
    · left; rfl
  · left
    simp only []
    split_ifs
    · simp only [num_online_cpus]
      rw [(lp_handler_online _ i false false).1]
    · rfl
    · rfl
  · left
    simp only []
    split_ifs
    · simp only [num_online_cpus]
      rw [(lp_handler_online _ i true false).1]
    · rfl
    · rfl

theorem requeue_frame (s : Mpdec) :
    (requeue s).cpu_online = s.cpu_online ∧ (requeue s).tuners = s.tuners ∧
      (requeue s).lpup_req = s.lpup_req ∧ (requeue s).lpdown_req = s.lpdown_req := by
  unfold requeue
  split <;> exact ⟨rfl, rfl, rfl, rfl⟩

theorem resync_frame (s : Mpdec) :
    (resync s).cpu_online = s.cpu_online ∧ (resync s).tuners = s.tuners ∧
      (resync s).lp_cluster = s.lp_cluster ∧ (resync s).lpup_req = s.lpup_req ∧
      (resync s).lpdown_req = s.lpdown_req ∧ (resync s).trace = s.trace ∧
      (resync s).idle_top_freq = s.idle_top_freq := by
  unfold resync
  split_ifs <;> exact ⟨rfl, rfl, rfl, rfl, rfl, rfl, rfl⟩

theorem mp_decision_frame (s : Mpdec) (i : Tick) :
    (mp_decision s i).2.cpu_online = s.cpu_online ∧ (mp_decision s i).2.tuners = s.tuners ∧
      (mp_decision s i).2.lp_cluster = s.lp_cluster ∧
      (mp_decision s i).2.lpup_req = s.lpup_req ∧
      (mp_decision s i).2.lpdown_req = s.lpdown_req ∧ (mp_decision s i).2.trace = s.trace ∧
      (mp_decision s i).2.idle_top_freq = s.idle_top_freq := by
  unfold mp_decision
  split_ifs <;> exact ⟨rfl, rfl, rfl, rfl, rfl, rfl, rfl⟩

theorem up_candidate_up (s : Mpdec) (i : Tick) (n : Nat)
    (h : up_candidate s i n = TEGRA_MPDEC_UP) : s.lp_cluster = false ∧ n < s.tuners.max_cpus := by
  by_cases hA : (!s.lp_cluster) = true ∧ n < s.tuners.max_cpus
  · exact ⟨by simpa using hA.1, hA.2⟩
  · unfold up_candidate at h
    simp only [hA, if_false] at h
    split_ifs at h

theorem up_candidate_ne_down (s : Mpdec) (i : Tick) (n : Nat) :
    up_candidate s i n ≠ TEGRA_MPDEC_DOWN := by
  unfold up_candidate
  simp only []
  split_ifs <;> simp

theorem down_candidate_ne_up (s : Mpdec) (i : Tick) (n : Nat) :
    down_candidate s i n ≠ TEGRA_MPDEC_UP := by
  unfold down_candidate
  simp only []
  split_ifs <;> simp

theorem down_candidate_down (s : Mpdec) (i : Tick) (n : Nat)
    (h : down_candidate s i n = TEGRA_MPDEC_DOWN) : n > 1 ∧ n > s.tuners.min_cpus := by
  by_cases hA : n > 1 ∧ n > s.tuners.min_cpus
  · exact hA
  · unfold down_candidate at h
    simp only [hA, if_false] at h
    split_ifs at h

theorem decide_state_fst (s : Mpdec) (i : Tick) (tt : Nat) :
    (decide_state s i tt).1 =
      if num_online_cpus s ≠ 0 then
        if num_online_cpus s < CONFIG_NR_CPUS ∧
            i.rq_depth ≥ s.NwNs_Threshold.getD ((num_online_cpus s - 1) * 2) 0 then
          if tt ≥ s.TwTs_Threshold.getD ((num_online_cpus s - 1) * 2) 0 then
            up_candidate s i (num_online_cpus s)
          else TEGRA_MPDEC_IDLE
        else if i.rq_depth ≤ s.NwNs_Threshold.getD ((num_online_cpus s - 1) * 2 + 1) 0 then
          if tt ≥ s.TwTs_Threshold.getD ((num_online_cpus s - 1) * 2 + 1) 0 then
            down_candidate s i (num_online_cpus s)
          else TEGRA_MPDEC_IDLE
        else TEGRA_MPDEC_IDLE
      else TEGRA_MPDEC_IDLE := by
  unfold decide_state
  simp only []
  by_cases h1 : num_online_cpus s ≠ 0
  · rw [if_pos h1, if_pos h1]
    by_cases h2 : num_online_cpus s < CONFIG_NR_CPUS ∧
        i.rq_depth ≥ s.NwNs_Threshold.getD ((num_online_cpus s - 1) * 2) 0
    · rw [if_pos h2, if_pos h2]
      by_cases h3 : tt ≥ s.TwTs_Threshold.getD ((num_online_cpus s - 1) * 2) 0
      · rw [if_pos h3, if_pos h3]
      · rw [if_neg h3, if_neg h3]
    · rw [if_neg h2, if_neg h2]
      by_cases h4 : i.rq_depth ≤ s.NwNs_Threshold.getD ((num_online_cpus s - 1) * 2 + 1) 0
      · rw [if_pos h4, if_pos h4]
        by_cases h5 : tt ≥ s.TwTs_Threshold.getD ((num_online_cpus s - 1) * 2 + 1) 0
        · rw [if_pos h5, if_pos h5]
        · rw [if_neg h5, if_neg h5]
      · rw [if_neg h4, if_neg h4]
  · rw [if_neg h1, if_neg h1]

theorem mp_decision_fst (s : Mpdec) (i : Tick) :
    (mp_decision s i).1 =
      if s.state = TEGRA_MPDEC_DISABLED then TEGRA_MPDEC_DISABLED
      else if i.now ≤ s.tuners.startdelay then TEGRA_MPDEC_IDLE
      else (decide_state s i
        (add64 s.total_time (if s.first_call then 0 else sub64 i.now s.last_time))).1 := by
  unfold mp_decision
  simp only []
  by_cases h1 : s.state = TEGRA_MPDEC_DISABLED
  · rw [if_pos h1, if_pos h1]
  · rw [if_neg h1, if_neg h1]
    by_cases h2 : i.now ≤ s.tuners.startdelay
    · rw [if_pos h2, if_pos h2]
    · rw [if_neg h2, if_neg h2]

theorem decide_state_up (s : Mpdec) (i : Tick) (tt : Nat)
    (h : (decide_state s i tt).1 = TEGRA_MPDEC_UP) :
    num_online_cpus s < s.tuners.max_cpus ∧ num_online_cpus s < CONFIG_NR_CPUS ∧
      s.lp_cluster = false := by
  rw [decide_state_fst] at h
  split_ifs at h with h1 h2 h3 h4 h5
  · exact ⟨(up_candidate_up s i _ h).2, h2.1, (up_candidate_up s i _ h).1⟩
  · exact absurd h (down_candidate_ne_up s i _)

theorem decide_state_down (s : Mpdec) (i : Tick) (tt : Nat)
    (h : (decide_state s i tt).1 = TEGRA_MPDEC_DOWN) :
    num_online_cpus s > 1 ∧ num_online_cpus s > s.tuners.min_cpus := by
  rw [decide_state_fst] at h
  split_ifs at h with h1 h2 h3 h4 h5
  · exact absurd h (up_candidate_ne_down s i _)
  · exact down_candidate_down s i _ h

theorem mp_decision_up (s : Mpdec) (i : Tick) (h : (mp_decision s i).1 = TEGRA_MPDEC_UP) :
    num_online_cpus s < s.tuners.max_cpus ∧ num_online_cpus s < CONFIG_NR_CPUS ∧
      s.lp_cluster = false := by
  rw [mp_decision_fst] at h
  split_ifs at h <;> exact decide_state_up s i _ h

theorem mp_decision_down (s : Mpdec) (i : Tick) (h : (mp_decision s i).1 = TEGRA_MPDEC_DOWN) :
    num_online_cpus s > max 1 s.tuners.min_cpus := by
  rw [mp_decision_fst] at h
  have key : ∀ tt, (decide_state s i tt).1 = TEGRA_MPDEC_DOWN →
      num_online_cpus s > max 1 s.tuners.min_cpus := fun tt h =>
    max_lt (decide_state_down s i tt h).1 (decide_state_down s i tt h).2
  split_ifs at h <;> exact key _ h

theorem decided_frame (s : Mpdec) (i : Tick) :
    (decided s i).state = (mp_decision (resync s) i).1 ∧
      (decided s i).cpu_online = s.cpu_online ∧ (decided s i).tuners = s.tuners ∧
      (decided s i).lp_cluster = s.lp_cluster ∧ (decided s i).lpup_req = s.lpup_req ∧
      (decided s i).lpdown_req = s.lpdown_req ∧ (decided s i).trace = s.trace ∧
      (decided s i).idle_top_freq = s.idle_top_freq := by
  obtain ⟨r1, r2, r3, r4, r5, r6, r7⟩ := resync_frame s
  obtain ⟨m1, m2, m3, m4, m5, m6, m7⟩ := mp_decision_frame (resync s) i
  exact ⟨rfl, m1.trans r1, m2.trans r2, m3.trans r3, m4.trans r4, m5.trans r5, m6.trans r6,
    m7.trans r7⟩

theorem work_thread_online (s : Mpdec) (i : Tick) :
    num_online_cpus (tegra_mpdec_work_thread s i) = num_online_cpus s ∨
      ((mp_decision (resync s) i).1 = TEGRA_MPDEC_UP ∧
        num_online_cpus (tegra_mpdec_work_thread s i) = num_online_cpus s + 1) ∨
      ((mp_decision (resync s) i).1 = TEGRA_MPDEC_DOWN ∧
        num_online_cpus (tegra_mpdec_work_thread s i) + 1 = num_online_cpus s) := by
  have hq : ∀ a : Mpdec, num_online_cpus (requeue a) = num_online_cpus a := by
    intro a
    simp only [num_online_cpus, (requeue_frame a).1]
  have h2 : num_online_cpus (decided s i) = num_online_cpus s := by
    simp only [num_online_cpus, (decided_frame s i).2.1]
  unfold tegra_mpdec_work_thread
  split_ifs
  · simp only [hq]
    rcases act_online (decided s i) i with h | h | h
    · left
      rw [h, h2]
    · right; left
      exact ⟨h.1, by rw [h.2, h2]⟩
    · right; right
      exact ⟨h.1, by rw [← h2, ← h.2]⟩
  · left
    exact hq s

/-- C9. Hotplug bounds.  `mp_decision` returns `TEGRA_MPDEC_UP` only when the
online count is below `max_cpus` and below `CONFIG_NR_CPUS`, and
`TEGRA_MPDEC_DOWN` only when it is above `max(1, min_cpus)`.  A run of the
work thread that raises the online count raises it by one, to at most
`max_cpus` and `CONFIG_NR_CPUS`; a run that lowers it lowers it by one, to at
least `max(1, min_cpus)`. -/
theorem hotplug_bounds (s : Mpdec) (i : Tick) :
    ((mp_decision s i).1 = TEGRA_MPDEC_UP →
      num_online_cpus s < s.tuners.max_cpus ∧ num_online_cpus s < CONFIG_NR_CPUS) ∧
    ((mp_decision s i).1 = TEGRA_MPDEC_DOWN →
      num_online_cpus s > max 1 s.tuners.min_cpus) ∧
    (num_online_cpus s < num_online_cpus (tegra_mpdec_work_thread s i) →
      num_online_cpus (tegra_mpdec_work_thread s i) = num_online_cpus s + 1 ∧
      num_online_cpus (tegra_mpdec_work_thread s i) ≤ s.tuners.max_cpus ∧
      num_online_cpus (tegra_mpdec_work_thread s i) ≤ CONFIG_NR_CPUS) ∧
    (num_online_cpus (tegra_mpdec_work_thread s i) < num_online_cpus s →
      num_online_cpus (tegra_mpdec_work_thread s i) + 1 = num_online_cpus s ∧
      max 1 s.tuners.min_cpus ≤ num_online_cpus (tegra_mpdec_work_thread s i)) := by
  have hn : num_online_cpus (resync s) = num_online_cpus s := by
    simp only [num_online_cpus, (resync_frame s).1]
  have ht : (resync s).tuners = s.tuners := (resync_frame s).2.1
  refine ⟨fun h => ⟨(mp_decision_up s i h).1, (mp_decision_up s i h).2.1⟩,
    mp_decision_down s i, ?_, ?_⟩
  · intro hlt
    rcases work_thread_online s i with h | h | h
    · omega
    · have hu := mp_decision_up (resync s) i h.1
      rw [hn, ht] at hu
      exact ⟨h.2, by omega, by omega⟩
    · omega
  · intro hlt
    rcases work_thread_online s i with h | h | h
    · omega
    · omega
    · have hd := mp_decision_down (resync s) i h.1
      rw [hn, ht] at hd
      exact ⟨h.2, by omega⟩

theorem lp_handler_trace (s : Mpdec) (i : Tick) (st nt : Bool) :
    ∃ evs, (tegra_lp_cpu_handler s i st nt).2.trace =
        s.trace ++ Event.tegra_lp_cpu_handler st nt :: evs ∧
      (tegra_lp_cpu_handler s i st nt).2.state = s.state := by
  unfold tegra_lp_cpu_handler
  simp only []
  split_ifs
  · exact ⟨[], rfl, rfl⟩
  · exact ⟨[], rfl, rfl⟩
  · exact ⟨[Event.clk_set_parent st, Event.tegra_cpu_set_speed_cap],
      by simp [emit, lp_switched_up, set_cpudata], rfl⟩
  · exact ⟨[Event.clk_set_parent st, Event.tegra_cpu_set_speed_cap],
      by simp [emit, lp_switched_down, set_cpudata], rfl⟩
  · exact ⟨[Event.clk_set_parent st], by simp [emit], rfl⟩

theorem lp_possible_congr (a b : Mpdec) (i : Tick) (h1 : a.cpu_online = b.cpu_online)
    (h2 : a.idle_top_freq = b.idle_top_freq) : lp_possible a i = lp_possible b i := by
  unfold lp_possible
  rw [h1, h2]

theorem act_up (s : Mpdec) (i : Tick) (hst : s.state = TEGRA_MPDEC_LPCPU_UP)
    (hlp : s.lp_cluster = false) (hpo : lp_possible s i = true) :
    act s i =
      if (count_up s).lpup_req > s.tuners.lp_cpu_up_hysteresis then switch_up (count_up s) i
      else count_up s := by
  rcases s with ⟨cd, lp, tu, itf, nw, tw, st, wp, pu, fc, tt, lt, ur, dr, co, lc, tr⟩
  simp only at hst hlp
  subst hst
  subst hlp
  have hc : (!false) = true ∧ lp_possible
      { tegra_mpdec_cpudata := cd, tegra_mpdec_lpcpudata := lp, tuners := tu,
        idle_top_freq := itf, NwNs_Threshold := nw, TwTs_Threshold := tw,
        state := TEGRA_MPDEC_LPCPU_UP, was_paused := wp, mpdec_paused_until := pu,
        first_call := fc, total_time := tt, last_time := lt, lpup_req := ur, lpdown_req := 0,
        cpu_online := co, lp_cluster := false, trace := tr } i = true := ⟨rfl, hpo⟩
  unfold act
  simp only []
  rw [if_pos hc]
  rfl

theorem act_down (s : Mpdec) (i : Tick) (hst : s.state = TEGRA_MPDEC_LPCPU_DOWN)
    (hlp : s.lp_cluster = true) :
    act s i =
      if (count_down s).lpdown_req > s.tuners.lp_cpu_down_hysteresis then
        switch_down (count_down s) i
      else count_down s := by
  rcases s with ⟨cd, lp, tu, itf, nw, tw, st, wp, pu, fc, tt, lt, ur, dr, co, lc, tr⟩
  simp only at hst hlp
  subst hst
  subst hlp
  unfold act
  simp only [if_true]
  rfl

theorem tick_calls_eq (s : Mpdec) (i : Tick) (evs : List Event)
    (h : (tegra_mpdec_work_thread s i).trace = s.trace ++ evs) : tick_calls s i = evs := by
  unfold tick_calls
  rw [h, List.drop_left]

theorem requeue_trace (s : Mpdec) (d : Nat)
    (h : s.state = TEGRA_MPDEC_LPCPU_UP ∧ d = TEGRA_MPDEC_LPCPU_UPDELAY ∨
      s.state = TEGRA_MPDEC_LPCPU_DOWN ∧ d = TEGRA_MPDEC_LPCPU_DOWNDELAY) :
    (requeue s).trace = s.trace ++ [Event.queue_delayed_work d] := by
  unfold requeue
  rcases h with ⟨h, rfl⟩ | ⟨h, rfl⟩ <;> simp only [h, emit]

theorem switch_frame (s : Mpdec) (i : Tick) :
    ∃ evs,
      (switch_up s i).trace = s.trace ++ Event.tegra_lp_cpu_handler true false :: evs ∧
      (switch_up s i).state = s.state ∧ (switch_up s i).tuners = s.tuners ∧
      (switch_up s i).lpup_req = 0 ∧
      ∃ evs',
        (switch_down s i).trace = s.trace ++ Event.tegra_lp_cpu_handler false false :: evs' ∧
        (switch_down s i).state = s.state ∧ (switch_down s i).tuners = s.tuners ∧
        (switch_down s i).lpdown_req = 0 := by
  obtain ⟨evs, he, hs⟩ := lp_handler_trace s i true false
  obtain ⟨evs', he', hs'⟩ := lp_handler_trace s i false false
  exact ⟨evs, he, hs, (lp_handler_online s i true false).2, rfl,
    evs', he', hs', (lp_handler_online s i false false).2, rfl⟩

theorem tick_up (s : Mpdec) (i : Tick) (hq : qualifies_up s i) :
    (tegra_mpdec_work_thread s i).tuners = s.tuners ∧
    ((s.lpup_req + 1) % U32 > s.tuners.lp_cpu_up_hysteresis →
      (∃ evs, tick_calls s i = Event.tegra_lp_cpu_handler true false :: evs) ∧
      (tegra_mpdec_work_thread s i).lpup_req = 0) ∧
    (¬ (s.lpup_req + 1) % U32 > s.tuners.lp_cpu_up_hysteresis →
      tick_calls s i = [Event.queue_delayed_work TEGRA_MPDEC_LPCPU_UPDELAY] ∧
      (tegra_mpdec_work_thread s i).lpup_req = (s.lpup_req + 1) % U32) := by
  obtain ⟨hd, hup, hlp, hpo⟩ := hq
  obtain ⟨d1, d2, d3, d4, d5, _, d7, d8⟩ := decided_frame s i
  have hpo2 : lp_possible (decided s i) i = true := by
    rw [← hpo]
    exact lp_possible_congr _ _ i d2 d8
  have hw : tegra_mpdec_work_thread s i = requeue (act (decided s i) i) := by
    unfold tegra_mpdec_work_thread
    rw [if_pos hd]
  have ha := act_up (decided s i) i (d1.trans hup) (d4.trans hlp) hpo2
  have c1 : (count_up (decided s i)).lpup_req = (s.lpup_req + 1) % U32 := by
    show ((decided s i).lpup_req + 1) % U32 = _
    rw [d5]
  have c2 : (count_up (decided s i)).state = TEGRA_MPDEC_LPCPU_UP := d1.trans hup
  have c3 : (count_up (decided s i)).trace = s.trace := d7
  have c4 : (count_up (decided s i)).tuners = s.tuners := d3
  rw [c1, d3] at ha
  obtain ⟨evs, e1, e2, e3, e4, _⟩ := switch_frame (count_up (decided s i)) i
  refine ⟨?_, ?_, ?_⟩
  · rw [hw, (requeue_frame _).2.1, ha]
    split_ifs
    · exact e3.trans c4
    · exact c4
  · intro hgt
    rw [if_pos hgt] at ha
    refine ⟨⟨evs ++ [Event.queue_delayed_work TEGRA_MPDEC_LPCPU_UPDELAY], ?_⟩, ?_⟩
    · apply tick_calls_eq
      rw [hw, ha, requeue_trace _ _ (Or.inl ⟨e2.trans c2, rfl⟩), e1, c3]
      simp
    · rw [hw, (requeue_frame _).2.2.1, ha, e4]
  · intro hle
    rw [if_neg hle] at ha
    refine ⟨?_, ?_⟩
    · apply tick_calls_eq
      rw [hw, ha, requeue_trace _ _ (Or.inl ⟨c2, rfl⟩), c3]
    · rw [hw, (requeue_frame _).2.2.1, ha, c1]

theorem tick_down (s : Mpdec) (i : Tick) (hq : qualifies_down s i) :
    (tegra_mpdec_work_thread s i).tuners = s.tuners ∧
    ((s.lpdown_req + 1) % U32 > s.tuners.lp_cpu_down_hysteresis →
      (∃ evs, tick_calls s i = Event.tegra_lp_cpu_handler false false :: evs) ∧
      (tegra_mpdec_work_thread s i).lpdown_req = 0) ∧
    (¬ (s.lpdown_req + 1) % U32 > s.tuners.lp_cpu_down_hysteresis →
      tick_calls s i = [Event.queue_delayed_work TEGRA_MPDEC_LPCPU_DOWNDELAY] ∧
      (tegra_mpdec_work_thread s i).lpdown_req = (s.lpdown_req + 1) % U32) := by
  obtain ⟨hd, hdn, hlp⟩ := hq
  obtain ⟨d1, d2, d3, d4, _, d6, d7, d8⟩ := decided_frame s i
  have hw : tegra_mpdec_work_thread s i = requeue (act (decided s i) i) := by
    unfold tegra_mpdec_work_thread
    rw [if_pos hd]
  have ha := act_down (decided s i) i (d1.trans hdn) (d4.trans hlp)
  have c1 : (count_down (decided s i)).lpdown_req = (s.lpdown_req + 1) % U32 := by
    show ((decided s i).lpdown_req + 1) % U32 = _
    rw [d6]
  have c2 : (count_down (decided s i)).state = TEGRA_MPDEC_LPCPU_DOWN := d1.trans hdn
  have c3 : (count_down (decided s i)).trace = s.trace := d7
  have c4 : (count_down (decided s i)).tuners = s.tuners := d3
  rw [c1, d3] at ha
  obtain ⟨_, _, _, _, _, evs, e1, e2, e3, e4⟩ := switch_frame (count_down (decided s i)) i
  refine ⟨?_, ?_, ?_⟩
  · rw [hw, (requeue_frame _).2.1, ha]
    split_ifs
    · exact e3.trans c4
    · exact c4
  · intro hgt
    rw [if_pos hgt] at ha
    refine ⟨⟨evs ++ [Event.queue_delayed_work TEGRA_MPDEC_LPCPU_DOWNDELAY], ?_⟩, ?_⟩
    · apply tick_calls_eq
      rw [hw, ha, requeue_trace _ _ (Or.inr ⟨e2.trans c2, rfl⟩), e1, c3]
      simp
    · rw [hw, (requeue_frame _).2.2.2, ha, e4]
  · intro hle
    rw [if_neg hle] at ha
    refine ⟨?_, ?_⟩
    · apply tick_calls_eq
      rw [hw, ha, requeue_trace _ _ (Or.inr ⟨c2, rfl⟩), c3]
    · rw [hw, (requeue_frame _).2.2.2, ha, c1]

theorem up_run_counts (h : Nat) (hh : h + 1 < U32) :
    ∀ (ticks : List Tick) (s : Mpdec) (c : Nat), s.lpup_req = c →
      s.tuners.lp_cpu_up_hysteresis = h → c + ticks.length = h + 1 → up_run s ticks →
      ∀ k (hk : k < ticks.length),
        (c + k < h →
          tick_calls (run_ticks s (ticks.take k)) ticks[k] =
            [Event.queue_delayed_work TEGRA_MPDEC_LPCPU_UPDELAY] ∧
          (run_ticks s (ticks.take (k + 1))).lpup_req = c + k + 1) ∧
        (c + k = h →
          (∃ evs, tick_calls (run_ticks s (ticks.take k)) ticks[k] =
            Event.tegra_lp_cpu_handler true false :: evs) ∧
          (run_ticks s (ticks.take (k + 1))).lpup_req = 0) := by
  intro ticks
  induction ticks with
  | nil => intro s c _ _ _ _ k hk; exact absurd hk (by simp)
  | cons i rest ih =>
    intro s c hc ht hlen hrun k hk
    obtain ⟨hq, hrest⟩ := hrun
    obtain ⟨t1, t2, t3⟩ := tick_up s i hq
    simp only [List.length_cons] at hlen hk
    have hmod : (s.lpup_req + 1) % U32 = c + 1 := by
      rw [hc]
      exact Nat.mod_eq_of_lt (by omega)
    rw [hmod, ht] at t2 t3
    cases k with
    | zero =>
      simp only [List.take_zero, run_ticks, List.getElem_cons_zero, List.take_succ_cons,
        Nat.add_zero]
      refine ⟨fun hlt => ?_, fun heq => ?_⟩
      · have := t3 (by omega)
        exact ⟨this.1, this.2⟩
      · exact t2 (by omega)
    | succ k =>
      have hk' : k < rest.length := by omega
      have hc' : (tegra_mpdec_work_thread s i).lpup_req = c + 1 := (t3 (by omega)).2
      have := ih (tegra_mpdec_work_thread s i) (c + 1) hc' (by rw [t1]; exact ht) (by omega) hrest k hk'
      simp only [List.take_succ_cons, run_ticks, List.getElem_cons_succ]
      refine ⟨fun hlt => ?_, fun heq => ?_⟩
      · have h1 := this.1 (by omega)
        exact ⟨h1.1, by rw [h1.2]; omega⟩
      · exact this.2 (by omega)

theorem down_run_counts (h : Nat) (hh : h + 1 < U32) :
    ∀ (ticks : List Tick) (s : Mpdec) (c : Nat), s.lpdown_req = c →
      s.tuners.lp_cpu_down_hysteresis = h → c + ticks.length = h + 1 → down_run s ticks →
      ∀ k (hk : k < ticks.length),
        (c + k < h →
          tick_calls (run_ticks s (ticks.take k)) ticks[k] =
            [Event.queue_delayed_work TEGRA_MPDEC_LPCPU_DOWNDELAY] ∧
          (run_ticks s (ticks.take (k + 1))).lpdown_req = c + k + 1) ∧
        (c + k = h →
          (∃ evs, tick_calls (run_ticks s (ticks.take k)) ticks[k] =
            Event.tegra_lp_cpu_handler false false :: evs) ∧
          (run_ticks s (ticks.take (k + 1))).lpdown_req = 0) := by
  intro ticks
  induction ticks with
  | nil => intro s c _ _ _ _ k hk; exact absurd hk (by simp)
  | cons i rest ih =>
    intro s c hc ht hlen hrun k hk
    obtain ⟨hq, hrest⟩ := hrun
    obtain ⟨t1, t2, t3⟩ := tick_down s i hq
    simp only [List.length_cons] at hlen hk
    have hmod : (s.lpdown_req + 1) % U32 = c + 1 := by
      rw [hc]
      exact Nat.mod_eq_of_lt (by omega)
    rw [hmod, ht] at t2 t3
    cases k with
    | zero =>
      simp only [List.take_zero, run_ticks, List.getElem_cons_zero, List.take_succ_cons,
        Nat.add_zero]
      refine ⟨fun hlt => ?_, fun heq => ?_⟩
      · have := t3 (by omega)
        exact ⟨this.1, this.2⟩
      · exact t2 (by omega)
    | succ k =>
      have hk' : k < rest.length := by omega
      have hc' : (tegra_mpdec_work_thread s i).lpdown_req = c + 1 := (t3 (by omega)).2
      have := ih (tegra_mpdec_work_thread s i) (c + 1) hc' (by rw [t1]; exact ht) (by omega) hrest k hk'
      simp only [List.take_succ_cons, run_ticks, List.getElem_cons_succ]
      refine ⟨fun hlt => ?_, fun heq => ?_⟩
      · have h1 := this.1 (by omega)
        exact ⟨h1.1, by rw [h1.2]; omega⟩
      · exact this.2 (by omega)

/-- C10, as the code has it.  For an up-hysteresis value `h` below `UINT_MAX`,
starting with `lpup_req = 0`, in a run of `h + 1` consecutive ticks that each
decide CompanionUp while the companion is inactive and `lp_possible` holds,
each of the first `h` ticks only re-arms the work and leaves the counter one
higher, and tick `h + 1` calls `tegra_lp_cpu_handler(true, false)`; so the
handler is called on tick `h + 1` and on no earlier tick.  The same holds for
CompanionDown with `lpdown_req`, the down-hysteresis value and
`tegra_lp_cpu_handler(false, false)`. -/
theorem companion_hysteresis (s : Mpdec) (ticks : List Tick) :
    (s.tuners.lp_cpu_up_hysteresis + 1 < U32 → s.lpup_req = 0 →
      ticks.length = s.tuners.lp_cpu_up_hysteresis + 1 → up_run s ticks →
      ∀ k (hk : k < ticks.length),
        (k < s.tuners.lp_cpu_up_hysteresis →
          tick_calls (run_ticks s (ticks.take k)) ticks[k] =
            [Event.queue_delayed_work TEGRA_MPDEC_LPCPU_UPDELAY] ∧
          (run_ticks s (ticks.take (k + 1))).lpup_req = k + 1) ∧
        (Event.tegra_lp_cpu_handler true false ∈
            tick_calls (run_ticks s (ticks.take k)) ticks[k] ↔
          k = s.tuners.lp_cpu_up_hysteresis)) ∧
    (s.tuners.lp_cpu_down_hysteresis + 1 < U32 → s.lpdown_req = 0 →
      ticks.length = s.tuners.lp_cpu_down_hysteresis + 1 → down_run s ticks →
      ∀ k (hk : k < ticks.length),
        (k < s.tuners.lp_cpu_down_hysteresis →
          tick_calls (run_ticks s (ticks.take k)) ticks[k] =
            [Event.queue_delayed_work TEGRA_MPDEC_LPCPU_DOWNDELAY] ∧
          (run_ticks s (ticks.take (k + 1))).lpdown_req = k + 1) ∧
        (Event.tegra_lp_cpu_handler false false ∈
            tick_calls (run_ticks s (ticks.take k)) ticks[k] ↔
          k = s.tuners.lp_cpu_down_hysteresis)) := by
  constructor
  · intro hh hc hlen hrun k hk
    have key := up_run_counts _ hh ticks s 0 hc rfl (by omega) hrun k hk
    simp only [Nat.zero_add] at key
    refine ⟨key.1, ?_⟩
    constructor
    · intro hmem
      by_contra hne
      have hlt : k < s.tuners.lp_cpu_up_hysteresis := by omega
      rw [(key.1 hlt).1] at hmem
      simp at hmem
    · intro heq
      obtain ⟨⟨evs, he⟩, _⟩ := key.2 heq
      rw [he]
      exact List.mem_cons_self _ _
  · intro hh hc hlen hrun k hk
    have key := down_run_counts _ hh ticks s 0 hc rfl (by omega) hrun k hk
    simp only [Nat.zero_add] at key
    refine ⟨key.1, ?_⟩
    constructor
    · intro hmem
      by_contra hne
      have hlt : k < s.tuners.lp_cpu_down_hysteresis := by omega
      rw [(key.1 hlt).1] at hmem
      simp at hmem
    · intro heq
      obtain ⟨⟨evs, he⟩, _⟩ := key.2 heq
      rw [he]
      exact List.mem_cons_self _ _

/-- Witness of C10 on the initial tunables: with the up hysteresis 4, five
consecutive qualifying ticks are needed, the handler is called on the fifth
and not on the fourth; with the down hysteresis 2 it is called on the third
qualifying tick. -/
theorem companion_hysteresis_witness :
    idle_state.tuners.lp_cpu_up_hysteresis = 4 ∧ up_run idle_state calm_ticks ∧
    (Event.tegra_lp_cpu_handler true false ∈
        tick_calls (run_ticks idle_state (calm_ticks.take 4)) (sample_tick 30520 5) ↔
      4 = idle_state.tuners.lp_cpu_up_hysteresis) ∧
    (Event.tegra_lp_cpu_handler true false ∈
        tick_calls (run_ticks idle_state (calm_ticks.take 3)) (sample_tick 30390 5) ↔
      3 = idle_state.tuners.lp_cpu_up_hysteresis) ∧
    companion_state.tuners.lp_cpu_down_hysteresis = 2 ∧ down_run companion_state busy_ticks ∧
    (Event.tegra_lp_cpu_handler false false ∈
        tick_calls (run_ticks companion_state (busy_ticks.take 2)) (sample_tick 34000 40) ↔
      2 = companion_state.tuners.lp_cpu_down_hysteresis) :=
  ⟨rfl, by decide,
    ((companion_hysteresis idle_state calm_ticks).1 (by decide) rfl rfl (by decide) 4
      (by decide)).2,
    ((companion_hysteresis idle_state calm_ticks).1 (by decide) rfl rfl (by decide) 3
      (by decide)).2,
    rfl, by decide,
    ((companion_hysteresis companion_state busy_ticks).2 (by decide) rfl rfl (by decide) 2
      (by decide)).2⟩

theorem resync_frame2 (s : Mpdec) :
    (resync s).state = s.state ∧ (resync s).NwNs_Threshold = s.NwNs_Threshold ∧
      (resync s).TwTs_Threshold = s.TwTs_Threshold ∧
      (resync s).mpdec_paused_until = s.mpdec_paused_until ∧
      ∀ c, ((resync s).tegra_mpdec_cpudata c).device_suspended =
        (s.tegra_mpdec_cpudata c).device_suspended := by
  unfold resync
  split_ifs
  · refine ⟨rfl, rfl, rfl, rfl, fun c => ?_⟩
    simp only []
    split_ifs <;> rfl
  · exact ⟨rfl, rfl, rfl, rfl, fun _ => rfl⟩

theorem mp_decision_frame2 (s : Mpdec) (i : Tick) :
    (mp_decision s i).2.NwNs_Threshold = s.NwNs_Threshold ∧
      (mp_decision s i).2.TwTs_Threshold = s.TwTs_Threshold ∧
      (mp_decision s i).2.mpdec_paused_until = s.mpdec_paused_until ∧
      (mp_decision s i).2.tegra_mpdec_cpudata = s.tegra_mpdec_cpudata := by
  unfold mp_decision
  split_ifs <;> exact ⟨rfl, rfl, rfl, rfl⟩

theorem tick_up_quiet (s : Mpdec) (i : Tick) (hq : qualifies_up s i)
    (hle : ¬ (s.lpup_req + 1) % U32 > s.tuners.lp_cpu_up_hysteresis) :
    tegra_mpdec_work_thread s i =
      emit (count_up (decided s i)) (Event.queue_delayed_work TEGRA_MPDEC_LPCPU_UPDELAY) := by
  obtain ⟨hd, hup, hlp, hpo⟩ := hq
  obtain ⟨d1, d2, d3, d4, d5, _, d7, d8⟩ := decided_frame s i
  have hpo2 : lp_possible (decided s i) i = true := by
    rw [← hpo]
    exact lp_possible_congr _ _ i d2 d8
  have hw : tegra_mpdec_work_thread s i = requeue (act (decided s i) i) := by
    unfold tegra_mpdec_work_thread
    rw [if_pos hd]
  have ha := act_up (decided s i) i (d1.trans hup) (d4.trans hlp) hpo2
  have c1 : (count_up (decided s i)).lpup_req = (s.lpup_req + 1) % U32 := by
    show ((decided s i).lpup_req + 1) % U32 = _
    rw [d5]
  have c2 : (count_up (decided s i)).state = TEGRA_MPDEC_LPCPU_UP := d1.trans hup
  rw [c1, d3, if_neg hle] at ha
  rw [hw, ha]
  unfold requeue
  simp only [c2]

theorem calm_inv_qualifies_tick (s : Mpdec) (i : Tick) (hnow : 20000 < i.now)
    (hrq : i.rq_depth = 5) (hrate : i.cpu_rate = 204000000) (hlock : i.cpu_lock = true)
    (h : calm_inv s) : qualifies_up s i := by
  obtain ⟨h1, h2, h3, h4, h5, h6, h7, h8, h9⟩ := h
  obtain ⟨r1, r2, r3, _, _, _, r7⟩ := resync_frame s
  obtain ⟨q1, q2, q3, _, _⟩ := resync_frame2 s
  have hsd : s.tuners.startdelay = 20000 := by rw [h1]; rfl
  have hif : s.tuners.idle_freq = 475000 := by rw [h1]; rfl
  have hmin : s.tuners.min_cpus = 1 := by rw [h1]; rfl
  have hn : num_online_cpus (resync s) = 1 := by
    simp only [num_online_cpus, r1, h2]
    rfl
  have hgr : get_rate i 0 = 204000 := by
    unfold get_rate
    rw [hrate]
    rfl
  have hsl : get_slowest_cpu_rate i = 204000 := by
    unfold get_slowest_cpu_rate get_slowest_cpu_rate_step get_rate
    rw [hrate]
    rfl
  refine ⟨?_, ?_, h3, ?_⟩
  · unfold decides
    have hany : (List.range CONFIG_NR_CPUS).any
        (fun cpu => (s.tegra_mpdec_cpudata cpu).device_suspended) = false := by
      simp [h9]
    rw [hany, hsd, h8, hlock]
    have e1 : decide (i.now ≤ 20000) = false := by simp; omega
    have e2 : decide (0 ≥ i.now) = false := by simp; omega
    rw [e1, e2]
    rfl
  · rw [mp_decision_fst, q1, if_neg h4, r2, hsd]
    have e1 : ¬ i.now ≤ 20000 := by omega
    rw [if_neg e1, decide_state_fst, hn, q2, q3, h5, h6, hrq]
    have e2 : ¬ (1 < CONFIG_NR_CPUS ∧
        5 ≥ [16, 10, 24, 12, 30, 16, 0, 18].getD ((1 - 1) * 2) 0) := by
      decide
    have e3 : 5 ≤ [16, 10, 24, 12, 30, 16, 0, 18].getD ((1 - 1) * 2 + 1) 0 := by decide
    have e4 : ∀ x : Nat, x ≥ [140, 0, 140, 190, 140, 190, 0, 190].getD ((1 - 1) * 2 + 1) 0 :=
      fun x => Nat.zero_le x
    rw [if_pos (by decide), if_neg e2, if_pos e3, if_pos (e4 _)]
    unfold down_candidate
    simp only [r2, hmin, r7, h7, r3, h3, hif, hgr, hsl]
    rfl
  · unfold lp_possible
    rw [h2, h7, hgr]
    rfl

theorem calm_inv_qualifies (s : Mpdec) (now : Nat) (hnow : 20000 < now) (h : calm_inv s) :
    qualifies_up s (sample_tick now 5) :=
  calm_inv_qualifies_tick s (sample_tick now 5) hnow rfl rfl rfl h

theorem calm_inv_step (s : Mpdec) (now : Nat) (hnow : 20000 < now) (h : calm_inv s) :
    calm_inv (tegra_mpdec_work_thread s (sample_tick now 5)) ∧
      Event.tegra_lp_cpu_handler true false ∉ tick_calls s (sample_tick now 5) := by
  have hq := calm_inv_qualifies s now hnow h
  obtain ⟨h1, h2, h3, h4, h5, h6, h7, h8, h9⟩ := h
  have hh : s.tuners.lp_cpu_up_hysteresis = 4294967295 := by rw [h1]; rfl
  have hle : ¬ (s.lpup_req + 1) % U32 > s.tuners.lp_cpu_up_hysteresis := by
    rw [hh]
    have : (s.lpup_req + 1) % U32 < U32 := Nat.mod_lt _ (by decide)
    simp only [U32] at this ⊢
    omega
  constructor
  · rw [tick_up_quiet s _ hq hle]
    obtain ⟨d1, d2, d3, d4, _, _, _, d8⟩ := decided_frame s (sample_tick now 5)
    obtain ⟨q1, q2, q3, q4, q5⟩ := resync_frame2 s
    obtain ⟨m1, m2, m3, m4⟩ := mp_decision_frame2 (resync s) (sample_tick now 5)
    refine ⟨d3.trans h1, d2.trans h2, d4.trans h3, ?_, (m1.trans q2).trans h5,
      (m2.trans q3).trans h6, d8.trans h7, (m3.trans q4).trans h8, ?_⟩
    · show (decided s (sample_tick now 5)).state ≠ TEGRA_MPDEC_DISABLED
      rw [d1, hq.2.1]
      decide
    · intro c
      show ((mp_decision (resync s) (sample_tick now 5)).2.tegra_mpdec_cpudata c).device_suspended
        = false
      rw [m4, q5 c]
      exact h9 c
  · rw [((tick_up s _ hq).2.2 hle).1]
    simp

theorem calm_run (n : Nat) :
    ∀ (start : Nat) (s : Mpdec), 20000 < start → calm_inv s →
      up_run s (ticks_from start n) ∧ calm_inv (run_ticks s (ticks_from start n)) := by
  induction n with
  | zero => intro start s _ h; exact ⟨trivial, h⟩
  | succ n ih =>
    intro start s hs h
    have hstep := calm_inv_step s start hs h
    have := ih (start + 130) _ (by omega) hstep.1
    exact ⟨⟨calm_inv_qualifies s start hs h, this.1⟩, this.2⟩

theorem ticks_from_length (n : Nat) : ∀ start, (ticks_from start n).length = n := by
  induction n with
  | zero => intro _; rfl
  | succ n ih => intro start; simp [ticks_from, ih]

theorem ticks_from_succ (n : Nat) :
    ∀ start, ticks_from start (n + 1) =
      ticks_from start n ++ [sample_tick (start + 130 * n) 5] := by
  induction n with
  | zero => intro _; rfl
  | succ n ih =>
    intro start
    rw [ticks_from, ih (start + 130)]
    have : start + 130 + 130 * n = start + 130 * (n + 1) := by ring
    rw [this]
    rfl

theorem calm_inv_initial : calm_inv max_hysteresis_state :=
  ⟨rfl, rfl, rfl, by decide, rfl, rfl, rfl, rfl, fun _ => rfl⟩

/-- Counterexample to C10 as stated: with the up hysteresis `h = 4294967295`
(`UINT_MAX`), starting with `lpup_req = 0`, there is a run of `h + 1`
consecutive ticks that each decide CompanionUp while the companion is inactive
and `lp_possible` holds, and tick `h + 1` of it does not call
`tegra_lp_cpu_handler(true, false)`. -/
theorem companion_up_never_at_uint_max :
    max_hysteresis_state.tuners.lp_cpu_up_hysteresis = 4294967295 ∧
    max_hysteresis_state.lpup_req = 0 ∧
    (ticks_from 30000 (4294967295 + 1)).length = 4294967295 + 1 ∧
    up_run max_hysteresis_state (ticks_from 30000 (4294967295 + 1)) ∧
    ticks_from 30000 (4294967295 + 1) =
      ticks_from 30000 4294967295 ++ [sample_tick (30000 + 130 * 4294967295) 5] ∧
    Event.tegra_lp_cpu_handler true false ∉
      tick_calls (run_ticks max_hysteresis_state (ticks_from 30000 4294967295))
        (sample_tick (30000 + 130 * 4294967295) 5) :=
  ⟨rfl, rfl, ticks_from_length _ _,
    (calm_run _ 30000 max_hysteresis_state (by omega) calm_inv_initial).1,
    ticks_from_succ _ _,
    (calm_inv_step _ _ (by omega)
      (calm_run 4294967295 30000 max_hysteresis_state (by omega) calm_inv_initial).2).2⟩

theorem decide_state_snd (s : Mpdec) (i : Tick) (tt : Nat) :
    (decide_state s i tt).2 =
      if num_online_cpus s ≠ 0 then
        if num_online_cpus s < CONFIG_NR_CPUS ∧
            i.rq_depth ≥ s.NwNs_Threshold.getD ((num_online_cpus s - 1) * 2) 0 then tt
        else if i.rq_depth ≤ s.NwNs_Threshold.getD ((num_online_cpus s - 1) * 2 + 1) 0 then tt
        else 0
      else 0 := by
  unfold decide_state
  simp only []
  by_cases h1 : num_online_cpus s ≠ 0
  · rw [if_pos h1, if_pos h1]
    by_cases h2 : num_online_cpus s < CONFIG_NR_CPUS ∧
        i.rq_depth ≥ s.NwNs_Threshold.getD ((num_online_cpus s - 1) * 2) 0
    · rw [if_pos h2, if_pos h2]
      by_cases h3 : tt ≥ s.TwTs_Threshold.getD ((num_online_cpus s - 1) * 2) 0
      · rw [if_pos h3]
      · rw [if_neg h3]
    · rw [if_neg h2, if_neg h2]
      by_cases h4 : i.rq_depth ≤ s.NwNs_Threshold.getD ((num_online_cpus s - 1) * 2 + 1) 0
      · rw [if_pos h4, if_pos h4]
        by_cases h5 : tt ≥ s.TwTs_Threshold.getD ((num_online_cpus s - 1) * 2 + 1) 0
        · rw [if_pos h5]
        · rw [if_neg h5]
      · rw [if_neg h4, if_neg h4]
  · rw [if_neg h1, if_neg h1]

theorem mp_decision_enabled (s : Mpdec) (i : Tick) (hen : s.state ≠ TEGRA_MPDEC_DISABLED)
    (hst : s.tuners.startdelay < i.now) :
    (mp_decision s i).1 = (decide_state s i (accumulated s i)).1 ∧
    (mp_decision s i).2.total_time =
      (if (decide_state s i (accumulated s i)).1 ≠ TEGRA_MPDEC_IDLE then 0
       else (decide_state s i (accumulated s i)).2) ∧
    (mp_decision s i).2.last_time = i.now ∧ (mp_decision s i).2.first_call = false := by
  unfold mp_decision
  rw [if_neg hen, if_neg (not_le.mpr hst)]
  exact ⟨rfl, rfl, rfl, rfl⟩

theorem decide_state_congr (a b : Mpdec) (i : Tick) (tt : Nat)
    (h1 : a.cpu_online = b.cpu_online) (h2 : a.tuners = b.tuners)
    (h3 : a.lp_cluster = b.lp_cluster) (h4 : a.idle_top_freq = b.idle_top_freq)
    (h5 : a.NwNs_Threshold = b.NwNs_Threshold) (h6 : a.TwTs_Threshold = b.TwTs_Threshold) :
    decide_state a i tt = decide_state b i tt := by
  unfold decide_state up_candidate down_candidate num_online_cpus
  rw [h1, h2, h3, h4, h5, h6]

theorem resync_frame3 (s : Mpdec) :
    (resync s).first_call = s.first_call ∧ (resync s).total_time = s.total_time ∧
      (resync s).last_time = s.last_time := by
  unfold resync
  split_ifs <;> exact ⟨rfl, rfl, rfl⟩

theorem accumulated_resync (s : Mpdec) (i : Tick) :
    accumulated (resync s) i = accumulated s i := by
  obtain ⟨h1, h2, h3⟩ := resync_frame3 s
  unfold accumulated this_time
  rw [h1, h2, h3]

theorem decide_state_resync (s : Mpdec) (i : Tick) (tt : Nat) :
    decide_state (resync s) i tt = decide_state s i tt := by
  obtain ⟨r1, r2, r3, _, _, _, r7⟩ := resync_frame s
  obtain ⟨_, q2, q3, _, _⟩ := resync_frame2 s
  exact decide_state_congr _ _ i tt r1 r2 r3 r7 q2 q3
theorem up_candidate_lp_down (s : Mpdec) (i : Tick) (n : Nat)
    (h : up_candidate s i n = TEGRA_MPDEC_LPCPU_DOWN) :
    i.rq_depth > TEGRA_MPDEC_LPCPU_RQ_DOWN ∧
      (s.lp_cluster = true ∨ s.tuners.max_cpus ≤ n) := by
  unfold up_candidate at h
  simp only [] at h
  by_cases hA : (!s.lp_cluster) = true ∧ n < s.tuners.max_cpus
  · rw [if_pos hA] at h
    split_ifs at h
  · rw [if_neg hA] at h
    by_cases hB : i.rq_depth > TEGRA_MPDEC_LPCPU_RQ_DOWN
    · refine ⟨hB, ?_⟩
      by_cases hl : s.lp_cluster = true
      · exact Or.inl hl
      · right
        by_contra hc
        exact hA ⟨by simpa using hl, by omega⟩
    · rw [if_neg hB] at h
      split_ifs at h

theorem down_candidate_ne_lp_down (s : Mpdec) (i : Tick) (n : Nat) :
    down_candidate s i n ≠ TEGRA_MPDEC_LPCPU_DOWN := by
  unfold down_candidate
  simp only []
  split_ifs <;> simp

theorem up_candidate_inactive (s : Mpdec) (i : Tick) (n : Nat) (hl : s.lp_cluster = false)
    (hn : n < s.tuners.max_cpus) :
    up_candidate s i n = TEGRA_MPDEC_UP ∨ up_candidate s i n = TEGRA_MPDEC_IDLE := by
  have hA : (!s.lp_cluster) = true ∧ n < s.tuners.max_cpus := ⟨by simp [hl], hn⟩
  unfold up_candidate
  simp only []
  rw [if_pos hA]
  split_ifs
  · right; rfl
  · left; rfl

theorem mp_decision_lp_down (s : Mpdec) (i : Tick)
    (h : (mp_decision s i).1 = TEGRA_MPDEC_LPCPU_DOWN) :
    i.rq_depth > TEGRA_MPDEC_LPCPU_RQ_DOWN ∧
      (s.lp_cluster = true ∨ s.tuners.max_cpus ≤ num_online_cpus s) ∧
      num_online_cpus s < CONFIG_NR_CPUS ∧
      i.rq_depth ≥ s.NwNs_Threshold.getD ((num_online_cpus s - 1) * 2) 0 := by
  have key : ∀ tt, (decide_state s i tt).1 = TEGRA_MPDEC_LPCPU_DOWN →
      i.rq_depth > TEGRA_MPDEC_LPCPU_RQ_DOWN ∧
      (s.lp_cluster = true ∨ s.tuners.max_cpus ≤ num_online_cpus s) ∧
      num_online_cpus s < CONFIG_NR_CPUS ∧
      i.rq_depth ≥ s.NwNs_Threshold.getD ((num_online_cpus s - 1) * 2) 0 := by
    intro tt h
    rw [decide_state_fst] at h
    split_ifs at h with h3 h4 h5 h6 h7
    · exact ⟨(up_candidate_lp_down s i _ h).1, (up_candidate_lp_down s i _ h).2, h4.1, h4.2⟩
    · exact absurd h (down_candidate_ne_lp_down s i _)
  rw [mp_decision_fst] at h
  split_ifs at h <;> exact key _ h

/-- C20, as the code has it.  For every enabled call of `mp_decision` past the start
delay with at least one core online: when the up condition is false and the
load is above `NwNs_Threshold[index+1]`, the result is Idle and `total_time` is
reset to 0; when the up condition is false, the load is at or below
`NwNs_Threshold[index+1]` and the accumulated time is still below
`TwTs_Threshold[index+1]`, the result is Idle and `total_time` keeps the
accumulated time; and whenever the result is not Idle, `total_time` is 0
afterwards. -/
theorem idle_fall_through (s : Mpdec) (i : Tick) (hen : s.state ≠ TEGRA_MPDEC_DISABLED)
    (hst : s.tuners.startdelay < i.now) (hn : 1 ≤ num_online_cpus s) :
    (¬ (num_online_cpus s < CONFIG_NR_CPUS ∧
        i.rq_depth ≥ s.NwNs_Threshold.getD ((num_online_cpus s - 1) * 2) 0) →
      ¬ i.rq_depth ≤ s.NwNs_Threshold.getD ((num_online_cpus s - 1) * 2 + 1) 0 →
      (mp_decision s i).1 = TEGRA_MPDEC_IDLE ∧ (mp_decision s i).2.total_time = 0) ∧
    (¬ (num_online_cpus s < CONFIG_NR_CPUS ∧
        i.rq_depth ≥ s.NwNs_Threshold.getD ((num_online_cpus s - 1) * 2) 0) →
      i.rq_depth ≤ s.NwNs_Threshold.getD ((num_online_cpus s - 1) * 2 + 1) 0 →
      accumulated s i < s.TwTs_Threshold.getD ((num_online_cpus s - 1) * 2 + 1) 0 →
      (mp_decision s i).1 = TEGRA_MPDEC_IDLE ∧
        (mp_decision s i).2.total_time = accumulated s i) ∧
    ((mp_decision s i).1 ≠ TEGRA_MPDEC_IDLE → (mp_decision s i).2.total_time = 0) := by
  obtain ⟨e1, e2, _, _⟩ := mp_decision_enabled s i hen hst
  have h0 : num_online_cpus s ≠ 0 := by omega
  refine ⟨?_, ?_, ?_⟩
  · intro hu hd
    have d1 : (decide_state s i (accumulated s i)).1 = TEGRA_MPDEC_IDLE := by
      rw [decide_state_fst, if_pos h0, if_neg hu, if_neg hd]
    have d2 : (decide_state s i (accumulated s i)).2 = 0 := by
      rw [decide_state_snd, if_pos h0, if_neg hu, if_neg hd]
    rw [e1, e2, d1, d2]
    exact ⟨rfl, rfl⟩
  · intro hu hd ht
    have d1 : (decide_state s i (accumulated s i)).1 = TEGRA_MPDEC_IDLE := by
      rw [decide_state_fst, if_pos h0, if_neg hu, if_pos hd, if_neg (not_le.mpr ht)]
    have d2 : (decide_state s i (accumulated s i)).2 = accumulated s i := by
      rw [decide_state_snd, if_pos h0, if_neg hu, if_pos hd]
    rw [e1, e2, d1, d2]
    exact ⟨rfl, rfl⟩
  · intro hne
    rw [e1] at hne
    rw [e2, if_pos hne]

/-- Witness of C20 as amended: with two cores online, load 14 is below the up
threshold 24 and above the down threshold 12, so the decision is Idle and
`total_time` is reset. -/
theorem idle_fall_through_witness :
    (mp_decision two_core_state (sample_tick 30000 14)).1 = TEGRA_MPDEC_IDLE ∧
      (mp_decision two_core_state (sample_tick 30000 14)).2.total_time = 0 :=
  (idle_fall_through two_core_state (sample_tick 30000 14) (by decide) (by decide)
    (by decide)).1 (by decide) (by decide)

/-- Counterexample to C20 as stated: with two cores online, load 5 and 130 ms
accumulated, the up condition is false and the down condition is false (the
down time 190 is not reached), the decision is Idle, and `total_time` is 130,
not 0. -/
theorem down_wait_keeps_time :
    two_core_state.state ≠ TEGRA_MPDEC_DISABLED ∧
    two_core_state.tuners.startdelay < (sample_tick 30000 5).now ∧
    1 ≤ num_online_cpus two_core_state ∧
    ¬ (num_online_cpus two_core_state < CONFIG_NR_CPUS ∧
      (sample_tick 30000 5).rq_depth ≥
        two_core_state.NwNs_Threshold.getD ((num_online_cpus two_core_state - 1) * 2) 0) ∧
    ¬ ((sample_tick 30000 5).rq_depth ≤
        two_core_state.NwNs_Threshold.getD ((num_online_cpus two_core_state - 1) * 2 + 1) 0 ∧
      accumulated two_core_state (sample_tick 30000 5) ≥
        two_core_state.TwTs_Threshold.getD ((num_online_cpus two_core_state - 1) * 2 + 1) 0) ∧
    (mp_decision two_core_state (sample_tick 30000 5)).1 = TEGRA_MPDEC_IDLE ∧
    (mp_decision two_core_state (sample_tick 30000 5)).2.total_time = 130 := by
  decide

theorem same_statics_refl (s : Mpdec) : same_statics s s :=
  ⟨rfl, rfl, rfl, rfl, rfl, rfl, rfl, rfl⟩

theorem same_statics_trans {a b c : Mpdec} (h1 : same_statics a b) (h2 : same_statics b c) :
    same_statics a c := by
  obtain ⟨a1, a2, a3, a4, a5, a6, a7, a8⟩ := h1
  obtain ⟨b1, b2, b3, b4, b5, b6, b7, b8⟩ := h2
  exact ⟨a1.trans b1, a2.trans b2, a3.trans b3, a4.trans b4, a5.trans b5, a6.trans b6,
    a7.trans b7, a8.trans b8⟩

theorem mpdec_cpu_up_statics (s : Mpdec) (i : Tick) (cpu : Nat) :
    same_statics (mpdec_cpu_up s i cpu) s := by
  unfold mpdec_cpu_up
  simp only []
  split_ifs <;> exact ⟨rfl, rfl, rfl, rfl, rfl, rfl, rfl, rfl⟩

theorem mpdec_cpu_down_statics (s : Mpdec) (i : Tick) (cpu : Nat) :
    same_statics (mpdec_cpu_down s i cpu) s := by
  unfold mpdec_cpu_down
  simp only []
  split_ifs <;> exact ⟨rfl, rfl, rfl, rfl, rfl, rfl, rfl, rfl⟩

theorem lp_handler_statics (s : Mpdec) (i : Tick) (st nt : Bool) :
    same_statics (tegra_lp_cpu_handler s i st nt).2 s := by
  unfold tegra_lp_cpu_handler
  simp only []
  split_ifs <;> exact ⟨rfl, rfl, rfl, rfl, rfl, rfl, rfl, rfl⟩

theorem requeue_statics (s : Mpdec) : same_statics (requeue s) s := by
  unfold requeue
  split <;> exact ⟨rfl, rfl, rfl, rfl, rfl, rfl, rfl, rfl⟩

theorem mpdec_cpu_up_trace (s : Mpdec) (i : Tick) (cpu : Nat) :
    (mpdec_cpu_up s i cpu).trace =
      s.trace ++ (if s.cpu_online cpu = true then [] else [Event.cpu_up cpu]) := by
  unfold mpdec_cpu_up
  simp only []
  cases h : s.cpu_online cpu
  · simp only [Bool.not_false, if_true, Bool.false_eq_true, if_false]
    split_ifs <;> rfl
  · simp

theorem mpdec_cpu_down_trace (s : Mpdec) (i : Tick) (cpu : Nat) :
    (mpdec_cpu_down s i cpu).trace =
      s.trace ++ (if s.cpu_online cpu = true then [Event.cpu_down cpu] else []) := by
  unfold mpdec_cpu_down
  simp only []
  cases h : s.cpu_online cpu
  · simp
  · simp only [if_true]
    split_ifs <;> rfl

theorem lp_handler_calls (s : Mpdec) (i : Tick) (st nt : Bool) :
    (tegra_lp_cpu_handler s i st nt).2.trace = s.trace ++ handler_calls i st nt := by
  cases h1 : i.clk_err <;> cases h2 : i.lpcpu_lock <;> by_cases h3 : i.clk_set_parent = 0 <;>
    cases st <;>
    simp [tegra_lp_cpu_handler, handler_calls, emit, h1, h2, h3, lp_switched_up,
      lp_switched_down, set_cpudata]

theorem lp_handler_fails (s : Mpdec) (i : Tick) (st nt : Bool) (h1 : i.clk_err = false)
    (h2 : i.lpcpu_lock = true) (h3 : i.clk_set_parent ≠ 0) :
    tegra_lp_cpu_handler s i st nt =
      (0, emit (emit s (.tegra_lp_cpu_handler st nt)) (.clk_set_parent st)) := by
  unfold tegra_lp_cpu_handler
  simp only [h1, h2, Bool.false_eq_true, if_false, Bool.not_true, if_neg h3]

theorem act_idle (s : Mpdec) (i : Tick) (hst : s.state = TEGRA_MPDEC_IDLE) :
    act s i = clear_requests s := by
  rcases s with ⟨cd, lp, tu, itf, nw, tw, st, wp, pu, fc, tt, lt, ur, dr, co, lc, tr⟩
  simp only at hst
  subst hst
  rfl

theorem act_disabled (s : Mpdec) (i : Tick) (hst : s.state = TEGRA_MPDEC_DISABLED) :
    act s i = s := by
  rcases s with ⟨cd, lp, tu, itf, nw, tw, st, wp, pu, fc, tt, lt, ur, dr, co, lc, tr⟩
  simp only at hst
  subst hst
  rfl

theorem act_scale_down (s : Mpdec) (i : Tick) (hst : s.state = TEGRA_MPDEC_DOWN) :
    act s i =
      if get_slowest_cpu s i < CONFIG_NR_CPUS then
        if (s.tegra_mpdec_cpudata (get_slowest_cpu s i)).online = true ∧
            s.cpu_online (get_slowest_cpu s i) = true then
          mpdec_cpu_down (emit (clear_requests s) (.unboost_cpu (get_slowest_cpu s i))) i
            (get_slowest_cpu s i)
        else if (s.tegra_mpdec_cpudata (get_slowest_cpu s i)).online ≠
            s.cpu_online (get_slowest_cpu s i) then pause (clear_requests s) i
        else clear_requests s
      else clear_requests s := by
  rcases s with ⟨cd, lp, tu, itf, nw, tw, st, wp, pu, fc, tt, lt, ur, dr, co, lc, tr⟩
  simp only at hst
  subst hst
  rfl

theorem act_scale_up (s : Mpdec) (i : Tick) (hst : s.state = TEGRA_MPDEC_UP) :
    act s i =
      if next_offline_cpu s < CONFIG_NR_CPUS then
        if (s.tegra_mpdec_cpudata (next_offline_cpu s)).online = false ∧
            s.cpu_online (next_offline_cpu s) = false then
          emit (mpdec_cpu_up (clear_requests s) i (next_offline_cpu s))
            (.unboost_cpu (next_offline_cpu s))
        else if (s.tegra_mpdec_cpudata (next_offline_cpu s)).online ≠
            s.cpu_online (next_offline_cpu s) then pause (clear_requests s) i
        else clear_requests s
      else clear_requests s := by
  rcases s with ⟨cd, lp, tu, itf, nw, tw, st, wp, pu, fc, tt, lt, ur, dr, co, lc, tr⟩
  simp only at hst
  subst hst
  rfl

theorem act_lp_up (s : Mpdec) (i : Tick) (hst : s.state = TEGRA_MPDEC_LPCPU_UP) :
    act s i =
      if (!s.lp_cluster) = true ∧ lp_possible s i = true then
        if (count_up s).lpup_req > s.tuners.lp_cpu_up_hysteresis then switch_up (count_up s) i
        else count_up s
      else { s with lpdown_req := 0 } := by
  rcases s with ⟨cd, lp, tu, itf, nw, tw, st, wp, pu, fc, tt, lt, ur, dr, co, lc, tr⟩
  simp only at hst
  subst hst
  rfl

theorem act_lp_down (s : Mpdec) (i : Tick) (hst : s.state = TEGRA_MPDEC_LPCPU_DOWN) :
    act s i =
      if s.lp_cluster = true then
        if (count_down s).lpdown_req > s.tuners.lp_cpu_down_hysteresis then
          switch_down (count_down s) i
        else count_down s
      else { s with lpup_req := 0 } := by
  rcases s with ⟨cd, lp, tu, itf, nw, tw, st, wp, pu, fc, tt, lt, ur, dr, co, lc, tr⟩
  simp only at hst
  subst hst
  rfl

theorem clear_requests_statics (s : Mpdec) : same_statics (clear_requests s) s :=
  ⟨rfl, rfl, rfl, rfl, rfl, rfl, rfl, rfl⟩

theorem act_statics (s : Mpdec) (i : Tick) : same_statics (act s i) s := by
  cases hst : s.state
  · rw [act_disabled s i hst]
    exact same_statics_refl s
  · rw [act_idle s i hst]
    exact clear_requests_statics s
  · rw [act_scale_down s i hst]
    split_ifs
    · exact same_statics_trans (mpdec_cpu_down_statics _ i _) (clear_requests_statics s)
    · exact ⟨rfl, rfl, rfl, rfl, rfl, rfl, rfl, rfl⟩
    · exact clear_requests_statics s
    · exact clear_requests_statics s
  · rw [act_scale_up s i hst]
    split_ifs
    · exact same_statics_trans (mpdec_cpu_up_statics (clear_requests s) i _)
        (clear_requests_statics s)
    · exact ⟨rfl, rfl, rfl, rfl, rfl, rfl, rfl, rfl⟩
    · exact clear_requests_statics s
    · exact clear_requests_statics s
  · rw [act_lp_up s i hst]
    split_ifs
    · exact same_statics_trans (lp_handler_statics (count_up s) i true false)
        ⟨rfl, rfl, rfl, rfl, rfl, rfl, rfl, rfl⟩
    · exact ⟨rfl, rfl, rfl, rfl, rfl, rfl, rfl, rfl⟩
    · exact ⟨rfl, rfl, rfl, rfl, rfl, rfl, rfl, rfl⟩
  · rw [act_lp_down s i hst]
    split_ifs
    · exact same_statics_trans (lp_handler_statics (count_down s) i false false)
        ⟨rfl, rfl, rfl, rfl, rfl, rfl, rfl, rfl⟩
    · exact ⟨rfl, rfl, rfl, rfl, rfl, rfl, rfl, rfl⟩
    · exact ⟨rfl, rfl, rfl, rfl, rfl, rfl, rfl, rfl⟩

theorem act_calls (s : Mpdec) (i : Tick) :
    ∃ evs, (act s i).trace = s.trace ++ evs ∧ act_shape s i evs := by
  cases hst : s.state
  · rw [act_disabled s i hst]
    exact ⟨[], (List.append_nil _).symm, Or.inl rfl⟩
  · rw [act_idle s i hst]
    exact ⟨[], (List.append_nil _).symm, Or.inl rfl⟩
  · rw [act_scale_down s i hst]
    split_ifs with h1 h2 h3
    · refine ⟨_, ?_, Or.inr (Or.inl ⟨hst, rfl⟩)⟩
      rw [mpdec_cpu_down_trace]
      have hc : (emit (clear_requests s) (Event.unboost_cpu (get_slowest_cpu s i))).cpu_online
          (get_slowest_cpu s i) = true := h2.2
      rw [if_pos hc]
      simp [emit, clear_requests]
    · exact ⟨[], (List.append_nil _).symm, Or.inl rfl⟩
    · exact ⟨[], (List.append_nil _).symm, Or.inl rfl⟩
    · exact ⟨[], (List.append_nil _).symm, Or.inl rfl⟩
  · rw [act_scale_up s i hst]
    split_ifs with h1 h2 h3
    · refine ⟨_, ?_, Or.inr (Or.inr (Or.inl ⟨hst, rfl⟩))⟩
      have hc : ¬ (clear_requests s).cpu_online (next_offline_cpu s) = true := by
        show ¬ s.cpu_online (next_offline_cpu s) = true
        rw [h2.2]
        simp
      show (mpdec_cpu_up (clear_requests s) i (next_offline_cpu s)).trace ++ _ = _
      rw [mpdec_cpu_up_trace, if_neg hc]
      simp [clear_requests]
    · exact ⟨[], (List.append_nil _).symm, Or.inl rfl⟩
    · exact ⟨[], (List.append_nil _).symm, Or.inl rfl⟩
    · exact ⟨[], (List.append_nil _).symm, Or.inl rfl⟩
  · rw [act_lp_up s i hst]
    split_ifs with h1 h2
    · refine ⟨handler_calls i true false, ?_,
        Or.inr (Or.inr (Or.inr (Or.inr ⟨hst, by simpa using h1.1, rfl⟩)))⟩
      show (tegra_lp_cpu_handler (count_up s) i true false).2.trace = _
      rw [lp_handler_calls]
      rfl
    · exact ⟨[], (List.append_nil _).symm, Or.inl rfl⟩
    · exact ⟨[], (List.append_nil _).symm, Or.inl rfl⟩
  · rw [act_lp_down s i hst]
    split_ifs with h1 h2
    · refine ⟨handler_calls i false false, ?_,
        Or.inr (Or.inr (Or.inr (Or.inl ⟨hst, h1, rfl⟩)))⟩
      show (tegra_lp_cpu_handler (count_down s) i false false).2.trace = _
      rw [lp_handler_calls]
      rfl
    · exact ⟨[], (List.append_nil _).symm, Or.inl rfl⟩
    · exact ⟨[], (List.append_nil _).symm, Or.inl rfl⟩

theorem requeue_trace_eq (s : Mpdec) : (requeue s).trace = s.trace ++ requeue_calls s := by
  rcases s with ⟨cd, lp, tu, itf, nw, tw, st, wp, pu, fc, tt, lt, ur, dr, co, lc, tr⟩
  cases st <;> simp [requeue, requeue_calls, next_delay, emit]

theorem requeue_calls_congr (a b : Mpdec) (h : same_statics a b) :
    requeue_calls a = requeue_calls b := by
  unfold requeue_calls
  rw [h.1, h.2.1]

theorem tick_decides (s : Mpdec) (i : Tick) (hd : decides s i = true) :
    tegra_mpdec_work_thread s i = requeue (act (decided s i) i) := by
  unfold tegra_mpdec_work_thread
  rw [if_pos hd]

theorem tick_skips (s : Mpdec) (i : Tick) (hd : decides s i = false) :
    tegra_mpdec_work_thread s i = requeue s := by
  unfold tegra_mpdec_work_thread
  rw [hd]
  rfl

theorem tick_shape (s : Mpdec) (i : Tick) :
    ∃ evs, tick_calls s i = evs ++ requeue_calls (tegra_mpdec_work_thread s i) ∧
      (evs = [] ∨ (decides s i = true ∧ act_shape (decided s i) i evs)) := by
  cases hd : decides s i
  · refine ⟨[], ?_, Or.inl rfl⟩
    apply tick_calls_eq
    rw [tick_skips s i hd, requeue_trace_eq,
      requeue_calls_congr _ _ (requeue_statics s)]
    simp
  · obtain ⟨evs, he, hs⟩ := act_calls (decided s i) i
    refine ⟨evs, ?_, Or.inr ⟨rfl, hs⟩⟩
    apply tick_calls_eq
    rw [tick_decides s i hd, requeue_trace_eq, he, (decided_frame s i).2.2.2.2.2.2.1,
      requeue_calls_congr _ _ (requeue_statics _), List.append_assoc]

theorem tick_state (s : Mpdec) (i : Tick) :
    (tegra_mpdec_work_thread s i).state =
        (if decides s i = true then (mp_decision (resync s) i).1 else s.state) ∧
      (tegra_mpdec_work_thread s i).tuners = s.tuners := by
  cases hd : decides s i
  · rw [tick_skips s i hd]
    exact ⟨(requeue_statics s).1, (requeue_statics s).2.1⟩
  · rw [tick_decides s i hd]
    have h := same_statics_trans (requeue_statics _) (act_statics (decided s i) i)
    exact ⟨h.1, h.2.1.trans (decided_frame s i).2.2.1⟩

theorem requeue_eq (s : Mpdec) : requeue s = { s with trace := s.trace ++ requeue_calls s } := by
  rcases s with ⟨cd, lp, tu, itf, nw, tw, st, wp, pu, fc, tt, lt, ur, dr, co, lc, tr⟩
  cases st <;> simp [requeue, requeue_calls, next_delay, emit]

theorem decides_spec (s : Mpdec) (i : Tick) (h : decides s i = true) :
    s.tuners.startdelay < i.now ∧ s.mpdec_paused_until < i.now ∧ i.cpu_lock = true := by
  unfold decides at h
  simp only [Bool.and_eq_true, Bool.not_eq_true', decide_eq_false_iff_not, not_le, ge_iff_le]
    at h
  exact ⟨h.1.1.1, h.1.1.2, h.2⟩

theorem paused_skips (s : Mpdec) (i : Tick) (h : i.now ≤ s.mpdec_paused_until) :
    decides s i = false := by
  cases hd : decides s i
  · rfl
  · have := (decides_spec s i hd).2.1
    omega

/-- C13. Paused ticks decide nothing.  A run of the work thread at a time
before `mpdec_paused_until` leaves the whole state as it was, so the mode, both
hysteresis counters, `was_paused`, every tracked online flag and the statics
of `mp_decision` are unchanged, apart from the trace of calls: the calls of
the run are those of the code after the label `out`, the single
`queue_delayed_work` that re-arms the work (none when the mode is
Disabled), and no `cpu_up`, `cpu_down` or `tegra_lp_cpu_handler`. -/
theorem paused_tick (s : Mpdec) (i : Tick) (h : i.now < s.mpdec_paused_until) :
    tegra_mpdec_work_thread s i = { s with trace := s.trace ++ tick_calls s i } ∧
    tick_calls s i =
      (match next_delay s.state s.tuners.delay with
        | none => []
        | some d => [Event.queue_delayed_work d]) ∧
    (s.state ≠ TEGRA_MPDEC_DISABLED → ∃ d, tick_calls s i = [Event.queue_delayed_work d]) := by
  have hd : decides s i = false := paused_skips s i (Nat.le_of_lt h)
  have hw : tegra_mpdec_work_thread s i = { s with trace := s.trace ++ requeue_calls s } := by
    rw [tick_skips s i hd, requeue_eq]
  have hc : tick_calls s i = requeue_calls s := by
    apply tick_calls_eq
    rw [hw]
  refine ⟨by rw [hc]; exact hw, by rw [hc]; rfl, ?_⟩
  intro hne
  rw [hc]
  unfold requeue_calls next_delay
  cases hst : s.state
  · exact absurd hst hne
  · exact ⟨_, rfl⟩
  · exact ⟨_, rfl⟩
  · exact ⟨_, rfl⟩
  · exact ⟨_, rfl⟩
  · exact ⟨_, rfl⟩

/-- Witness of C13: paused until 40000 ms, the run at 30000 ms only queues the
next run. -/
theorem paused_tick_witness :
    (30000 : Nat) < paused_state.mpdec_paused_until ∧
    tegra_mpdec_work_thread paused_state (fast_tick 30000 40) =
      { paused_state with
        trace := paused_state.trace ++ tick_calls paused_state (fast_tick 30000 40) } ∧
    tick_calls paused_state (fast_tick 30000 40) = [Event.queue_delayed_work 130] :=
  ⟨by decide, (paused_tick paused_state (fast_tick 30000 40) (by decide)).1,
    (paused_tick paused_state (fast_tick 30000 40) (by decide)).2.1⟩

theorem queued_append (a b : List Event) : queued (a ++ b) = queued a ++ queued b := by
  induction a with
  | nil => rfl
  | cons e a ih => cases e <;> simp [queued, ih]

theorem queued_requeue_calls (s : Mpdec) :
    queued (requeue_calls s) = (next_delay s.state s.tuners.delay).toList := by
  unfold requeue_calls
  cases next_delay s.state s.tuners.delay <;> rfl

theorem queued_handler_calls (i : Tick) (st nt : Bool) : queued (handler_calls i st nt) = [] := by
  unfold handler_calls
  split_ifs <;> rfl

theorem queued_act_shape (s : Mpdec) (i : Tick) (evs : List Event) (h : act_shape s i evs) :
    queued evs = [] := by
  rcases h with h | ⟨_, h⟩ | ⟨_, h⟩ | ⟨_, _, h⟩ | ⟨_, _, h⟩
  · rw [h]
    rfl
  · rw [h]
    rfl
  · rw [h]
    rfl
  · rw [h]
    exact queued_handler_calls i false false
  · rw [h]
    exact queued_handler_calls i true false

theorem mem_requeue_calls (s : Mpdec) (e : Event) (h : e ∈ requeue_calls s) :
    ∃ d, e = Event.queue_delayed_work d := by
  unfold requeue_calls at h
  cases hn : next_delay s.state s.tuners.delay
  · rw [hn] at h
    simp at h
  · rw [hn] at h
    exact ⟨_, by simpa using h⟩

theorem handler_mem_act_shape (s : Mpdec) (i : Tick) (evs : List Event) (st nt : Bool)
    (h : act_shape s i evs) (hm : Event.tegra_lp_cpu_handler st nt ∈ evs) :
    nt = false ∧ evs = handler_calls i st false ∧
      s.state = (if st then TEGRA_MPDEC_LPCPU_UP else TEGRA_MPDEC_LPCPU_DOWN) ∧
      s.lp_cluster = !st := by
  rcases h with h | ⟨_, h⟩ | ⟨_, h⟩ | ⟨h1, h2, h⟩ | ⟨h1, h2, h⟩
  · rw [h] at hm
    simp at hm
  · rw [h] at hm
    simp at hm
  · rw [h] at hm
    simp at hm
  · rw [h] at hm
    have : st = false ∧ nt = false := by
      unfold handler_calls at hm
      split_ifs at hm <;> simp at hm <;> exact hm
    obtain ⟨rfl, rfl⟩ := this
    exact ⟨rfl, h, h1, h2⟩
  · rw [h] at hm
    have : st = true ∧ nt = false := by
      unfold handler_calls at hm
      split_ifs at hm <;> simp at hm <;> exact hm
    obtain ⟨rfl, rfl⟩ := this
    exact ⟨rfl, h, h1, h2⟩

theorem handler_tick (s : Mpdec) (i : Tick) (st nt : Bool)
    (hm : Event.tegra_lp_cpu_handler st nt ∈ tick_calls s i) :
    nt = false ∧
      (tegra_mpdec_work_thread s i).state =
        (if st then TEGRA_MPDEC_LPCPU_UP else TEGRA_MPDEC_LPCPU_DOWN) ∧
      tick_calls s i = handler_calls i st false ++
        [Event.queue_delayed_work
          (if st then TEGRA_MPDEC_LPCPU_UPDELAY else TEGRA_MPDEC_LPCPU_DOWNDELAY)] := by
  obtain ⟨evs, he, hs⟩ := tick_shape s i
  rw [he] at hm
  rcases List.mem_append.mp hm with hm | hm
  · rcases hs with hs | ⟨hd, hs⟩
    · rw [hs] at hm
      simp at hm
    · obtain ⟨h1, h2, h3, _⟩ := handler_mem_act_shape _ i evs st nt hs hm
      have hst : (tegra_mpdec_work_thread s i).state =
          (if st then TEGRA_MPDEC_LPCPU_UP else TEGRA_MPDEC_LPCPU_DOWN) := by
        rw [tick_decides s i hd,
          (same_statics_trans (requeue_statics _) (act_statics (decided s i) i)).1]
        exact h3
      refine ⟨h1, hst, ?_⟩
      rw [he, h2]
      unfold requeue_calls
      rw [hst]
      cases st <;> rfl
  · obtain ⟨d, hd⟩ := mem_requeue_calls _ _ hm
    cases hd

/-- C17. Failed companion switch changes nothing.  When `clk_set_parent`
fails, each call of `tegra_lp_cpu_handler` that reaches it returns 0 and leaves
the state as it was, with the per-core and companion records (online flag,
online-since time, cumulative online time, hotplug counters), the online mask
and the cluster unchanged, apart from the trace, which gains the marker of the
call and one `clk_set_parent` and no `tegra_cpu_set_speed_cap`.  A run of the
work thread that calls the handler then issues exactly that marker, that one
`clk_set_parent` and the `queue_delayed_work` of the next run. -/
theorem failed_switch_changes_nothing (s : Mpdec) (i : Tick) (h1 : i.clk_err = false)
    (h2 : i.lpcpu_lock = true) (h3 : i.clk_set_parent ≠ 0) :
    (∀ (a : Mpdec) (st nt : Bool),
      (tegra_lp_cpu_handler a i st nt).1 = 0 ∧
      (tegra_lp_cpu_handler a i st nt).2 =
        { a with trace := a.trace ++
          [Event.tegra_lp_cpu_handler st nt, Event.clk_set_parent st] }) ∧
    (∀ st nt : Bool, Event.tegra_lp_cpu_handler st nt ∈ tick_calls s i →
      tick_calls s i =
        [Event.tegra_lp_cpu_handler st false, Event.clk_set_parent st,
          Event.queue_delayed_work
            (if st then TEGRA_MPDEC_LPCPU_UPDELAY else TEGRA_MPDEC_LPCPU_DOWNDELAY)]) := by
  refine ⟨fun a st nt => ?_, fun st nt hm => ?_⟩
  · rw [lp_handler_fails a i st nt h1 h2 h3]
    refine ⟨rfl, ?_⟩
    simp [emit]
  · rw [(handler_tick s i st nt hm).2.2]
    unfold handler_calls
    simp [h1, h2, h3]

/-- Witness of C17: on the companion with two down requests counted, the tick
in which `clk_set_parent` fails with `-EBUSY` calls the handler, which returns
0 and changes nothing but the trace. -/
theorem failed_switch_changes_nothing_witness :
    (tegra_lp_cpu_handler leaving_state failing_tick false false).1 = 0 ∧
    (tegra_lp_cpu_handler leaving_state failing_tick false false).2 =
      { leaving_state with trace := leaving_state.trace ++
        [Event.tegra_lp_cpu_handler false false, Event.clk_set_parent false] } ∧
    tick_calls leaving_state failing_tick =
      [Event.tegra_lp_cpu_handler false false, Event.clk_set_parent false,
        Event.queue_delayed_work 2000] :=
  ⟨((failed_switch_changes_nothing leaving_state failing_tick (by decide) (by decide)
      (by decide)).1 leaving_state false false).1,
   ((failed_switch_changes_nothing leaving_state failing_tick (by decide) (by decide)
      (by decide)).1 leaving_state false false).2,
   (failed_switch_changes_nothing leaving_state failing_tick (by decide) (by decide)
      (by decide)).2 false false (by decide)⟩

theorem act_shape_quiet (s : Mpdec) (i : Tick) (evs : List Event) (h : act_shape s i evs)
    (hst : s.state = TEGRA_MPDEC_DISABLED ∨ s.state = TEGRA_MPDEC_IDLE ∨
      (s.state = TEGRA_MPDEC_LPCPU_DOWN ∧ s.lp_cluster = false) ∨
      (s.state = TEGRA_MPDEC_LPCPU_UP ∧ s.lp_cluster = true)) : evs = [] := by
  rcases h with h | ⟨h1, _⟩ | ⟨h1, _⟩ | ⟨h1, h2, _⟩ | ⟨h1, h2, _⟩
  · exact h
  · rcases hst with h | h | ⟨h, _⟩ | ⟨h, _⟩ <;> rw [h1] at h <;> cases h
  · rcases hst with h | h | ⟨h, _⟩ | ⟨h, _⟩ <;> rw [h1] at h <;> cases h
  · rcases hst with h | h | ⟨h, h'⟩ | ⟨h, _⟩
    · rw [h1] at h
      cases h
    · rw [h1] at h
      cases h
    · rw [h2] at h'
      cases h'
    · rw [h1] at h
      cases h
  · rcases hst with h | h | ⟨h, _⟩ | ⟨h, h'⟩
    · rw [h1] at h
      cases h
    · rw [h1] at h
      cases h
    · rw [h1] at h
      cases h
    · rw [h2] at h'
      cases h'

theorem tick_quiet (s : Mpdec) (i : Tick)
    (hst : decides s i = true →
      (decided s i).state = TEGRA_MPDEC_DISABLED ∨ (decided s i).state = TEGRA_MPDEC_IDLE ∨
      ((decided s i).state = TEGRA_MPDEC_LPCPU_DOWN ∧ (decided s i).lp_cluster = false) ∨
      ((decided s i).state = TEGRA_MPDEC_LPCPU_UP ∧ (decided s i).lp_cluster = true)) :
    tick_calls s i = requeue_calls (tegra_mpdec_work_thread s i) := by
  obtain ⟨evs, he, hs⟩ := tick_shape s i
  rcases hs with hs | ⟨hd, hs⟩
  · rw [he, hs]
    rfl
  · rw [he, act_shape_quiet _ i evs hs (hst hd)]
    rfl

theorem mp_decision_disabled (s : Mpdec) (i : Tick) (h : s.state = TEGRA_MPDEC_DISABLED) :
    (mp_decision s i).1 = TEGRA_MPDEC_DISABLED := by
  rw [mp_decision_fst, if_pos h]

/-- C18, as the code has it.  Re-tick scheduling.  After every run of the work thread
the mode is the decision of `mp_decision` if the run reached it, else the
mode left by the previous run, and the run queues the next one by that mode:
with the companion-down delay (2000 ms) when the mode is CompanionDown, with
the companion-up delay (130 ms) when it is CompanionUp, not at all when it is
Disabled, and with `tuners.delay` otherwise, whether or not a switch was
executed.  In particular the delay is 2000 ms after a run that calls
`tegra_lp_cpu_handler(false)` and 130 ms after a run that calls
`tegra_lp_cpu_handler(true)`; and a run that starts in mode Disabled stays
Disabled and issues no call at all. -/
theorem requeue_delay (s : Mpdec) (i : Tick) :
    (tegra_mpdec_work_thread s i).state =
      (if decides s i = true then (mp_decision (resync s) i).1 else s.state) ∧
    queued (tick_calls s i) =
      (next_delay (tegra_mpdec_work_thread s i).state s.tuners.delay).toList ∧
    (Event.tegra_lp_cpu_handler false false ∈ tick_calls s i →
      queued (tick_calls s i) = [TEGRA_MPDEC_LPCPU_DOWNDELAY]) ∧
    (Event.tegra_lp_cpu_handler true false ∈ tick_calls s i →
      queued (tick_calls s i) = [TEGRA_MPDEC_LPCPU_UPDELAY]) ∧
    (s.state = TEGRA_MPDEC_DISABLED →
      (tegra_mpdec_work_thread s i).state = TEGRA_MPDEC_DISABLED ∧ tick_calls s i = []) := by
  obtain ⟨t1, t2⟩ := tick_state s i
  have hq : queued (tick_calls s i) =
      (next_delay (tegra_mpdec_work_thread s i).state s.tuners.delay).toList := by
    obtain ⟨evs, he, hs⟩ := tick_shape s i
    have h0 : queued evs = [] := by
      rcases hs with hs | ⟨_, hs⟩
      · rw [hs]
        rfl
      · exact queued_act_shape _ i evs hs
    rw [he, queued_append, h0, queued_requeue_calls, t2]
    rfl
  refine ⟨t1, hq, ?_, ?_, ?_⟩
  · intro hm
    rw [hq, (handler_tick s i false false hm).2.1]
    rfl
  · intro hm
    rw [hq, (handler_tick s i true false hm).2.1]
    rfl
  · intro hdis
    have hst : (tegra_mpdec_work_thread s i).state = TEGRA_MPDEC_DISABLED := by
      rw [t1]
      split_ifs
      · exact mp_decision_disabled _ i ((resync_frame2 s).1.trans hdis)
      · exact hdis
    refine ⟨hst, ?_⟩
    rw [tick_quiet s i]
    · unfold requeue_calls
      rw [hst]
      rfl
    · intro hd
      left
      rw [(decided_frame s i).1]
      exact mp_decision_disabled _ i ((resync_frame2 s).1.trans hdis)

/-- Counterexample to C18 as stated: on the companion with the down counter at
0, a tick with load 40 does not call `tegra_lp_cpu_handler`, and still queues
the next run at 2000 ms although `tuners.delay` is 130 ms. -/
theorem delay_without_switch :
    Event.tegra_lp_cpu_handler false false ∉ tick_calls companion_state (sample_tick 30000 40) ∧
    tick_calls companion_state (sample_tick 30000 40) = [Event.queue_delayed_work 2000] ∧
    companion_state.tuners.delay = 130 := by
  decide

/-- C19, as the code has it.  `mp_decision` returns CompanionDown only when the load
exceeds `TEGRA_MPDEC_LPCPU_RQ_DOWN = 36` and either the companion cluster is
active or the online count has reached `max_cpus`.  When the companion is
inactive and the online count is below `max_cpus`, the candidate of the up
branch is ScaleUp or Idle.  The work thread guards the decision: a run that
decides CompanionDown while the companion is inactive only queues the next run
with the companion-down delay, and a run that calls
`tegra_lp_cpu_handler(false)` started with the companion active. -/
theorem companion_down_candidate (s : Mpdec) (i : Tick) :
    ((mp_decision s i).1 = TEGRA_MPDEC_LPCPU_DOWN →
      i.rq_depth > TEGRA_MPDEC_LPCPU_RQ_DOWN ∧
      (s.lp_cluster = true ∨ s.tuners.max_cpus ≤ num_online_cpus s)) ∧
    (s.lp_cluster = false → num_online_cpus s < s.tuners.max_cpus →
      up_candidate s i (num_online_cpus s) = TEGRA_MPDEC_UP ∨
      up_candidate s i (num_online_cpus s) = TEGRA_MPDEC_IDLE) ∧
    (decides s i = true → (mp_decision (resync s) i).1 = TEGRA_MPDEC_LPCPU_DOWN →
      s.lp_cluster = false →
      tick_calls s i = [Event.queue_delayed_work TEGRA_MPDEC_LPCPU_DOWNDELAY]) ∧
    (∀ nt, Event.tegra_lp_cpu_handler false nt ∈ tick_calls s i → s.lp_cluster = true) := by
  refine ⟨fun h => ⟨(mp_decision_lp_down s i h).1, (mp_decision_lp_down s i h).2.1⟩,
    up_candidate_inactive s i _, ?_, ?_⟩
  · intro hd hdec hlp
    obtain ⟨d1, _, _, d4, _⟩ := decided_frame s i
    have hst : (tegra_mpdec_work_thread s i).state = TEGRA_MPDEC_LPCPU_DOWN := by
      rw [(tick_state s i).1, if_pos hd]
      exact hdec
    rw [tick_quiet s i]
    · unfold requeue_calls
      rw [hst]
      rfl
    · intro _
      right; right; left
      exact ⟨d1.trans hdec, d4.trans hlp⟩
  · intro nt hm
    obtain ⟨evs, he, hs⟩ := tick_shape s i
    rw [he] at hm
    rcases List.mem_append.mp hm with hm | hm
    · rcases hs with hs | ⟨hd, hs⟩
      · rw [hs] at hm
        simp at hm
      · have h := (handler_mem_act_shape _ i evs false nt hs hm).2.2.2
        rw [(decided_frame s i).2.2.2.1] at h
        exact h
    · obtain ⟨d, hd⟩ := mem_requeue_calls _ _ hm
      cases hd

/-- Counterexample to C19 as stated: with `max_cpus = 1`, one core online and
load 40, `mp_decision` returns CompanionDown although the companion is
inactive. -/
theorem companion_down_while_inactive :
    single_core_state.lp_cluster = false ∧
    single_core_state.state ≠ TEGRA_MPDEC_DISABLED ∧
    (mp_decision single_core_state (fast_tick 30000 40)).1 = TEGRA_MPDEC_LPCPU_DOWN := by
  decide

theorem up_candidate_scales (s : Mpdec) (i : Tick) (hl : s.lp_cluster = false)
    (hm : 1 < s.tuners.max_cpus) (hr : s.tuners.idle_freq < get_slowest_cpu_rate i) :
    up_candidate s i 1 = TEGRA_MPDEC_UP := by
  have hA : (!s.lp_cluster) = true ∧ 1 < s.tuners.max_cpus := ⟨by simp [hl], hm⟩
  unfold up_candidate
  simp only []
  rw [if_pos hA, if_neg]
  intro h
  have := h.1
  omega

theorem tick_tables (s : Mpdec) (i : Tick) :
    (tegra_mpdec_work_thread s i).NwNs_Threshold = s.NwNs_Threshold ∧
      (tegra_mpdec_work_thread s i).TwTs_Threshold = s.TwTs_Threshold := by
  cases hd : decides s i
  · rw [tick_skips s i hd]
    exact ⟨(requeue_statics s).2.2.2.1, (requeue_statics s).2.2.2.2.1⟩
  · rw [tick_decides s i hd]
    have h := same_statics_trans (requeue_statics _) (act_statics (decided s i) i)
    obtain ⟨m1, m2, _, _⟩ := mp_decision_frame2 (resync s) i
    obtain ⟨_, q2, q3, _, _⟩ := resync_frame2 s
    exact ⟨h.2.2.2.1.trans (m1.trans q2), h.2.2.2.2.1.trans (m2.trans q3)⟩

theorem scales_up_tick (s : Mpdec) (i : Tick) (h : scales_up s i) :
    (mp_decision (resync s) i).1 =
      (if accumulated s i < s.TwTs_Threshold.getD 0 0 then TEGRA_MPDEC_IDLE
       else TEGRA_MPDEC_UP) ∧
    (accumulated s i < s.TwTs_Threshold.getD 0 0 →
      (tegra_mpdec_work_thread s i).total_time = accumulated s i ∧
      (tegra_mpdec_work_thread s i).last_time = i.now ∧
      (tegra_mpdec_work_thread s i).first_call = false) := by
  obtain ⟨hd, hen, hn, hrq, hlp, hmax, hrate⟩ := h
  have hst := (decides_spec s i hd).1
  obtain ⟨_, r2, _, _, _, _, _⟩ := resync_frame s
  obtain ⟨q1, _⟩ := resync_frame2 s
  obtain ⟨e1, e2, e3, e4⟩ := mp_decision_enabled (resync s) i (by rw [q1]; exact hen)
    (by rw [r2]; exact hst)
  rw [decide_state_resync, accumulated_resync] at e1 e2
  have h0 : (1 - 1) * 2 = 0 := rfl
  have hup : 1 < CONFIG_NR_CPUS ∧ i.rq_depth ≥ s.NwNs_Threshold.getD 0 0 := ⟨by decide, hrq⟩
  have hfst : (decide_state s i (accumulated s i)).1 =
      (if accumulated s i < s.TwTs_Threshold.getD 0 0 then TEGRA_MPDEC_IDLE
       else TEGRA_MPDEC_UP) := by
    rw [decide_state_fst, hn, h0, if_pos (by decide), if_pos hup]
    by_cases ht : accumulated s i < s.TwTs_Threshold.getD 0 0
    · rw [if_neg (not_le.mpr ht), if_pos ht]
    · rw [if_pos (not_lt.mp ht), if_neg ht]
      exact up_candidate_scales s i hlp (by omega) hrate
  have hsnd : (decide_state s i (accumulated s i)).2 = accumulated s i := by
    rw [decide_state_snd, hn, h0, if_pos (by decide), if_pos hup]
  refine ⟨e1.trans hfst, fun ht => ?_⟩
  have hw := same_statics_trans (requeue_statics _) (act_statics (decided s i) i)
  rw [← tick_decides s i hd] at hw
  obtain ⟨_, _, _, _, _, w6, w7, w8⟩ := hw
  refine ⟨w7.trans ?_, w8.trans e3, w6.trans e4⟩
  show (mp_decision (resync s) i).2.total_time = _
  rw [e2, hfst, if_pos ht, hsnd]
  rfl

theorem scale_up_run_at : ∀ (ticks : List Tick) (s : Mpdec) (k : Nat) (hk : k < ticks.length),
    scale_up_run s ticks →
    scales_up (run_ticks s (ticks.take k)) ticks[k] ∧
      run_ticks s (ticks.take (k + 1)) =
        tegra_mpdec_work_thread (run_ticks s (ticks.take k)) ticks[k] ∧
      (run_ticks s (ticks.take k)).TwTs_Threshold = s.TwTs_Threshold := by
  intro ticks
  induction ticks with
  | nil => intro s k hk; exact absurd hk (Nat.not_lt_zero _)
  | cons i rest ih =>
    intro s k hk hrun
    cases k with
    | zero => exact ⟨hrun.1, rfl, rfl⟩
    | succ k =>
      obtain ⟨a, b, c⟩ := ih (tegra_mpdec_work_thread s i) k (Nat.lt_of_succ_lt_succ hk) hrun.2
      exact ⟨a, b, c.trans (tick_tables s i).2⟩

/-- C11. Scale-up timing.  In a run of consecutive ticks of the work thread
that each reach `mp_decision` while enabled, with one core online, the load at
or above `NwNs_Threshold[0]`, the companion inactive, `max_cpus >= 2` and the
slowest clock above `idle_freq`: on every tick where the accumulated time
(`total_time` plus the time since the previous call, in 64-bit arithmetic) is
still below `TwTs_Threshold[0]` the decision is Idle, and the tick keeps the
accumulated time in `total_time` and records its own time in `last_time` for
the next tick; on the tick where the accumulated time has reached
`TwTs_Threshold[0]` the decision is ScaleUp. -/
theorem scale_up_timing (s : Mpdec) (ticks : List Tick) (k : Nat) (hk : k < ticks.length)
    (hrun : scale_up_run s ticks) :
    (mp_decision (resync (run_ticks s (ticks.take k))) ticks[k]).1 =
      (if accumulated (run_ticks s (ticks.take k)) ticks[k] < s.TwTs_Threshold.getD 0 0 then
        TEGRA_MPDEC_IDLE
       else TEGRA_MPDEC_UP) ∧
    (accumulated (run_ticks s (ticks.take k)) ticks[k] < s.TwTs_Threshold.getD 0 0 →
      (run_ticks s (ticks.take (k + 1))).total_time =
        accumulated (run_ticks s (ticks.take k)) ticks[k] ∧
      (run_ticks s (ticks.take (k + 1))).last_time = ticks[k].now ∧
      (run_ticks s (ticks.take (k + 1))).first_call = false) := by
  obtain ⟨a, b, c⟩ := scale_up_run_at ticks s k hk hrun
  have h := scales_up_tick _ _ a
  rw [c] at h
  rw [b]
  exact h

/-- Witness of C11: load 40 against the thresholds 16 and 140, ticks 70 ms
apart: Idle at 70 ms accumulated, ScaleUp on the tick where the accumulated
time first reaches 140 ms. -/
theorem scale_up_timing_witness :
    scale_up_run idle_state loaded_ticks ∧
    idle_state.TwTs_Threshold.getD 0 0 = 140 ∧
    accumulated (run_ticks idle_state (loaded_ticks.take 1)) (fast_tick 30070 40) = 70 ∧
    (mp_decision (resync (run_ticks idle_state (loaded_ticks.take 1))) (fast_tick 30070 40)).1 =
      TEGRA_MPDEC_IDLE ∧
    accumulated (run_ticks idle_state (loaded_ticks.take 2)) (fast_tick 30140 40) = 140 ∧
    (mp_decision (resync (run_ticks idle_state (loaded_ticks.take 2))) (fast_tick 30140 40)).1 =
      TEGRA_MPDEC_UP :=
  ⟨by decide, by decide, by decide,
    (scale_up_timing idle_state loaded_ticks 1 (by decide) (by decide)).1.trans
      (if_pos (by decide)),
    by decide,
    (scale_up_timing idle_state loaded_ticks 2 (by decide) (by decide)).1.trans
      (if_neg (by decide))⟩

theorem lp_handler_succeeds (s : Mpdec) (i : Tick) (st nt : Bool)
    (h : (tegra_lp_cpu_handler s i st nt).1 = 1) :
    i.clk_err = false ∧ i.lpcpu_lock = true ∧ i.clk_set_parent = 0 := by
  cases h1 : i.clk_err <;> cases h2 : i.lpcpu_lock <;> by_cases h3 : i.clk_set_parent = 0 <;>
    cases st <;> simp [tegra_lp_cpu_handler, h1, h2, h3] at h ⊢

theorem lp_handler_up_fields (s : Mpdec) (i : Tick) (nt : Bool)
    (h : (tegra_lp_cpu_handler s i true nt).1 = 1) :
    (tegra_lp_cpu_handler s i true nt).2.lp_cluster = true ∧
    (tegra_lp_cpu_handler s i true nt).2.tegra_mpdec_lpcpudata =
      { s.tegra_mpdec_lpcpudata with
        on_time := i.now
        online := true
        times_cpu_hotplugged := add64 s.tegra_mpdec_lpcpudata.times_cpu_hotplugged 1 } := by
  obtain ⟨h1, h2, h3⟩ := lp_handler_succeeds s i true nt h
  unfold tegra_lp_cpu_handler
  simp only [h1, h2, h3, Bool.false_eq_true, if_false, Bool.not_true, if_true]
  exact ⟨rfl, rfl⟩

theorem lp_handler_down_fields (s : Mpdec) (i : Tick) (nt : Bool)
    (h : (tegra_lp_cpu_handler s i false nt).1 = 1) :
    (tegra_lp_cpu_handler s i false nt).2.lp_cluster = false ∧
    (tegra_lp_cpu_handler s i false nt).2.tegra_mpdec_lpcpudata =
      { s.tegra_mpdec_lpcpudata with
        online := false
        times_cpu_unplugged := add64 s.tegra_mpdec_lpcpudata.times_cpu_unplugged 1
        on_time_total := add64 s.tegra_mpdec_lpcpudata.on_time_total
          (sub64 i.now s.tegra_mpdec_lpcpudata.on_time) } := by
  obtain ⟨h1, h2, h3⟩ := lp_handler_succeeds s i false nt h
  unfold tegra_lp_cpu_handler
  simp only [h1, h2, h3, Bool.false_eq_true, if_false, Bool.not_true, if_true]
  exact ⟨rfl, rfl⟩

theorem handler_calls_success (i : Tick) (st nt : Bool) (h1 : i.clk_err = false)
    (h2 : i.lpcpu_lock = true) (h3 : i.clk_set_parent = 0) :
    handler_calls i st nt =
      [Event.tegra_lp_cpu_handler st nt, Event.clk_set_parent st,
        Event.tegra_cpu_set_speed_cap] := by
  unfold handler_calls
  simp [h1, h2, h3]

/-- C14. Companion round trip.  From a state with the companion inactive, a
successful `tegra_lp_cpu_handler(true)` followed by a successful
`tegra_lp_cpu_handler(false)` leaves the online mask of the main cores, and so
the online count, as before; the CPU clock is parented to the main cluster
again (the last reparent is the one to the main cluster and `is_lp_cluster` is
false as before); the tracked online flag of the companion is false; and the
hotplug-in and hotplug-out counters of the companion have each been
incremented once, which in their 64-bit arithmetic is a growth by exactly 1
unless the counter stood at its maximum. -/
theorem companion_round_trip (s : Mpdec) (i1 i2 : Tick) (n1 n2 : Bool)
    (hlp : s.lp_cluster = false)
    (h1 : (tegra_lp_cpu_handler s i1 true n1).1 = 1)
    (h2 : (tegra_lp_cpu_handler (tegra_lp_cpu_handler s i1 true n1).2 i2 false n2).1 = 1) :
    (tegra_lp_cpu_handler (tegra_lp_cpu_handler s i1 true n1).2 i2 false n2).2.cpu_online =
      s.cpu_online ∧
    num_online_cpus (tegra_lp_cpu_handler (tegra_lp_cpu_handler s i1 true n1).2 i2 false n2).2 =
      num_online_cpus s ∧
    (tegra_lp_cpu_handler (tegra_lp_cpu_handler s i1 true n1).2 i2 false n2).2.lp_cluster =
      s.lp_cluster ∧
    calls_since s (tegra_lp_cpu_handler (tegra_lp_cpu_handler s i1 true n1).2 i2 false n2).2 =
      [Event.tegra_lp_cpu_handler true n1, Event.clk_set_parent true,
        Event.tegra_cpu_set_speed_cap, Event.tegra_lp_cpu_handler false n2,
        Event.clk_set_parent false, Event.tegra_cpu_set_speed_cap] ∧
    (tegra_lp_cpu_handler (tegra_lp_cpu_handler s i1 true n1).2 i2 false
      n2).2.tegra_mpdec_lpcpudata.online = false ∧
    (tegra_lp_cpu_handler (tegra_lp_cpu_handler s i1 true n1).2 i2 false
      n2).2.tegra_mpdec_lpcpudata.times_cpu_hotplugged =
        add64 s.tegra_mpdec_lpcpudata.times_cpu_hotplugged 1 ∧
    (tegra_lp_cpu_handler (tegra_lp_cpu_handler s i1 true n1).2 i2 false
      n2).2.tegra_mpdec_lpcpudata.times_cpu_unplugged =
        add64 s.tegra_mpdec_lpcpudata.times_cpu_unplugged 1 ∧
    (s.tegra_mpdec_lpcpudata.times_cpu_hotplugged + 1 < U64 →
      (tegra_lp_cpu_handler (tegra_lp_cpu_handler s i1 true n1).2 i2 false
        n2).2.tegra_mpdec_lpcpudata.times_cpu_hotplugged =
          s.tegra_mpdec_lpcpudata.times_cpu_hotplugged + 1) ∧
    (s.tegra_mpdec_lpcpudata.times_cpu_unplugged + 1 < U64 →
      (tegra_lp_cpu_handler (tegra_lp_cpu_handler s i1 true n1).2 i2 false
        n2).2.tegra_mpdec_lpcpudata.times_cpu_unplugged =
          s.tegra_mpdec_lpcpudata.times_cpu_unplugged + 1) := by
  obtain ⟨a1, a2, a3⟩ := lp_handler_succeeds _ i1 true n1 h1
  obtain ⟨b1, b2, b3⟩ := lp_handler_succeeds _ i2 false n2 h2
  obtain ⟨u1, u2⟩ := lp_handler_up_fields s i1 n1 h1
  obtain ⟨d1, d2⟩ := lp_handler_down_fields _ i2 n2 h2
  have hco := ((lp_handler_online _ i2 false n2).1).trans (lp_handler_online s i1 true n1).1
  have hin : (tegra_lp_cpu_handler (tegra_lp_cpu_handler s i1 true n1).2 i2 false
      n2).2.tegra_mpdec_lpcpudata.times_cpu_hotplugged =
        add64 s.tegra_mpdec_lpcpudata.times_cpu_hotplugged 1 := by
    rw [d2, u2]
  have hout : (tegra_lp_cpu_handler (tegra_lp_cpu_handler s i1 true n1).2 i2 false
      n2).2.tegra_mpdec_lpcpudata.times_cpu_unplugged =
        add64 s.tegra_mpdec_lpcpudata.times_cpu_unplugged 1 := by
    rw [d2, u2]
  refine ⟨hco, ?_, d1.trans hlp.symm, ?_, ?_, hin, hout, ?_, ?_⟩
  · simp only [num_online_cpus, hco]
  · unfold calls_since
    rw [lp_handler_calls, lp_handler_calls, handler_calls_success i1 true n1 a1 a2 a3,
      handler_calls_success i2 false n2 b1 b2 b3, List.append_assoc, List.drop_left]
    rfl
  · rw [d2]
  · intro hlt
    rw [hin]
    exact Nat.mod_eq_of_lt hlt
  · intro hlt
    rw [hout]
    exact Nat.mod_eq_of_lt hlt

/-- Witness of C14 on the idle system: after the round trip the mask and the
cluster are as before and both counters of the companion are 1. -/
theorem companion_round_trip_witness :
    (tegra_lp_cpu_handler (tegra_lp_cpu_handler idle_state (sample_tick 30000 5) true false).2
      (sample_tick 40000 40) false false).2.cpu_online = idle_state.cpu_online ∧
    (tegra_lp_cpu_handler (tegra_lp_cpu_handler idle_state (sample_tick 30000 5) true false).2
      (sample_tick 40000 40) false false).2.lp_cluster = false ∧
    (tegra_lp_cpu_handler (tegra_lp_cpu_handler idle_state (sample_tick 30000 5) true false).2
      (sample_tick 40000 40) false false).2.tegra_mpdec_lpcpudata.online = false ∧
    (tegra_lp_cpu_handler (tegra_lp_cpu_handler idle_state (sample_tick 30000 5) true false).2
      (sample_tick 40000 40) false false).2.tegra_mpdec_lpcpudata.times_cpu_hotplugged = 1 ∧
    (tegra_lp_cpu_handler (tegra_lp_cpu_handler idle_state (sample_tick 30000 5) true false).2
      (sample_tick 40000 40) false false).2.tegra_mpdec_lpcpudata.times_cpu_unplugged = 1 :=
  ⟨(companion_round_trip idle_state (sample_tick 30000 5) (sample_tick 40000 40) false false
      (by decide) (by decide) (by decide)).1,
   (companion_round_trip idle_state (sample_tick 30000 5) (sample_tick 40000 40) false false
      (by decide) (by decide) (by decide)).2.2.1,
   (companion_round_trip idle_state (sample_tick 30000 5) (sample_tick 40000 40) false false
      (by decide) (by decide) (by decide)).2.2.2.2.1,
   (companion_round_trip idle_state (sample_tick 30000 5) (sample_tick 40000 40) false false
      (by decide) (by decide) (by decide)).2.2.2.2.2.2.2.1 (by decide),
   (companion_round_trip idle_state (sample_tick 30000 5) (sample_tick 40000 40) false false
      (by decide) (by decide) (by decide)).2.2.2.2.2.2.2.2 (by decide)⟩

theorem store_max_cpus_loop_statics (i : Tick) (input : Nat) :
    ∀ (l : List Nat) (s : Mpdec), same_statics (store_max_cpus_loop i input l s) s := by
  intro l
  induction l with
  | nil => intro s; exact same_statics_refl s
  | cons cpu rest ih =>
    intro s
    unfold store_max_cpus_loop
    split_ifs
    · exact same_statics_refl s
    · exact ih s
    · exact same_statics_trans (ih _) (mpdec_cpu_down_statics s i cpu)

theorem store_min_cpus_loop_statics (i : Tick) (input : Nat) :
    ∀ (l : List Nat) (s : Mpdec), same_statics (store_min_cpus_loop i input l s) s := by
  intro l
  induction l with
  | nil => intro s; exact same_statics_refl s
  | cons cpu rest ih =>
    intro s
    unfold store_min_cpus_loop
    split_ifs
    · exact same_statics_refl s
    · exact ih s
    · exact same_statics_trans (ih _) (mpdec_cpu_up_statics s i cpu)

theorem store_max_cpus_accepts (s : Mpdec) (i : Tick) (v : Nat) (count : Int)
    (h : ¬ (v > CONFIG_NR_CPUS ∨ v < s.tuners.min_cpus)) :
    (store_max_cpus s i (some v) count).1 = count ∧
      (store_max_cpus s i (some v) count).2.tuners = { s.tuners with max_cpus := v } := by
  unfold store_max_cpus
  simp only []
  rw [if_neg h]
  split_ifs
  · exact ⟨rfl, (store_max_cpus_loop_statics i v _ _).2.1⟩
  · exact ⟨rfl, rfl⟩

theorem store_min_cpus_accepts (s : Mpdec) (i : Tick) (v : Nat) (count : Int)
    (h : ¬ (v < 1 ∨ v > s.tuners.max_cpus)) :
    (store_min_cpus s i (some v) count).1 = count ∧
      (store_min_cpus s i (some v) count).2.tuners = { s.tuners with min_cpus := v } := by
  unfold store_min_cpus
  simp only []
  rw [if_neg h]
  split_ifs
  · exact ⟨rfl, (store_min_cpus_loop_statics i v _ _).2.1⟩
  · exact ⟨rfl, rfl⟩

theorem store_max_cpus_rejects (s : Mpdec) (i : Tick) (v : Nat) (count : Int)
    (h : v > CONFIG_NR_CPUS ∨ v < s.tuners.min_cpus) :
    store_max_cpus s i (some v) count = (-EINVAL, s) := by
  unfold store_max_cpus
  simp only []
  rw [if_pos h]

theorem store_min_cpus_rejects (s : Mpdec) (i : Tick) (v : Nat) (count : Int)
    (h : v < 1 ∨ v > s.tuners.max_cpus) :
    store_min_cpus s i (some v) count = (-EINVAL, s) := by
  unfold store_min_cpus
  simp only []
  rw [if_pos h]

/-- C15. Core-count bounds stay consistent.  A write to `max_cpus` of a value
above `CONFIG_NR_CPUS` or below `min_cpus`, a write to `min_cpus` of a value
below 1 or above `max_cpus`, and a write from which no number is read, return
`-EINVAL` and leave the whole state as it was, so both tunables keep their
values and no core is hotplugged.  Every other value is stored in its tunable,
the other tunables keep their values, and the write returns its length.  So
both stores preserve `1 <= min_cpus <= max_cpus <= CONFIG_NR_CPUS`. -/
theorem core_count_bounds (s : Mpdec) (i : Tick) (count : Int) :
    (∀ v, (v > CONFIG_NR_CPUS ∨ v < s.tuners.min_cpus) →
      store_max_cpus s i (some v) count = (-EINVAL, s)) ∧
    (∀ v, (v < 1 ∨ v > s.tuners.max_cpus) →
      store_min_cpus s i (some v) count = (-EINVAL, s)) ∧
    store_max_cpus s i none count = (-EINVAL, s) ∧
    store_min_cpus s i none count = (-EINVAL, s) ∧
    (∀ v, ¬ (v > CONFIG_NR_CPUS ∨ v < s.tuners.min_cpus) →
      (store_max_cpus s i (some v) count).1 = count ∧
      (store_max_cpus s i (some v) count).2.tuners = { s.tuners with max_cpus := v }) ∧
    (∀ v, ¬ (v < 1 ∨ v > s.tuners.max_cpus) →
      (store_min_cpus s i (some v) count).1 = count ∧
      (store_min_cpus s i (some v) count).2.tuners = { s.tuners with min_cpus := v }) ∧
    (∀ input, 1 ≤ s.tuners.min_cpus ∧ s.tuners.min_cpus ≤ s.tuners.max_cpus ∧
        s.tuners.max_cpus ≤ CONFIG_NR_CPUS →
      (1 ≤ (store_max_cpus s i input count).2.tuners.min_cpus ∧
        (store_max_cpus s i input count).2.tuners.min_cpus ≤
          (store_max_cpus s i input count).2.tuners.max_cpus ∧
        (store_max_cpus s i input count).2.tuners.max_cpus ≤ CONFIG_NR_CPUS) ∧
      (1 ≤ (store_min_cpus s i input count).2.tuners.min_cpus ∧
        (store_min_cpus s i input count).2.tuners.min_cpus ≤
          (store_min_cpus s i input count).2.tuners.max_cpus ∧
        (store_min_cpus s i input count).2.tuners.max_cpus ≤ CONFIG_NR_CPUS)) := by
  refine ⟨fun v => store_max_cpus_rejects s i v count,
    fun v => store_min_cpus_rejects s i v count, rfl, rfl,
    fun v => store_max_cpus_accepts s i v count,
    fun v => store_min_cpus_accepts s i v count, ?_⟩
  intro input hinv
  cases input with
  | none => exact ⟨hinv, hinv⟩
  | some v =>
    constructor
    · by_cases h : v > CONFIG_NR_CPUS ∨ v < s.tuners.min_cpus
      · rw [store_max_cpus_rejects s i v count h]
        exact hinv
      · rw [(store_max_cpus_accepts s i v count h).2]
        show 1 ≤ s.tuners.min_cpus ∧ s.tuners.min_cpus ≤ v ∧ v ≤ CONFIG_NR_CPUS
        omega
    · by_cases h : v < 1 ∨ v > s.tuners.max_cpus
      · rw [store_min_cpus_rejects s i v count h]
        exact hinv
      · rw [(store_min_cpus_accepts s i v count h).2]
        show 1 ≤ v ∧ v ≤ s.tuners.max_cpus ∧ s.tuners.max_cpus ≤ CONFIG_NR_CPUS
        omega

theorem issues_refl (P : Event → Prop) (s : Mpdec) : issues P s s :=
  ⟨[], (List.append_nil _).symm, fun _ h => absurd h (List.not_mem_nil _)⟩

theorem issues_trans {P : Event → Prop} {a b c : Mpdec} (h1 : issues P a b)
    (h2 : issues P b c) : issues P a c := by
  obtain ⟨e1, t1, p1⟩ := h1
  obtain ⟨e2, t2, p2⟩ := h2
  refine ⟨e1 ++ e2, by rw [t2, t1, List.append_assoc], fun e he => ?_⟩
  rcases List.mem_append.mp he with h | h
  · exact p1 e h
  · exact p2 e h

theorem issues_of_trace {P : Event → Prop} (a b : Mpdec) (evs : List Event)
    (h : b.trace = a.trace ++ evs) (hp : ∀ e ∈ evs, P e) : issues P a b :=
  ⟨evs, h, hp⟩

theorem issues_calls {P : Event → Prop} {a b : Mpdec} (h : issues P a b) :
    ∀ e ∈ calls_since a b, P e := by
  obtain ⟨evs, t, p⟩ := h
  unfold calls_since
  rw [t, List.drop_left]
  exact p

theorem issues_emit (P : Event → Prop) (s : Mpdec) (e : Event) (h : P e) :
    issues P s (emit s e) :=
  ⟨[e], rfl, fun x hx => by rw [List.mem_singleton.mp hx]; exact h⟩

theorem issues_cpu_down (s : Mpdec) (i : Tick) (cpu : Nat) (h : 1 ≤ cpu) :
    issues (fun e => e ≠ Event.cpu_down 0) s (mpdec_cpu_down s i cpu) := by
  refine ⟨_, mpdec_cpu_down_trace s i cpu, fun e he => ?_⟩
  split_ifs at he
  · rw [List.mem_singleton.mp he]
    intro hc
    injection hc with hc
    omega
  · exact absurd he (List.not_mem_nil _)

theorem issues_cpu_up (s : Mpdec) (i : Tick) (cpu : Nat) :
    issues (fun e => e ≠ Event.cpu_down 0) s (mpdec_cpu_up s i cpu) := by
  refine ⟨_, mpdec_cpu_up_trace s i cpu, fun e he => ?_⟩
  split_ifs at he
  · exact absurd he (List.not_mem_nil _)
  · rw [List.mem_singleton.mp he]
    intro hc
    cases hc

theorem issues_handler (s : Mpdec) (i : Tick) (st nt : Bool) :
    issues (fun e => e ≠ Event.cpu_down 0) s (tegra_lp_cpu_handler s i st nt).2 := by
  refine ⟨_, lp_handler_calls s i st nt, fun e he => ?_⟩
  unfold handler_calls at he
  intro hc
  rw [hc] at he
  split_ifs at he <;> simp at he

theorem issues_store_max_loop (i : Tick) (input : Nat) :
    ∀ (l : List Nat) (s : Mpdec), (∀ c ∈ l, 1 ≤ c) →
      issues (fun e => e ≠ Event.cpu_down 0) s (store_max_cpus_loop i input l s) := by
  intro l
  induction l with
  | nil => intro s _; exact issues_refl _ s
  | cons cpu rest ih =>
    intro s hl
    have hr : ∀ c ∈ rest, 1 ≤ c := fun c hc => hl c (List.mem_cons_of_mem _ hc)
    unfold store_max_cpus_loop
    split_ifs
    · exact issues_refl _ s
    · exact ih s hr
    · exact issues_trans (issues_cpu_down s i cpu (hl cpu (List.mem_cons_self _ _))) (ih _ hr)

theorem issues_store_max (s : Mpdec) (i : Tick) (input : Option Nat) (count : Int) :
    issues (fun e => e ≠ Event.cpu_down 0) s (store_max_cpus s i input count).2 := by
  unfold store_max_cpus
  cases input with
  | none => exact issues_refl _ s
  | some v =>
    simp only []
    split_ifs
    · exact issues_refl _ s
    · refine issues_trans (issues_of_trace s _ [] (List.append_nil _).symm
        (fun _ h => absurd h (List.not_mem_nil _))) (issues_store_max_loop i v _ _ ?_)
      decide
    · exact issues_of_trace s _ [] (List.append_nil _).symm
        (fun _ h => absurd h (List.not_mem_nil _))

theorem issues_suspend_cpu (i : Tick) (s : Mpdec) (cpu : Nat) :
    issues (fun e => e ≠ Event.cpu_down 0) s (suspend_cpu i s cpu) := by
  unfold suspend_cpu
  simp only []
  have h1 : issues (fun e => e ≠ Event.cpu_down 0) s (emit s (Event.unboost_cpu cpu)) :=
    issues_emit _ s _ (by intro hc; cases hc)
  split_ifs with h
  · obtain ⟨evs, t, p⟩ := issues_trans h1 (issues_cpu_down _ i cpu h.1)
    exact ⟨evs, t, p⟩
  · obtain ⟨evs, t, p⟩ := h1
    exact ⟨evs, t, p⟩

theorem issues_foldl (f : Mpdec → Nat → Mpdec)
    (hf : ∀ s c, issues (fun e => e ≠ Event.cpu_down 0) s (f s c)) :
    ∀ (l : List Nat) (s : Mpdec), issues (fun e => e ≠ Event.cpu_down 0) s (l.foldl f s) := by
  intro l
  induction l with
  | nil => intro s; exact issues_refl _ s
  | cons c rest ih => intro s; exact issues_trans (hf s c) (ih (f s c))

theorem issues_early_suspend (s : Mpdec) (i : Tick) :
    issues (fun e => e ≠ Event.cpu_down 0) s (tegra_mpdec_early_suspend s i) := by
  unfold tegra_mpdec_early_suspend
  simp only []
  have h1 : issues (fun e => e ≠ Event.cpu_down 0) s
      ((List.range CONFIG_NR_CPUS).foldl (suspend_cpu i)
        (emit s Event.cancel_delayed_work_sync)) :=
    issues_trans (issues_emit _ s _ (by intro hc; cases hc))
      (issues_foldl _ (issues_suspend_cpu i) _ _)
  split_ifs
  · exact issues_refl _ s
  · exact issues_trans h1 (issues_handler _ i true false)
  · exact issues_trans h1 (issues_emit _ _ _ (by intro hc; cases hc))
  · exact h1

theorem issues_resume_cpu (i : Tick) (s : Mpdec) (cpu : Nat) :
    issues (fun e => e ≠ Event.cpu_down 0) s (resume_cpu i s cpu) := by
  unfold resume_cpu
  split_ifs with h1 h2 h3 h4
  · exact issues_cpu_up s i cpu
  · exact issues_refl _ s
  · exact issues_cpu_down s i cpu (by omega)
  · exact issues_refl _ s
  · exact issues_refl _ s

theorem issues_late_resume (s : Mpdec) (i : Tick) :
    issues (fun e => e ≠ Event.cpu_down 0) s (tegra_mpdec_late_resume s i) := by
  have h0 : ∀ a b : Mpdec, b.trace = a.trace → issues (fun e => e ≠ Event.cpu_down 0) a b :=
    fun a b h => issues_of_trace a b [] (by rw [h, List.append_nil])
      (fun _ h => absurd h (List.not_mem_nil _))
  have hB : ∀ a : Mpdec, a.trace = s.trace →
      issues (fun e => e ≠ Event.cpu_down 0) s
        (if a.lp_cluster = true then (tegra_lp_cpu_handler a i false false).2 else a) := by
    intro a ha
    split_ifs
    · exact issues_trans (h0 s a ha) (issues_handler a i false false)
    · exact h0 s a ha
  have hC : ∀ b : Mpdec, issues (fun e => e ≠ Event.cpu_down 0) s b →
      issues (fun e => e ≠ Event.cpu_down 0) s
        (if b.tuners.scroff_single_core = true then
          (List.range' 1 (CONFIG_NR_CPUS - 1)).foldl (resume_cpu i)
            (emit { b with was_paused := true } (Event.queue_delayed_work b.tuners.delay))
         else b) := by
    intro b hb
    split_ifs
    · have h1 : issues (fun e => e ≠ Event.cpu_down 0) b
          (emit { b with was_paused := true } (Event.queue_delayed_work b.tuners.delay)) :=
        ⟨[Event.queue_delayed_work b.tuners.delay], rfl, fun x hx => by
          rw [List.mem_singleton.mp hx]
          intro hc
          cases hc⟩
      exact issues_trans hb (issues_trans h1
        (issues_foldl (resume_cpu i) (fun a c => issues_resume_cpu i a c) _ _))
    · exact hb
  unfold tegra_mpdec_late_resume
  exact hC _ (hB _ rfl)

theorem get_slowest_cpu_pos (s : Mpdec) (i : Tick) (hr : get_rate i 0 ≠ 0)
    (hn : 1 < num_online_cpus s) : 1 ≤ get_slowest_cpu s i := by
  have hR : i.cpu_rate / 1000 ≠ 0 := by
    unfold get_rate at hr
    simpa [CONFIG_NR_CPUS, CpuTegra.CONFIG_NR_CPUS] using hr
  unfold num_online_cpus at hn
  unfold get_slowest_cpu
  cases h0 : s.cpu_online 0 <;> cases h1 : s.cpu_online 1 <;> cases h2 : s.cpu_online 2 <;>
    cases h3 : s.cpu_online 3 <;>
    simp [CONFIG_NR_CPUS, CpuTegra.CONFIG_NR_CPUS, List.range, List.range.loop,
      get_slowest_cpu_step, get_rate, h0, h1, h2, h3, hR] at hn ⊢

theorem tick_never_downs_core_zero (s : Mpdec) (i : Tick) (hr : get_rate i 0 ≠ 0) :
    Event.cpu_down 0 ∉ tick_calls s i := by
  intro hm
  obtain ⟨evs, he, hs⟩ := tick_shape s i
  rw [he] at hm
  rcases List.mem_append.mp hm with hm | hm
  · rcases hs with hs | ⟨hd, hs⟩
    · rw [hs] at hm
      simp at hm
    · rcases hs with h | ⟨h1, h⟩ | ⟨_, h⟩ | ⟨_, _, h⟩ | ⟨_, _, h⟩
      · rw [h] at hm
        simp at hm
      · rw [h] at hm
        have hz : 0 = get_slowest_cpu (decided s i) i := by
          simpa using hm
        obtain ⟨d1, d2, _⟩ := decided_frame s i
        have hdown := mp_decision_down (resync s) i (d1.symm.trans h1)
        have hn : 1 < num_online_cpus (decided s i) := by
          have e : num_online_cpus (decided s i) = num_online_cpus (resync s) := by
            simp only [num_online_cpus, d2, (resync_frame s).1]
          rw [e]
          exact lt_of_le_of_lt (le_max_left _ _) hdown
        have := get_slowest_cpu_pos (decided s i) i hr hn
        omega
      · rw [h] at hm
        simp at hm
      · rw [h] at hm
        unfold handler_calls at hm
        split_ifs at hm <;> simp at hm
      · rw [h] at hm
        unfold handler_calls at hm
        split_ifs at hm <;> simp at hm
  · obtain ⟨d, hd⟩ := mem_requeue_calls _ _ hm
    cases hd

/-- C16, at the failing input.  Core 0 is handed to `mpdec_cpu_down` by a ScaleDown tick when the CPU
clock reports a rate below 1 kHz: with cores 0 and 1 online, low load and the
down time reached, `mp_decision` returns ScaleDown, `get_slowest_cpu` returns
its initial value 0, and the run of the work thread calls `cpu_down(0)`.  With
a rate of at least 1 kHz no run of the work thread calls `cpu_down(0)`, and
`store_max_cpus`, `tegra_mpdec_early_suspend` and `tegra_mpdec_late_resume`
never call `cpu_down(0)`. -/
theorem core_zero_taken_offline :
    num_online_cpus two_core_state = 2 ∧
    (mp_decision two_core_state stalled_tick).1 = TEGRA_MPDEC_DOWN ∧
    get_slowest_cpu two_core_state stalled_tick = 0 ∧
    tick_calls two_core_state stalled_tick =
      [Event.unboost_cpu 0, Event.cpu_down 0, Event.queue_delayed_work 130] ∧
    (∀ (s : Mpdec) (i : Tick), get_rate i 0 ≠ 0 → Event.cpu_down 0 ∉ tick_calls s i) ∧
    (∀ (s : Mpdec) (i : Tick) (input : Option Nat) (count : Int),
      Event.cpu_down 0 ∉ calls_since s (store_max_cpus s i input count).2) ∧
    (∀ (s : Mpdec) (i : Tick),
      Event.cpu_down 0 ∉ calls_since s (tegra_mpdec_early_suspend s i)) ∧
    (∀ (s : Mpdec) (i : Tick),
      Event.cpu_down 0 ∉ calls_since s (tegra_mpdec_late_resume s i)) :=
  ⟨by decide, by decide, by decide, by decide, tick_never_downs_core_zero,
    fun s i input count h => issues_calls (issues_store_max s i input count) _ h rfl,
    fun s i h => issues_calls (issues_early_suspend s i) _ h rfl,
    fun s i h => issues_calls (issues_late_resume s i) _ h rfl⟩

theorem up_candidate_up_rate (s : Mpdec) (i : Tick) (n : Nat)
    (h : up_candidate s i n = TEGRA_MPDEC_UP) : s.tuners.idle_freq < get_slowest_cpu_rate i := by
  by_contra hc
  have hle : get_slowest_cpu_rate i ≤ s.tuners.idle_freq := Nat.le_of_not_lt hc
  unfold up_candidate at h
  simp only [] at h
  split_ifs at h with h1 h2
  exact h2 ⟨hle, by simp⟩

theorem up_candidate_downgraded (s : Mpdec) (i : Tick) (n : Nat)
    (hle : get_slowest_cpu_rate i ≤ s.tuners.idle_freq) :
    up_candidate s i n = TEGRA_MPDEC_LPCPU_DOWN ∨ up_candidate s i n = TEGRA_MPDEC_IDLE := by
  unfold up_candidate
  simp only []
  split_ifs with h1 h2 h3 h4 h5
  · right; rfl
  · exact absurd ⟨hle, by simp⟩ h2
  · right; rfl
  · left; rfl
  · right; rfl
  · right; rfl

theorem down_candidate_downgraded (s : Mpdec) (i : Tick) (n : Nat)
    (hgt : s.tuners.idle_freq < get_slowest_cpu_rate i) :
    down_candidate s i n = TEGRA_MPDEC_IDLE := by
  unfold down_candidate
  simp only []
  rw [if_pos hgt]

theorem down_candidate_rate (s : Mpdec) (i : Tick) (n : Nat)
    (h : down_candidate s i n ≠ TEGRA_MPDEC_IDLE) :
    get_slowest_cpu_rate i ≤ s.tuners.idle_freq := by
  by_contra hc
  exact h (down_candidate_downgraded s i n (Nat.lt_of_not_le hc))

theorem up_candidate_lp_down_kept (s : Mpdec) (i : Tick) (n : Nat)
    (h1 : ¬ ((!s.lp_cluster) = true ∧ n < s.tuners.max_cpus))
    (h2 : i.rq_depth > TEGRA_MPDEC_LPCPU_RQ_DOWN) :
    up_candidate s i n = TEGRA_MPDEC_LPCPU_DOWN := by
  unfold up_candidate
  simp only []
  rw [if_neg h1, if_pos h2, if_neg]
  intro h
  exact h.2 rfl

theorem up_candidate_ne_lp_up (s : Mpdec) (i : Tick) (n : Nat) :
    up_candidate s i n ≠ TEGRA_MPDEC_LPCPU_UP := by
  unfold up_candidate
  simp only []
  split_ifs <;> simp

theorem decide_state_rate (s : Mpdec) (i : Tick) (tt : Nat) :
    ((decide_state s i tt).1 = TEGRA_MPDEC_UP →
      s.tuners.idle_freq < get_slowest_cpu_rate i) ∧
    ((decide_state s i tt).1 = TEGRA_MPDEC_DOWN →
      get_slowest_cpu_rate i ≤ s.tuners.idle_freq) ∧
    ((decide_state s i tt).1 = TEGRA_MPDEC_LPCPU_UP →
      get_slowest_cpu_rate i ≤ s.tuners.idle_freq) := by
  rw [decide_state_fst]
  refine ⟨fun h => ?_, fun h => ?_, fun h => ?_⟩
  · split_ifs at h
    · exact up_candidate_up_rate s i _ h
    · exact absurd h (down_candidate_ne_up s i _)
  · split_ifs at h
    · exact absurd h (up_candidate_ne_down s i _)
    · exact down_candidate_rate s i _ (by rw [h]; simp)
  · split_ifs at h
    · exact absurd h (up_candidate_ne_lp_up s i _)
    · exact down_candidate_rate s i _ (by rw [h]; simp)

/-- C21. Idle-frequency guards.  `mp_decision` returns ScaleUp only when
`get_slowest_cpu_rate` is above `tuners.idle_freq`, and ScaleDown or
CompanionUp only when it is at or below `tuners.idle_freq`.  The test of the up
branch turns every candidate but CompanionDown into Idle, the test of the down
branch turns every candidate into Idle, and a CompanionDown candidate (load
above `TEGRA_MPDEC_LPCPU_RQ_DOWN` where ScaleUp is not chosen) is returned
whatever the frequency is. -/
theorem idle_frequency_guards (s : Mpdec) (i : Tick) :
    ((mp_decision s i).1 = TEGRA_MPDEC_UP → s.tuners.idle_freq < get_slowest_cpu_rate i) ∧
    ((mp_decision s i).1 = TEGRA_MPDEC_DOWN → get_slowest_cpu_rate i ≤ s.tuners.idle_freq) ∧
    ((mp_decision s i).1 = TEGRA_MPDEC_LPCPU_UP →
      get_slowest_cpu_rate i ≤ s.tuners.idle_freq) ∧
    (∀ n, get_slowest_cpu_rate i ≤ s.tuners.idle_freq →
      up_candidate s i n = TEGRA_MPDEC_LPCPU_DOWN ∨ up_candidate s i n = TEGRA_MPDEC_IDLE) ∧
    (∀ n, s.tuners.idle_freq < get_slowest_cpu_rate i →
      down_candidate s i n = TEGRA_MPDEC_IDLE) ∧
    (∀ n, ¬ ((!s.lp_cluster) = true ∧ n < s.tuners.max_cpus) →
      i.rq_depth > TEGRA_MPDEC_LPCPU_RQ_DOWN →
      up_candidate s i n = TEGRA_MPDEC_LPCPU_DOWN) := by
  have key := fun tt => decide_state_rate s i tt
  refine ⟨fun h => ?_, fun h => ?_, fun h => ?_, fun n => up_candidate_downgraded s i n,
    fun n => down_candidate_downgraded s i n, fun n => up_candidate_lp_down_kept s i n⟩
  · rw [mp_decision_fst] at h
    split_ifs at h <;> exact (key _).1 h
  · rw [mp_decision_fst] at h
    split_ifs at h <;> exact (key _).2.1 h
  · rw [mp_decision_fst] at h
    split_ifs at h <;> exact (key _).2.2 h

theorem lp_possible_spec (s : Mpdec) (i : Tick) (h : lp_possible s i = true) :
    (∀ c, 1 ≤ c → c < CONFIG_NR_CPUS → s.cpu_online c = false) ∧
      get_rate i 0 ≤ s.idle_top_freq := by
  unfold lp_possible at h
  split_ifs at h with h1 h2
  refine ⟨fun c hc1 hc2 => ?_, Nat.le_of_not_lt h2⟩
  have hnil : (List.range CONFIG_NR_CPUS).filter
      (fun c => decide (1 ≤ c) && s.cpu_online c) = [] := by
    by_contra hne
    exact h1 hne
  have hmem := List.filter_eq_nil_iff.mp hnil c (List.mem_range.mpr hc2)
  cases hco : s.cpu_online c
  · rfl
  · exact absurd (by simp [hc1, hco]) hmem

theorem tick_calls_act (s : Mpdec) (i : Tick) (hd : decides s i = true) :
    tick_calls s i = calls_since (decided s i) (act (decided s i) i) ++
      requeue_calls (tegra_mpdec_work_thread s i) := by
  obtain ⟨evs, he, _⟩ := act_calls (decided s i) i
  have hc : calls_since (decided s i) (act (decided s i) i) = evs := by
    unfold calls_since
    rw [he, List.drop_left]
  rw [hc]
  apply tick_calls_eq
  rw [tick_decides s i hd, requeue_trace_eq, he, (decided_frame s i).2.2.2.2.2.2.1,
    requeue_calls_congr _ _ (requeue_statics _), List.append_assoc]

theorem act_handler_up (s : Mpdec) (i : Tick) (nt : Bool)
    (h : Event.tegra_lp_cpu_handler true nt ∈ calls_since s (act s i)) :
    s.lp_cluster = false ∧ lp_possible s i = true := by
  obtain ⟨evs, he, hs⟩ := act_calls s i
  have hc : calls_since s (act s i) = evs := by
    unfold calls_since
    rw [he, List.drop_left]
  rw [hc] at h
  obtain ⟨_, _, hst, hlp⟩ := handler_mem_act_shape s i evs true nt hs h
  have hst2 : s.state = TEGRA_MPDEC_LPCPU_UP := hst
  refine ⟨by simpa using hlp, ?_⟩
  by_cases hcond : (!s.lp_cluster) = true ∧ lp_possible s i = true
  · exact hcond.2
  · have ha := act_lp_up s i hst2
    rw [if_neg hcond] at ha
    rw [ha] at he
    have hnil : evs = [] := by
      have : s.trace ++ [] = s.trace ++ evs := by
        rw [List.append_nil]
        exact he
      exact (List.append_cancel_left this).symm
    rw [hnil] at h
    exact absurd h (List.not_mem_nil _)

/-- C23. Companion and main cores are mutually exclusive under the decision
tick.  A run of the work thread calls `tegra_lp_cpu_handler(true)` only when
the companion is inactive and `lp_possible` holds, that is when no core other
than core 0 is online and the frequency of core 0 is at or below
`idle_top_freq`; and it calls `cpu_up`, through `mpdec_cpu_up`, only when the
companion cluster is inactive. -/
theorem companion_exclusion (s : Mpdec) (i : Tick) :
    (∀ nt, Event.tegra_lp_cpu_handler true nt ∈ tick_calls s i →
      s.lp_cluster = false ∧ lp_possible s i = true ∧
      (∀ c, 1 ≤ c → c < CONFIG_NR_CPUS → s.cpu_online c = false) ∧
      get_rate i 0 ≤ s.idle_top_freq) ∧
    (∀ c, Event.cpu_up c ∈ tick_calls s i → s.lp_cluster = false) := by
  obtain ⟨d1, d2, _, d4, _, _, _, d8⟩ := decided_frame s i
  refine ⟨fun nt hm => ?_, fun c hm => ?_⟩
  · cases hd : decides s i
    · obtain ⟨evs, he, hs⟩ := tick_shape s i
      rcases hs with hs | ⟨hd2, _⟩
      · rw [he, hs] at hm
        obtain ⟨d, hq⟩ := mem_requeue_calls _ _ (by simpa using hm)
        cases hq
      · rw [hd] at hd2
        cases hd2
    · rw [tick_calls_act s i hd] at hm
      rcases List.mem_append.mp hm with hm | hm
      · obtain ⟨a, b⟩ := act_handler_up (decided s i) i nt hm
        have hpo : lp_possible s i = true := by
          rw [← b]
          exact (lp_possible_congr _ _ i d2 d8).symm
        exact ⟨d4.symm.trans a, hpo, (lp_possible_spec s i hpo).1, (lp_possible_spec s i hpo).2⟩
      · obtain ⟨d, hq⟩ := mem_requeue_calls _ _ hm
        cases hq
  · obtain ⟨evs, he, hs⟩ := tick_shape s i
    rw [he] at hm
    rcases List.mem_append.mp hm with hm | hm
    · rcases hs with hs | ⟨hd, hs⟩
      · rw [hs] at hm
        exact absurd hm (List.not_mem_nil _)
      · rcases hs with h | ⟨_, h⟩ | ⟨h1, h⟩ | ⟨_, _, h⟩ | ⟨_, _, h⟩
        · rw [h] at hm
          exact absurd hm (List.not_mem_nil _)
        · rw [h] at hm
          simp at hm
        · have hup := mp_decision_up (resync s) i (d1.symm.trans h1)
          exact (resync_frame s).2.2.1.symm.trans hup.2.2
        · rw [h] at hm
          unfold handler_calls at hm
          split_ifs at hm <;> simp at hm
        · rw [h] at hm
          unfold handler_calls at hm
          split_ifs at hm <;> simp at hm
    · obtain ⟨d, hq⟩ := mem_requeue_calls _ _ hm
      cases hq

theorem get?_of_lt {α : Type} (l : List α) (k : Nat) (h : k < l.length) :
    ∃ v, l.get? k = some v ∧ ∀ d, l.getD k d = v := by
  refine ⟨l[k], ?_, fun d => ?_⟩
  · rw [List.get?_eq_getElem?]
    exact List.getElem?_eq_getElem h
  · rw [List.getD_eq_getElem?_getD, List.getElem?_eq_getElem h]
    rfl

theorem num_online_cpus_le (s : Mpdec) : num_online_cpus s ≤ CONFIG_NR_CPUS := by
  unfold num_online_cpus
  exact (List.length_filter_le _ _).trans (by simp)

theorem decide_state_checked_eq (s : Mpdec) (i : Tick) (tt n : Nat)
    (hN : s.NwNs_Threshold.length = 8) (hT : s.TwTs_Threshold.length = 8)
    (h4 : n ≤ CONFIG_NR_CPUS) :
    decide_state_checked s i tt n =
      some (if n ≠ 0 then
        if n < CONFIG_NR_CPUS ∧ i.rq_depth ≥ s.NwNs_Threshold.getD ((n - 1) * 2) 0 then
          if tt ≥ s.TwTs_Threshold.getD ((n - 1) * 2) 0 then (up_candidate s i n, tt)
          else (TEGRA_MPDEC_IDLE, tt)
        else if i.rq_depth ≤ s.NwNs_Threshold.getD ((n - 1) * 2 + 1) 0 then
          if tt ≥ s.TwTs_Threshold.getD ((n - 1) * 2 + 1) 0 then (down_candidate s i n, tt)
          else (TEGRA_MPDEC_IDLE, tt)
        else (TEGRA_MPDEC_IDLE, 0)
      else (TEGRA_MPDEC_IDLE, 0)) := by
  have h4' : n ≤ 4 := h4
  by_cases h0 : n ≠ 0
  · obtain ⟨a, ha, ha'⟩ := get?_of_lt s.NwNs_Threshold ((n - 1) * 2) (by omega)
    obtain ⟨b, hb, hb'⟩ := get?_of_lt s.NwNs_Threshold ((n - 1) * 2 + 1) (by omega)
    obtain ⟨c, hc, hc'⟩ := get?_of_lt s.TwTs_Threshold ((n - 1) * 2) (by omega)
    obtain ⟨d, hd, hd'⟩ := get?_of_lt s.TwTs_Threshold ((n - 1) * 2 + 1) (by omega)
    unfold decide_state_checked
    simp only [ha, hb, hc, hd, ha', hb', hc', hd', Option.map_some']
    rw [if_pos h0, if_pos h0]
    by_cases h1 : n < CONFIG_NR_CPUS
    · by_cases h2 : i.rq_depth ≥ a
      · simp only [h1, h2, if_true, decide_True, and_self]
        split_ifs <;> rfl
      · simp only [h1, h2, if_true, decide_False, and_false, if_false]
        split_ifs <;> rfl
    · simp only [h1, if_false, false_and]
      split_ifs <;> rfl
  · unfold decide_state_checked
    rw [if_neg h0, if_neg h0]

/-- C25. Threshold-table indexing is in range.  With both tables of 8
entries and an online count `n` from 1 to `CONFIG_NR_CPUS = 4`, the indices
`2(n-1)` and `2(n-1)+1` at which `mp_decision` reads them are below 8, and the
decision with checked reads never hits a read outside a table; for `n = 0` it
reads no entry at all, whatever the tables are.  The online count that
`mp_decision` uses is at most `CONFIG_NR_CPUS`, and on it the decision with
checked reads is the decision of `mp_decision`. -/
theorem threshold_reads_in_range (s : Mpdec) (i : Tick) (tt n : Nat) :
    (s.NwNs_Threshold.length = 8 → s.TwTs_Threshold.length = 8 →
      1 ≤ n → n ≤ CONFIG_NR_CPUS →
      (n - 1) * 2 < 8 ∧ (n - 1) * 2 + 1 < 8 ∧ decide_state_checked s i tt n ≠ none) ∧
    decide_state_checked s i tt 0 = some (TEGRA_MPDEC_IDLE, 0) ∧
    num_online_cpus s ≤ CONFIG_NR_CPUS ∧
    (s.NwNs_Threshold.length = 8 → s.TwTs_Threshold.length = 8 →
      decide_state_checked s i tt (num_online_cpus s) = some (decide_state s i tt)) := by
  refine ⟨fun hN hT h1 h4 => ?_, rfl, num_online_cpus_le s, fun hN hT => ?_⟩
  · have h4' : n ≤ 4 := h4
    refine ⟨by omega, by omega, ?_⟩
    rw [decide_state_checked_eq s i tt n hN hT h4]
    exact Option.some_ne_none _
  · rw [decide_state_checked_eq s i tt _ hN hT (num_online_cpus_le s)]
    rfl

/-- The checked decision on a system without tables: with no core online it
reads no entry, with one core online the first read is outside. -/
theorem threshold_reads_without_tables :
    decide_state_checked no_core_state (sample_tick 30000 5) 0
      (num_online_cpus no_core_state) = some (TEGRA_MPDEC_IDLE, 0) ∧
    decide_state_checked no_core_state (sample_tick 30000 5) 0 1 = none := by
  decide

theorem mpdec_cpu_down_offline (s : Mpdec) (i : Tick) (c : Nat) (h : s.cpu_online c = false) :
    mpdec_cpu_down s i c = s := by
  unfold mpdec_cpu_down
  rw [h]
  rfl

theorem mpdec_cpu_up_is_online (s : Mpdec) (i : Tick) (c : Nat) (h : s.cpu_online c = true) :
    mpdec_cpu_up s i c = s := by
  unfold mpdec_cpu_up
  rw [h]
  rfl

theorem mpdec_cpu_down_cpudata (s : Mpdec) (i : Tick) (c : Nat) (h : s.cpu_online c = true) :
    (mpdec_cpu_down s i c).tegra_mpdec_cpudata =
      Function.update s.tegra_mpdec_cpudata c
        { s.tegra_mpdec_cpudata c with
          online := false
          on_time_total := add64 (s.tegra_mpdec_cpudata c).on_time_total
            (sub64 i.now (s.tegra_mpdec_cpudata c).on_time)
          times_cpu_unplugged := add64 (s.tegra_mpdec_cpudata c).times_cpu_unplugged 1 } ∧
    (mpdec_cpu_down s i c).tegra_mpdec_lpcpudata = s.tegra_mpdec_lpcpudata := by
  unfold mpdec_cpu_down
  rw [if_pos h]
  simp only []
  split_ifs <;> exact ⟨rfl, rfl⟩

theorem mpdec_cpu_up_cpudata (s : Mpdec) (i : Tick) (c : Nat) (h : s.cpu_online c = false) :
    (mpdec_cpu_up s i c).tegra_mpdec_cpudata =
      Function.update s.tegra_mpdec_cpudata c
        { s.tegra_mpdec_cpudata c with
          on_time := i.now
          online := true
          times_cpu_hotplugged := add64 (s.tegra_mpdec_cpudata c).times_cpu_hotplugged 1 } ∧
    (mpdec_cpu_up s i c).tegra_mpdec_lpcpudata = s.tegra_mpdec_lpcpudata := by
  have hc : (!s.cpu_online c) = true := by simp [h]
  unfold mpdec_cpu_up
  rw [if_pos hc]
  simp only []
  split_ifs <;> exact ⟨rfl, rfl⟩

theorem add64_one (x : Nat) (h : x + 1 < U64) : add64 x 1 = x + 1 :=
  Nat.mod_eq_of_lt h

theorem add64_sub64 (t now since : Nat) (h1 : since ≤ now) (h2 : now < U64)
    (h3 : t + (now - since) < U64) : add64 t (sub64 now since) = t + (now - since) := by
  have hs : since < U64 := lt_of_le_of_lt h1 h2
  have e1 : sub64 now since = now - since := by
    unfold sub64
    rw [Nat.mod_eq_of_lt h2, Nat.mod_eq_of_lt hs]
    have : now + U64 - since = (now - since) + U64 := by omega
    rw [this, Nat.add_mod_right]
    exact Nat.mod_eq_of_lt (by omega)
  unfold add64
  rw [e1]
  exact Nat.mod_eq_of_lt h3

/-- C26. Core transition accounting.  `mpdec_cpu_down(c)` leaves the state as
it is when core `c` is offline; otherwise, in the record of core `c`, it sets
the tracked online flag to false, adds `now - on_time` to `on_time_total` and
increments `times_cpu_unplugged`, and it leaves `on_time` and
`times_cpu_hotplugged` as they are.  `mpdec_cpu_up(c)` leaves the state as it
is when core `c` is online; otherwise it sets `on_time` to `now`, the tracked
flag to true and increments `times_cpu_hotplugged`, and it leaves
`on_time_total` and `times_cpu_unplugged` as they are.  Neither changes the
record of another core or of the companion.  The additions are those of the
64-bit fields: an increment is growth by exactly 1, and no counter decreases,
for every counter below `2^64 - 1`; the time added is `now - on_time` for
`on_time <= now` when the sum fits 64 bits. -/
theorem core_transition_accounting (s : Mpdec) (i : Tick) (c : Nat) :
    (s.cpu_online c = false → mpdec_cpu_down s i c = s) ∧
    (s.cpu_online c = true →
      ((mpdec_cpu_down s i c).tegra_mpdec_cpudata c).online = false ∧
      ((mpdec_cpu_down s i c).tegra_mpdec_cpudata c).on_time_total =
        add64 (s.tegra_mpdec_cpudata c).on_time_total
          (sub64 i.now (s.tegra_mpdec_cpudata c).on_time) ∧
      ((mpdec_cpu_down s i c).tegra_mpdec_cpudata c).times_cpu_unplugged =
        add64 (s.tegra_mpdec_cpudata c).times_cpu_unplugged 1 ∧
      ((mpdec_cpu_down s i c).tegra_mpdec_cpudata c).on_time =
        (s.tegra_mpdec_cpudata c).on_time ∧
      ((mpdec_cpu_down s i c).tegra_mpdec_cpudata c).times_cpu_hotplugged =
        (s.tegra_mpdec_cpudata c).times_cpu_hotplugged ∧
      ((s.tegra_mpdec_cpudata c).times_cpu_unplugged + 1 < U64 →
        ((mpdec_cpu_down s i c).tegra_mpdec_cpudata c).times_cpu_unplugged =
          (s.tegra_mpdec_cpudata c).times_cpu_unplugged + 1) ∧
      ((s.tegra_mpdec_cpudata c).on_time ≤ i.now → i.now < U64 →
        (s.tegra_mpdec_cpudata c).on_time_total +
          (i.now - (s.tegra_mpdec_cpudata c).on_time) < U64 →
        ((mpdec_cpu_down s i c).tegra_mpdec_cpudata c).on_time_total =
          (s.tegra_mpdec_cpudata c).on_time_total +
            (i.now - (s.tegra_mpdec_cpudata c).on_time))) ∧
    (s.cpu_online c = true → mpdec_cpu_up s i c = s) ∧
    (s.cpu_online c = false →
      ((mpdec_cpu_up s i c).tegra_mpdec_cpudata c).online = true ∧
      ((mpdec_cpu_up s i c).tegra_mpdec_cpudata c).on_time = i.now ∧
      ((mpdec_cpu_up s i c).tegra_mpdec_cpudata c).times_cpu_hotplugged =
        add64 (s.tegra_mpdec_cpudata c).times_cpu_hotplugged 1 ∧
      ((mpdec_cpu_up s i c).tegra_mpdec_cpudata c).on_time_total =
        (s.tegra_mpdec_cpudata c).on_time_total ∧
      ((mpdec_cpu_up s i c).tegra_mpdec_cpudata c).times_cpu_unplugged =
        (s.tegra_mpdec_cpudata c).times_cpu_unplugged ∧
      ((s.tegra_mpdec_cpudata c).times_cpu_hotplugged + 1 < U64 →
        ((mpdec_cpu_up s i c).tegra_mpdec_cpudata c).times_cpu_hotplugged =
          (s.tegra_mpdec_cpudata c).times_cpu_hotplugged + 1)) ∧
    (∀ c', c' ≠ c →
      (mpdec_cpu_down s i c).tegra_mpdec_cpudata c' = s.tegra_mpdec_cpudata c' ∧
      (mpdec_cpu_up s i c).tegra_mpdec_cpudata c' = s.tegra_mpdec_cpudata c') ∧
    (mpdec_cpu_down s i c).tegra_mpdec_lpcpudata = s.tegra_mpdec_lpcpudata ∧
    (mpdec_cpu_up s i c).tegra_mpdec_lpcpudata = s.tegra_mpdec_lpcpudata ∧
    (∀ c', (s.tegra_mpdec_cpudata c').times_cpu_unplugged + 1 < U64 →
      (s.tegra_mpdec_cpudata c').times_cpu_hotplugged + 1 < U64 →
      (s.tegra_mpdec_cpudata c').times_cpu_unplugged ≤
        ((mpdec_cpu_down s i c).tegra_mpdec_cpudata c').times_cpu_unplugged ∧
      (s.tegra_mpdec_cpudata c').times_cpu_hotplugged ≤
        ((mpdec_cpu_down s i c).tegra_mpdec_cpudata c').times_cpu_hotplugged ∧
      (s.tegra_mpdec_cpudata c').times_cpu_unplugged ≤
        ((mpdec_cpu_up s i c).tegra_mpdec_cpudata c').times_cpu_unplugged ∧
      (s.tegra_mpdec_cpudata c').times_cpu_hotplugged ≤
        ((mpdec_cpu_up s i c).tegra_mpdec_cpudata c').times_cpu_hotplugged) := by
  have hdown : ∀ c', (mpdec_cpu_down s i c).tegra_mpdec_cpudata c' =
      if s.cpu_online c = true ∧ c' = c then
        { s.tegra_mpdec_cpudata c with
          online := false
          on_time_total := add64 (s.tegra_mpdec_cpudata c).on_time_total
            (sub64 i.now (s.tegra_mpdec_cpudata c).on_time)
          times_cpu_unplugged := add64 (s.tegra_mpdec_cpudata c).times_cpu_unplugged 1 }
      else s.tegra_mpdec_cpudata c' := by
    intro c'
    cases h : s.cpu_online c
    · rw [mpdec_cpu_down_offline s i c h]
      simp
    · rw [(mpdec_cpu_down_cpudata s i c h).1]
      by_cases hc : c' = c
      · subst hc
        simp
      · simp [hc]
  have hup : ∀ c', (mpdec_cpu_up s i c).tegra_mpdec_cpudata c' =
      if s.cpu_online c = false ∧ c' = c then
        { s.tegra_mpdec_cpudata c with
          on_time := i.now
          online := true
          times_cpu_hotplugged := add64 (s.tegra_mpdec_cpudata c).times_cpu_hotplugged 1 }
      else s.tegra_mpdec_cpudata c' := by
    intro c'
    cases h : s.cpu_online c
    · rw [(mpdec_cpu_up_cpudata s i c h).1]
      by_cases hc : c' = c
      · subst hc
        simp
      · simp [hc]
    · rw [mpdec_cpu_up_is_online s i c h]
      simp
  refine ⟨mpdec_cpu_down_offline s i c, fun h => ?_, mpdec_cpu_up_is_online s i c,
    fun h => ?_, fun c' hc => ?_, ?_, ?_, fun c' h1 h2 => ?_⟩
  · rw [hdown c, if_pos ⟨h, rfl⟩]
    exact ⟨rfl, rfl, rfl, rfl, rfl, fun hlt => add64_one _ hlt,
      fun a b d => add64_sub64 _ _ _ a b d⟩
  · rw [hup c, if_pos ⟨h, rfl⟩]
    exact ⟨rfl, rfl, rfl, rfl, rfl, fun hlt => add64_one _ hlt⟩
  · rw [hdown c', hup c', if_neg (fun h => hc h.2), if_neg (fun h => hc h.2)]
    exact ⟨rfl, rfl⟩
  · cases h : s.cpu_online c
    · rw [mpdec_cpu_down_offline s i c h]
    · exact (mpdec_cpu_down_cpudata s i c h).2
  · cases h : s.cpu_online c
    · exact (mpdec_cpu_up_cpudata s i c h).2
    · rw [mpdec_cpu_up_is_online s i c h]
  · rw [hdown c', hup c']
    refine ⟨?_, ?_, ?_, ?_⟩
    · split_ifs with h
      · obtain ⟨_, rfl⟩ := h
        show _ ≤ add64 _ 1
        rw [add64_one _ h1]
        omega
      · exact le_refl _
    · split_ifs with h
      · obtain ⟨_, rfl⟩ := h
        exact le_refl _
      · exact le_refl _
    · split_ifs with h
      · obtain ⟨_, rfl⟩ := h
        exact le_refl _
      · exact le_refl _
    · split_ifs with h
      · obtain ⟨_, rfl⟩ := h
        show _ ≤ add64 _ 1
        rw [add64_one _ h2]
        omega
      · exact le_refl _

theorem mpdec_cpu_down_requests (s : Mpdec) (i : Tick) (c : Nat) :
    (mpdec_cpu_down s i c).lpup_req = s.lpup_req ∧
      (mpdec_cpu_down s i c).lpdown_req = s.lpdown_req := by
  unfold mpdec_cpu_down
  simp only []
  split_ifs <;> exact ⟨rfl, rfl⟩

theorem mpdec_cpu_up_requests (s : Mpdec) (i : Tick) (c : Nat) :
    (mpdec_cpu_up s i c).lpup_req = s.lpup_req ∧
      (mpdec_cpu_up s i c).lpdown_req = s.lpdown_req := by
  unfold mpdec_cpu_up
  simp only []
  split_ifs <;> exact ⟨rfl, rfl⟩

theorem lp_handler_requests (s : Mpdec) (i : Tick) (st nt : Bool) :
    (tegra_lp_cpu_handler s i st nt).2.lpup_req = s.lpup_req ∧
      (tegra_lp_cpu_handler s i st nt).2.lpdown_req = s.lpdown_req := by
  unfold tegra_lp_cpu_handler
  simp only []
  split_ifs <;> exact ⟨rfl, rfl⟩

theorem act_requests (s : Mpdec) (i : Tick) :
    (s.state = TEGRA_MPDEC_DISABLED →
      (act s i).lpup_req = s.lpup_req ∧ (act s i).lpdown_req = s.lpdown_req) ∧
    (s.state = TEGRA_MPDEC_IDLE ∨ s.state = TEGRA_MPDEC_UP ∨ s.state = TEGRA_MPDEC_DOWN →
      (act s i).lpup_req = 0 ∧ (act s i).lpdown_req = 0) ∧
    (s.state = TEGRA_MPDEC_LPCPU_UP →
      (act s i).lpdown_req = 0 ∧
      ((act s i).lpup_req = s.lpup_req ∨ (act s i).lpup_req = 0 ∨
        ((act s i).lpup_req = (s.lpup_req + 1) % U32 ∧
          ¬ (s.lpup_req + 1) % U32 > s.tuners.lp_cpu_up_hysteresis))) ∧
    (s.state = TEGRA_MPDEC_LPCPU_DOWN →
      (act s i).lpup_req = 0 ∧
      ((act s i).lpdown_req = s.lpdown_req ∨ (act s i).lpdown_req = 0 ∨
        ((act s i).lpdown_req = (s.lpdown_req + 1) % U32 ∧
          ¬ (s.lpdown_req + 1) % U32 > s.tuners.lp_cpu_down_hysteresis))) := by
  refine ⟨fun h => ?_, fun h => ?_, fun h => ?_, fun h => ?_⟩
  · rw [act_disabled s i h]
    exact ⟨rfl, rfl⟩
  · rcases h with h | h | h
    · rw [act_idle s i h]
      exact ⟨rfl, rfl⟩
    · rw [act_scale_up s i h]
      split_ifs
      · exact mpdec_cpu_up_requests (clear_requests s) i _
      · exact ⟨rfl, rfl⟩
      · exact ⟨rfl, rfl⟩
      · exact ⟨rfl, rfl⟩
    · rw [act_scale_down s i h]
      split_ifs
      · exact mpdec_cpu_down_requests (emit (clear_requests s) _) i _
      · exact ⟨rfl, rfl⟩
      · exact ⟨rfl, rfl⟩
      · exact ⟨rfl, rfl⟩
  · rw [act_lp_up s i h]
    split_ifs with h1 h2
    · exact ⟨(lp_handler_requests (count_up s) i true false).2, Or.inr (Or.inl rfl)⟩
    · exact ⟨rfl, Or.inr (Or.inr ⟨rfl, h2⟩)⟩
    · exact ⟨rfl, Or.inl rfl⟩
  · rw [act_lp_down s i h]
    split_ifs with h1 h2
    · exact ⟨(lp_handler_requests (count_down s) i false false).1, Or.inr (Or.inl rfl)⟩
    · exact ⟨rfl, Or.inr (Or.inr ⟨rfl, h2⟩)⟩
    · exact ⟨rfl, Or.inl rfl⟩

theorem tick_requests_zero (s : Mpdec) (i : Tick) (hd : decides s i = true)
    (h : (mp_decision (resync s) i).1 = TEGRA_MPDEC_IDLE ∨
      (mp_decision (resync s) i).1 = TEGRA_MPDEC_UP ∨
      (mp_decision (resync s) i).1 = TEGRA_MPDEC_DOWN) :
    (tegra_mpdec_work_thread s i).lpup_req = 0 ∧
      (tegra_mpdec_work_thread s i).lpdown_req = 0 := by
  rw [tick_decides s i hd, (requeue_frame _).2.2.1, (requeue_frame _).2.2.2]
  exact (act_requests (decided s i) i).2.1 h

theorem tick_counters (s : Mpdec) (i : Tick) (h : counters_bounded s) :
    counters_bounded (tegra_mpdec_work_thread s i) := by
  obtain ⟨b1, b2, b3⟩ := h
  unfold counters_bounded
  rw [(tick_state s i).2]
  cases hd : decides s i
  · rw [tick_skips s i hd, (requeue_frame _).2.2.1, (requeue_frame _).2.2.2]
    exact ⟨b1, b2, b3⟩
  · rw [tick_decides s i hd, (requeue_frame _).2.2.1, (requeue_frame _).2.2.2]
    obtain ⟨_, _, d3, _, d5, d6, _, _⟩ := decided_frame s i
    obtain ⟨a1, a2, a3, a4⟩ := act_requests (decided s i) i
    rw [d3, d5] at a3
    rw [d3, d6] at a4
    rw [d5, d6] at a1
    cases hst : (decided s i).state
    · obtain ⟨e1, e2⟩ := a1 hst
      rw [e1, e2]
      exact ⟨b1, b2, b3⟩
    · obtain ⟨e1, e2⟩ := a2 (Or.inl hst)
      rw [e1, e2]
      exact ⟨Nat.zero_le _, Nat.zero_le _, Or.inl rfl⟩
    · obtain ⟨e1, e2⟩ := a2 (Or.inr (Or.inr hst))
      rw [e1, e2]
      exact ⟨Nat.zero_le _, Nat.zero_le _, Or.inl rfl⟩
    · obtain ⟨e1, e2⟩ := a2 (Or.inr (Or.inl hst))
      rw [e1, e2]
      exact ⟨Nat.zero_le _, Nat.zero_le _, Or.inl rfl⟩
    · obtain ⟨e1, e2⟩ := a3 hst
      rw [e1]
      refine ⟨?_, Nat.zero_le _, Or.inr rfl⟩
      rcases e2 with e | e | ⟨e, hle⟩
      · rw [e]
        exact b1
      · rw [e]
        exact Nat.zero_le _
      · rw [e]
        exact Nat.le_of_not_lt hle
    · obtain ⟨e1, e2⟩ := a4 hst
      rw [e1]
      refine ⟨Nat.zero_le _, ?_, Or.inl rfl⟩
      rcases e2 with e | e | ⟨e, hle⟩
      · rw [e]
        exact b2
      · rw [e]
        exact Nat.zero_le _
      · rw [e]
        exact Nat.le_of_not_lt hle

theorem run_counters : ∀ (ticks : List Tick) (s : Mpdec), counters_bounded s →
    counters_bounded (run_ticks s ticks) ∧ (run_ticks s ticks).tuners = s.tuners := by
  intro ticks
  induction ticks with
  | nil => intro s h; exact ⟨h, rfl⟩
  | cons i rest ih =>
    intro s h
    obtain ⟨a, b⟩ := ih (tegra_mpdec_work_thread s i) (tick_counters s i h)
    exact ⟨a, b.trans (tick_state s i).2⟩

theorem as_int_of_le (x h : Nat) (hx : x ≤ h) (hh : h < 2 ^ 31) :
    0 ≤ as_int x ∧ as_int x ≤ (h : Int) := by
  have hlt : x < 2 ^ 31 := lt_of_le_of_lt hx hh
  unfold as_int
  rw [if_pos hlt]
  exact ⟨Int.natCast_nonneg x, by exact_mod_cast hx⟩

/-- C30, as the code has it.  Starting from both request counters at 0, after
every run of consecutive ticks of the work thread, which leave the tunables
as they are, `lpup_req` is at most `lp_cpu_up_hysteresis` and `lpdown_req` is
at most `lp_cpu_down_hysteresis` as the unsigned 32-bit values that the work
thread compares; read as `int` a counter is between 0 and its hysteresis when
that hysteresis is below `2^31`.  At most one of the two counters is non-zero,
and both are 0 after a further tick whose decision is Idle, ScaleUp or
ScaleDown. -/
theorem hysteresis_counters_bounded (s : Mpdec) (ticks : List Tick) (hup : s.lpup_req = 0)
    (hdown : s.lpdown_req = 0) :
    (run_ticks s ticks).tuners = s.tuners ∧
    (run_ticks s ticks).lpup_req ≤ s.tuners.lp_cpu_up_hysteresis ∧
    (run_ticks s ticks).lpdown_req ≤ s.tuners.lp_cpu_down_hysteresis ∧
    ((run_ticks s ticks).lpup_req = 0 ∨ (run_ticks s ticks).lpdown_req = 0) ∧
    (s.tuners.lp_cpu_up_hysteresis < 2 ^ 31 →
      0 ≤ as_int (run_ticks s ticks).lpup_req ∧
      as_int (run_ticks s ticks).lpup_req ≤ (s.tuners.lp_cpu_up_hysteresis : Int)) ∧
    (s.tuners.lp_cpu_down_hysteresis < 2 ^ 31 →
      0 ≤ as_int (run_ticks s ticks).lpdown_req ∧
      as_int (run_ticks s ticks).lpdown_req ≤ (s.tuners.lp_cpu_down_hysteresis : Int)) ∧
    (∀ i : Tick, decides (run_ticks s ticks) i = true →
      (mp_decision (resync (run_ticks s ticks)) i).1 = TEGRA_MPDEC_IDLE ∨
      (mp_decision (resync (run_ticks s ticks)) i).1 = TEGRA_MPDEC_UP ∨
      (mp_decision (resync (run_ticks s ticks)) i).1 = TEGRA_MPDEC_DOWN →
      (tegra_mpdec_work_thread (run_ticks s ticks) i).lpup_req = 0 ∧
      (tegra_mpdec_work_thread (run_ticks s ticks) i).lpdown_req = 0) := by
  have h0 : counters_bounded s := by
    unfold counters_bounded
    rw [hup, hdown]
    exact ⟨Nat.zero_le _, Nat.zero_le _, Or.inl rfl⟩
  obtain ⟨⟨b1, b2, b3⟩, ht⟩ := run_counters ticks s h0
  rw [ht] at b1 b2
  exact ⟨ht, b1, b2, b3, fun hh => as_int_of_le _ _ b1 hh, fun hh => as_int_of_le _ _ b2 hh,
    fun i hd h => tick_requests_zero _ i hd h⟩

/-- Witness of C30 as amended, on the idle system: after four ticks with low load the up
counter stands at the hysteresis 4 and the down counter at 0; after a fifth
tick, which decides Idle, both are 0. -/
theorem hysteresis_counters_bounded_witness :
    (run_ticks idle_state (mixed_ticks.take 4)).lpup_req = 4 ∧
    (run_ticks idle_state (mixed_ticks.take 4)).lpup_req ≤
      idle_state.tuners.lp_cpu_up_hysteresis ∧
    (run_ticks idle_state (mixed_ticks.take 4)).lpdown_req ≤
      idle_state.tuners.lp_cpu_down_hysteresis ∧
    (tegra_mpdec_work_thread (run_ticks idle_state (mixed_ticks.take 4))
      (sample_tick 38000 40)).lpup_req = 0 ∧
    (tegra_mpdec_work_thread (run_ticks idle_state (mixed_ticks.take 4))
      (sample_tick 38000 40)).lpdown_req = 0 :=
  ⟨by decide,
   (hysteresis_counters_bounded idle_state (mixed_ticks.take 4) (by decide) (by decide)).2.1,
   (hysteresis_counters_bounded idle_state (mixed_ticks.take 4) (by decide) (by decide)).2.2.1,
   ((hysteresis_counters_bounded idle_state (mixed_ticks.take 4) (by decide)
      (by decide)).2.2.2.2.2.2 (sample_tick 38000 40) (by decide) (Or.inl (by decide))).1,
   ((hysteresis_counters_bounded idle_state (mixed_ticks.take 4) (by decide)
      (by decide)).2.2.2.2.2.2 (sample_tick 38000 40) (by decide) (Or.inl (by decide))).2⟩

theorem calm_count (n : Nat) :
    ∀ (start : Nat) (s : Mpdec), 20000 < start → calm_inv s →
      (run_ticks s (ticks_from start n)).lpup_req = (s.lpup_req + n) % U32 ∨
        (n = 0 ∧ (run_ticks s (ticks_from start n)).lpup_req = s.lpup_req) := by
  induction n with
  | zero =>
    intro start s _ _
    exact Or.inr ⟨rfl, rfl⟩
  | succ n ih =>
    intro start s hs h
    left
    have hq := calm_inv_qualifies s start hs h
    have hh : s.tuners.lp_cpu_up_hysteresis = 4294967295 := by rw [h.1]; rfl
    have hle : ¬ (s.lpup_req + 1) % U32 > s.tuners.lp_cpu_up_hysteresis := by
      rw [hh]
      have : (s.lpup_req + 1) % U32 < U32 := Nat.mod_lt _ (by decide)
      simp only [U32] at this ⊢
      omega
    have hstep : (tegra_mpdec_work_thread s (sample_tick start 5)).lpup_req =
        (s.lpup_req + 1) % U32 := by
      rw [tick_up_quiet s _ hq hle]
      show ((decided s (sample_tick start 5)).lpup_req + 1) % U32 = _
      rw [(decided_frame s (sample_tick start 5)).2.2.2.2.1]
    have hinv := (calm_inv_step s start hs h).1
    show (run_ticks (tegra_mpdec_work_thread s (sample_tick start 5))
      (ticks_from (start + 130) n)).lpup_req = _
    rcases ih (start + 130) _ (by omega) hinv with h1 | ⟨h0, h1⟩
    · rw [h1, hstep]
      simp only [U32]
      omega
    · rw [h1, hstep, h0]

/-- Counterexample to C30 as stated: with the up hysteresis set to
4294967295, which `store_lpcpu_up_hysteresis` accepts, and both counters at 0,
after 2147483648 consecutive ticks that each decide CompanionUp the tunables
are as they were and the `int` counter `lpup_req` holds the bit pattern
2147483648, that is the value -2147483648, which is below 0. -/
theorem up_counter_below_zero :
    max_hysteresis_state.lpup_req = 0 ∧ max_hysteresis_state.lpdown_req = 0 ∧
    max_hysteresis_state.tuners.lp_cpu_up_hysteresis = 4294967295 ∧
    (run_ticks max_hysteresis_state (ticks_from 30000 2147483648)).tuners =
      max_hysteresis_state.tuners ∧
    up_run max_hysteresis_state (ticks_from 30000 2147483648) ∧
    (run_ticks max_hysteresis_state (ticks_from 30000 2147483648)).lpup_req = 2147483648 ∧
    as_int (run_ticks max_hysteresis_state (ticks_from 30000 2147483648)).lpup_req =
      -2147483648 ∧
    ¬ 0 ≤ as_int (run_ticks max_hysteresis_state (ticks_from 30000 2147483648)).lpup_req := by
  have hrun := calm_run 2147483648 30000 max_hysteresis_state (by omega) calm_inv_initial
  have hc : (run_ticks max_hysteresis_state (ticks_from 30000 2147483648)).lpup_req =
      2147483648 := by
    rcases calm_count 2147483648 30000 max_hysteresis_state (by omega) calm_inv_initial with
      h | ⟨h, _⟩
    · rw [h]
      rfl
    · exact absurd h (by omega)
  refine ⟨rfl, rfl, rfl, hrun.2.1, hrun.1, hc, ?_, ?_⟩
  · rw [hc]
    unfold as_int
    norm_num
  · rw [hc]
    unfold as_int
    norm_num

end Mpdecision
